import Mathlib

/-!
# SICK LMS5xx SOPAS-ASCII driver

A shallow embedding of `sick.cpp` (and of the error enumeration of
`include/sick-lms5xx/types.hpp`), followed by theorems about it.

Conventions of the embedding.

* A byte (`char`) is a `Char`; a buffer `(const char *data, size_t len)` is the
  `List Char` of its `len` bytes.  The memory behind a buffer that the C library
  reads as a C string is taken to be NUL, as in
  `send_sopas_command_and_check_answer`, which zero-fills its receive buffer.
* `long` and `int` values are integers.  What the C library saturates (`strtol`)
  or what a conversion wraps (`unsigned int` to `int`, `long` to `int`) is written
  out.  A product or sum of signed 64-bit values that leaves the range is undefined
  behaviour in C++; the compiled code computes it modulo 2^64, and so does the
  embedding (`to_int64`).
* `float` and `double` values that are only stored or compared are elements of a
  field `K`; arithmetic on them is exact.  Where a `double` is converted to an
  integer type, the double arithmetic in front of the conversion is rounded as
  IEEE 754 binary64 does (`round_double`), on the rationals.
* What the code takes from outside is a parameter (`Env`): the constant `M_PI`, the
  functions `sin` and `cos`, the contents of uninitialised storage, the answer of the
  allocator to a reservation, and the tick of the system clock.
* A C++ function that can throw or run into undefined behaviour returns
  `Except Fault _`.  The parser, which writes to the `Scan` it is given by
  reference, returns the scan at the moment of the fault together with the fault.
* The library functions `strtok`, `strtol`, `atoi` and `sscanf` are modelled on
  the token or byte sequences the code applies them to.
-/

namespace SickLMS

/-! ## Bytes and C strings -/

/-- Start-of-text byte 0x02, the first byte of a frame. -/
def STX : Char := Char.ofNat 2

/-- End-of-text byte 0x03, the last byte of a frame. -/
def ETX : Char := Char.ofNat 3

/-- The terminating byte of a C string. -/
def NUL : Char := Char.ofNat 0

/-- The blank, the only delimiter the code passes to strtok. -/
def SP : Char := Char.ofNat 32

/-- The C string stored at the start of a byte sequence: everything before the first NUL. -/
def cstr (s : List Char) : List Char := s.takeWhile (fun c => c != NUL)

/-- Tokens of a C string, in the order successive `strtok(.., " ")` calls return them:
maximal runs of non-blank bytes.  `cur` holds the bytes of the run being read, reversed. -/
def strtok_aux : List Char → List Char → List (List Char)
  | [], cur => if cur = [] then [] else [cur.reverse]
  | c :: cs, cur =>
    if c = SP then
      (if cur = [] then strtok_aux cs [] else cur.reverse :: strtok_aux cs [])
    else strtok_aux cs (c :: cur)

/-- All tokens `strtok` yields for a buffer read as a C string with delimiter blank. -/
def strtok_all (s : List Char) : List (List Char) := strtok_aux (cstr s) []

/-- The predicate `isspace` of the C locale. -/
def isspace (c : Char) : Bool := c.toNat = 32 || (9 ≤ c.toNat && c.toNat ≤ 13)

/-- Value of a byte as a digit of the given base (digits, then letters of either case). -/
def digit_value (base : Nat) (c : Char) : Option Nat :=
  let n := c.toNat
  let v : Option Nat :=
    if 48 ≤ n ∧ n ≤ 57 then some (n - 48)
    else if 65 ≤ n ∧ n ≤ 90 then some (n - 55)
    else if 97 ≤ n ∧ n ≤ 122 then some (n - 87)
    else none
  match v with
  | some d => if d < base then some d else none
  | none => none

/-- The number written by the leading digits of `s`, continuing from `acc`. -/
def read_digits (base : Nat) : List Char → Nat → Nat
  | [], acc => acc
  | c :: cs, acc =>
    match digit_value base c with
    | some d => read_digits base cs (acc * base + d)
    | none => acc

/-- Drops an optional sign; the flag says whether it was a minus. -/
def read_sign (s : List Char) : Bool × List Char :=
  match s with
  | c :: cs => if c = '-' then (true, cs) else if c = '+' then (false, cs) else (false, s)
  | [] => (false, s)

/-- Drops the prefix 0x or 0X that base 16 allows in front of a hexadecimal digit. -/
def drop_0x (base : Nat) (s : List Char) : List Char :=
  match s with
  | c0 :: c1 :: c2 :: cs =>
    if base = 16 ∧ c0 = '0' ∧ (c1 = 'x' ∨ c1 = 'X') ∧ (digit_value 16 c2).isSome
    then c2 :: cs else s
  | _ => s

/-- Largest value of a 64-bit `long`. -/
def LONG_MAX : Int := 9223372036854775807

/-- Smallest value of a 64-bit `long`. -/
def LONG_MIN : Int := -9223372036854775808

/-- The C library's `strtol(s, &p, base)` for base 10 or 16: leading white space, an
optional sign, for base 16 an optional 0x, then digits; no digits give 0; a value
outside `long` is saturated. -/
def strtol (s : List Char) (base : Nat) : Int :=
  let (neg, s1) := read_sign (s.dropWhile isspace)
  let m : Int := (read_digits base (drop_0x base s1) 0 : Nat)
  let v : Int := if neg then -m else m
  max LONG_MIN (min LONG_MAX v)

/-- Conversion of an integer to a 32-bit `int` (two's complement). -/
def to_int32 (v : Int) : Int :=
  let r := v % 4294967296
  if r < 2147483648 then r else r - 4294967296

/-- Conversion of an integer to a signed 64-bit integer (two's complement): what the
compiled code computes for a sum or product of `long` values. -/
def to_int64 (v : Int) : Int :=
  let r := v % 18446744073709551616
  if r < 9223372036854775808 then r else r - 18446744073709551616

/-- The C library's `atoi`, that is `(int) strtol(s, NULL, 10)`. -/
def atoi (s : List Char) : Int := to_int32 (strtol s 10)

/-- The input item of a scanf conversion `%X` with maximum field width `w`, read from `s`
(white space already skipped): an optional sign, an optional 0x, hexadecimal digits, at
most `w` bytes in all.  The result is the sign and the magnitude, or `none` when the
conversion fails because no digit was read. -/
def hex_field (w : Nat) (s : List Char) : Option (Bool × Nat) :=
  let (neg, s1, w1) : Bool × List Char × Nat :=
    match s with
    | c :: cs =>
      if 0 < w ∧ c = '-' then (true, cs, w - 1)
      else if 0 < w ∧ c = '+' then (false, cs, w - 1)
      else (false, s, w)
    | [] => (false, s, w)
  match s1 with
  | c0 :: c1 :: cs =>
    if 2 ≤ w1 ∧ c0 = '0' ∧ (c1 = 'x' ∨ c1 = 'X') then
      some (neg, read_digits 16 (cs.take (w1 - 2)) 0)
    else if 0 < w1 ∧ (digit_value 16 c0).isSome then
      some (neg, read_digits 16 (s1.take w1) 0)
    else none
  | [c0] =>
    if 0 < w1 ∧ (digit_value 16 c0).isSome then some (neg, read_digits 16 [c0] 0) else none
  | [] => none

/-- The `unsigned int` a scanf conversion `%X` stores for a sign and a magnitude: the
value `strtoul` gives (the largest `unsigned long` for a magnitude that does not fit, else
the magnitude, negated modulo 2^64 for a minus sign), truncated to 32 bits. -/
def to_uint32 (neg : Bool) (m : Nat) : Nat :=
  let ul : Nat :=
    if 18446744073709551615 < m then 18446744073709551615
    else if neg then (18446744073709551616 - m) % 18446744073709551616
    else m
  ul % 4294967296

/-! ## Error kinds -/

/-- The enumeration `sick_err_t`, an `enum class` over `uint8_t`: a value is its index.
A `static_cast` from an integer can produce any index below 256. -/
abbrev sick_err_t := Nat

namespace sick_err_t

def Ok : sick_err_t := 0
def Sopas_Error_METHODIN_ACCESSDENIED : sick_err_t := 1
def Sopas_Error_METHODIN_UNKNOWNINDEX : sick_err_t := 2
def Sopas_Error_VARIABLE_UNKNOWNINDEX : sick_err_t := 3
def Sopas_Error_LOCALCONDITIONFAILED : sick_err_t := 4
def Sopas_Error_INVALID_DATA : sick_err_t := 5
def Sopas_Error_UNKNOWN_ERROR : sick_err_t := 6
def Sopas_Error_BUFFER_OVERFLOW : sick_err_t := 7
def Sopas_Error_BUFFER_UNDERFLOW : sick_err_t := 8
def Sopas_Error_ERROR_UNKNOWN_TYPE : sick_err_t := 9
def Sopas_Error_VARIABLE_WRITE_ACCESSDENIED : sick_err_t := 10
def Sopas_Error_UNKNOWN_CMD_FOR_NAMESERVER : sick_err_t := 11
def Sopas_Error_UNKNOWN_COLA_COMMAND : sick_err_t := 12
def Sopas_Error_METHODIN_SERVER_BUSY : sick_err_t := 13
def Sopas_Error_FLEX_OUT_OF_BOUNDS : sick_err_t := 14
def Sopas_Error_EVENTREG_UNKNOWNINDEX : sick_err_t := 15
def Sopas_Error_COLA_A_VALUE_OVERFLOW : sick_err_t := 16
def Sopas_Error_COLA_A_INVALID_CHARACTER : sick_err_t := 17
def Sopas_Error_OSAI_NO_MESSAGE : sick_err_t := 18
def Sopas_Error_OSAI_NO_ANSWER_MESSAGE : sick_err_t := 19
def Sopas_Error_INTERNAL : sick_err_t := 20
def Sopas_Error_HubAddressCorrupted : sick_err_t := 21
def Sopas_Error_HubAddressDecoding : sick_err_t := 22
def Sopas_Error_HubAddressAddressExceeded : sick_err_t := 23
def Sopas_Error_HubAddressBlankExpected : sick_err_t := 24
def Sopas_Error_AsyncMethodsAreSuppressed : sick_err_t := 25
def Sopas_Error_ComplexArraysNotSupported : sick_err_t := 26
def CustomError : sick_err_t := 27

/-- Declared in `types.hpp` only; the enumeration of `sick.cpp` ends at `CustomError`. -/
def CustomErrorInvalidDatagram : sick_err_t := 28

/-- Declared in `types.hpp` only. -/
def CustomErrorCommandFailure : sick_err_t := 29

/-- Declared in `types.hpp` only. -/
def CustomErrorSocketSend : sick_err_t := 30

/-- Declared in `types.hpp` only. -/
def CustomErrorSocketRecv : sick_err_t := 31

end sick_err_t

/-- How a C++ function ends when it does not return: with a `std::runtime_error` thrown by
the code, in undefined behaviour (a NULL token handed to `std::string` or `strtol`, a read
past the end of a vector, an uninitialised value used), with the `std::length_error`
that `std::string` and `std::vector` throw for a length they cannot hold, or with the
`std::bad_alloc` of an allocation that fails. -/
inductive Fault where
  | runtime_error (what : String)
  | undefined
  | length_error
  | bad_alloc
  deriving DecidableEq

deriving instance DecidableEq for Except

/-! ## Rounding to `double` -/

/-- The quotient `n / d` rounded to the nearest natural number, a tie to the even one. -/
def round_half_even (n d : Nat) : Nat :=
  if 2 * (n % d) < d then n / d
  else if d < 2 * (n % d) then n / d + 1
  else if (n / d) % 2 = 0 then n / d
  else n / d + 1

/-- The position of the highest bit of `n` (0 for 0 and 1), found in at most `fuel`
halvings. -/
def log2_aux : Nat → Nat → Nat
  | 0, _ => 0
  | fuel + 1, n => if 2 ≤ n then log2_aux fuel (n / 2) + 1 else 0

/-- The position of the highest bit of `n`. -/
def log2 (n : Nat) : Nat := log2_aux n n

/-- The exponent e with 2^e ≤ n / d < 2^(e+1), for positive n and d. -/
def binade (n d : Nat) : Int :=
  let e0 : Int := (log2 n : Int) - (log2 d : Int)
  if (if 0 ≤ e0 then d * 2 ^ e0.toNat ≤ n else d ≤ n * 2 ^ (-e0).toNat) then e0 else e0 - 1

/-- The `double` nearest to a rational number: IEEE 754 binary64, round to nearest, ties
to even, with 53 significant bits and subnormal numbers below 2^-1022.  The exponent is
not bounded above: a value too large for a `double` keeps its magnitude here, where the
machine gives an infinity. -/
def round_double (q : ℚ) : ℚ :=
  if q = 0 then 0
  else
    let n := q.num.natAbs
    let d := q.den
    let k : Int := max (binade n d) (-1022) - 52
    let a : ℚ :=
      if 0 ≤ k then ((round_half_even n (d * 2 ^ k.toNat) * 2 ^ k.toNat : Nat) : ℚ)
      else ((round_half_even (n * 2 ^ (-k).toNat) d : Nat) : ℚ) / ((2 ^ (-k).toNat : Nat) : ℚ)
    if q < 0 then -a else a

/-- The conversion of a `double` to `size_t`: its integral part; undefined behaviour when
that is not a value of `size_t`, as for -1 and below (the x86-64 code then passes on a
size beyond `max_size()`, and `reserve` throws `std::length_error`). -/
def double_to_size_t (x : ℚ) : Except Fault Nat :=
  if 0 ≤ (if 0 ≤ x then ⌊x⌋ else ⌈x⌉) ∧
      (if 0 ≤ x then ⌊x⌋ else ⌈x⌉) < 18446744073709551616 then
    Except.ok (if 0 ≤ x then ⌊x⌋ else ⌈x⌉).toNat
  else Except.error Fault.undefined

/-! ## Reply classification -/

/-- The function `method`: the three bytes after the first byte of a reply. -/
def method (sopas_reply : List Char) : Except Fault String :=
  if sopas_reply.length < 5 then Except.error (Fault.runtime_error "wat")
  else Except.ok (String.mk ((sopas_reply.drop 1).take 3))

/-- The function `status_ok`: whether a status code means success for a command. -/
def status_ok (cmd_name : String) (status_code : Int) : Bool :=
  if cmd_name = "mLMPsetscancfg" then status_code == 0
  else if cmd_name = "mEEwriteall" then status_code == 1
  else if cmd_name = "Run" then status_code == 1
  else if cmd_name = "LMCstopmeas" ∨ cmd_name = "LMCstartmeas" then status_code == 0
  else if cmd_name = "LMDscandata" then true
  else status_code == 1

/-- The function `validate_response`: more than six bytes, exactly one STX and exactly
one ETX among them. -/
def validate_response (data : List Char) : Bool :=
  if data.length ≤ 6 then false
  else data.count STX == 1 && data.count ETX == 1

/-- The call `sscanf(data, "\x02sFA %2X\x03", &status)` with `status` initialised to 0:
the value of `status` afterwards.  The literal bytes STX, s, F, A must match, white
space is skipped, and at most two bytes are converted; when nothing is converted
`status` keeps its initial 0. -/
def sscanf_sFA (data : List Char) : Nat :=
  match cstr data with
  | c0 :: c1 :: c2 :: c3 :: rest =>
    if c0 = STX ∧ c1 = 's' ∧ c2 = 'F' ∧ c3 = 'A' then
      match hex_field 2 (rest.dropWhile isspace) with
      | some (neg, m) => to_uint32 neg m
      | none => 0
    else 0
  | _ => 0

/-- The function `status_from_bytes_ascii`.  In the branch for replies other than sFA the
payload `data[1 .. len-1)` is tokenised; constructing `std::string` from a missing (NULL)
first or second token is undefined behaviour. -/
def status_from_bytes_ascii (data : List Char) : Except Fault sick_err_t :=
  if !validate_response data then Except.ok sick_err_t.CustomError
  else
    match method data with
    | Except.error e => Except.error e
    | Except.ok answer_method =>
      if answer_method = "sFA" then
        Except.ok (sscanf_sFA data % 256)
      else
        match strtok_all ((data.drop 1).take (data.length - 2)) with
        | [] => Except.error Fault.undefined
        | [_] => Except.error Fault.undefined
        | [_, _] => Except.ok sick_err_t.Ok
        | _ :: cmd_name :: token :: _ =>
          if status_ok (String.mk cmd_name) (atoi token) then Except.ok sick_err_t.Ok
          else Except.ok sick_err_t.CustomError

/-- A reply frame: STX, the payload, ETX. -/
def frame (payload : List Char) : List Char := STX :: (payload ++ [ETX])


/-! ## Angles -/

section Model

variable {K : Type} [Field K]

/-- The constant `DEG2RAD` of `sick.cpp`, defined there as `180.0 / M_PI`. -/
def DEG2RAD (M_PI : K) : K := 180 / M_PI

/-- The constant `RAD2DEG` of `sick.cpp`, defined there as `1 / DEG2RAD`. -/
def RAD2DEG (M_PI : K) : K := 1 / DEG2RAD M_PI

/-- The function `angle_to_lms`. -/
def angle_to_lms (M_PI : K) (angle_in : K) : K := angle_in * RAD2DEG M_PI + 90

/-- The function `angle_from_lms`. -/
def angle_from_lms (M_PI : K) (angle_in : K) : K := (angle_in - 90) * DEG2RAD M_PI

/-! ## Scans and channels -/

/-- What the code takes from outside: the constant `M_PI`, the functions `sin` and `cos`,
the indeterminate contents of storage the code reads without having written it (the local
vector `angles` of `parse_scan_telegram`, the `double` members a default-constructed
`Scan` leaves unset), whether the allocator grants a `std::vector<float>` a reservation
of a given number of elements, and the number of ticks of `std::chrono::system_clock` in
a microsecond (1000 in libstdc++, whose clock counts nanoseconds; 1 in libc++).  The clock
counts its ticks in a signed 64-bit integer. -/
structure Env (K : Type) where
  M_PI : K
  sin : K → K
  cos : K → K
  uninit_angles : Nat → K
  uninit_member : Nat → K
  reserve : Nat → Bool
  ticks_per_microsecond : Nat

/-- The struct `Scan`.  `time` counts the ticks of the system clock from its epoch. -/
structure Scan (K : Type) where
  n_vals : Nat
  ranges : List K
  intensities : List K
  start_angle : K
  end_angle : K
  ang_increment : K
  sin_map : List K
  cos_map : List K
  time : Int
  deriving DecidableEq

/-- The constructor `Scan()`: it sets `n_vals` to 0; the vectors start empty, the time
point at the epoch, and the three `double` members stay indeterminate. -/
def Scan.new (env : Env K) : Scan K :=
  { n_vals := 0, ranges := [], intensities := [],
    start_angle := env.uninit_member 0, end_angle := env.uninit_member 1,
    ang_increment := env.uninit_member 2,
    sin_map := [], cos_map := [], time := 0 }

/-- The struct `Channel`. -/
structure Channel (K : Type) where
  ang_incr : K
  angles : List K
  values : List K
  description : List Char
  deriving DecidableEq

/-- The greatest number of elements of a `std::vector<float>`: its `max_size()`, which is
PTRDIFF_MAX / sizeof(float). -/
def vector_max_size : Nat := 2305843009213693951

/-- The constructor `Channel(description, n_values, ang_incr)`.  Its second parameter
sizes the reservation of the two vectors, which stay empty: `reserve` throws
`std::length_error` for more than `max_size()` elements and `std::bad_alloc` when the
allocator does not grant the storage; for 0 elements it allocates nothing. -/
def Channel.new (env : Env K) (description : List Char) (n_values : Nat) (ang_incr : K) :
    Except Fault (Channel K) :=
  if vector_max_size < n_values then Except.error Fault.length_error
  else if n_values = 0 ∨ env.reserve n_values = true then
    Except.ok { description := description, ang_incr := ang_incr, angles := [], values := [] }
  else Except.error Fault.bad_alloc

/-- The conversion `%X` of `sscanf(token, "%X  ", &start_angle_u)`: the `unsigned int`
stored, or `none` when nothing is converted and `start_angle_u` stays uninitialised. -/
def sscanf_X (token : List Char) : Option Nat :=
  match hex_field token.length (token.dropWhile isspace) with
  | some (neg, m) => some (to_uint32 neg m)
  | none => none

/-- The first loop of `parse_channel`: `n` values are read, one token each; reading a
missing token is undefined behaviour.  The product `scale_factor * value` is one of
`long` values.  Returns the values and the tokens left. -/
def read_values (offset scale_factor : Int) :
    Nat → List (List Char) → Except Fault (List K × List (List Char))
  | 0, token => Except.ok ([], token)
  | _ + 1, [] => Except.error Fault.undefined
  | n + 1, t :: token =>
    match read_values offset scale_factor n token with
    | Except.error e => Except.error e
    | Except.ok (vs, rest) =>
      Except.ok
        (((offset : K) + ((to_int64 (scale_factor * strtol t 16) : Int) : K) / 1000) :: vs,
          rest)

/-- The function `parse_channel`, on the tokens from the cursor onwards; it returns the
channel and the tokens from the new cursor position onwards.  The call
`Channel cn(content, ang_incr, n_values)` passes the angular increment where the
constructor expects the number of values and the number of values where it expects the
angular increment: the `double` `strtol(..) / 10000.0` is converted to `size_t` and
sizes the reservation. -/
def parse_channel (env : Env K) (token : List (List Char)) :
    Except Fault (Channel K × List (List Char)) :=
  match token with
  | content :: scale_factor_s :: offset_s :: start_s :: incr_s :: n_s :: token =>
    let scale_factor : Int := if scale_factor_s = "3F800000".toList then 1 else 2
    let offset : Int := strtol offset_s 16
    match sscanf_X start_s with
    | none => Except.error Fault.undefined
    | some start_angle_u =>
      let start_angle : K := ((to_int32 start_angle_u : Int) : K) / 10000
      let ang_incr : K := ((strtol incr_s 16 : Int) : K) / 10000
      let n_values : Int := strtol n_s 16
      match double_to_size_t
          (round_double (round_double ((strtol incr_s 16 : Int) : ℚ) / 10000)) with
      | Except.error e => Except.error e
      | Except.ok size =>
        match Channel.new env content size (n_values : K) with
        | Except.error e => Except.error e
        | Except.ok cn =>
          match read_values offset scale_factor n_values.toNat token with
          | Except.error e => Except.error e
          | Except.ok (values, token) =>
            Except.ok
              ({ cn with
                  values := values,
                  angles := (List.range n_values.toNat).map
                    (fun (i : Nat) =>
                      angle_from_lms env.M_PI (start_angle + (i : K) * ang_incr)) },
               token)
  | _ => Except.error Fault.undefined

/-- The part of `parse_scan_telegram` up to the check of the number of 16-bit channels:
nineteen fields, two more tokens skipped when the encoder field is not 0, then the
channel count, which must be 1.  Returns the tokens from the first channel onwards. -/
def parse_header (token : List (List Char)) : Except Fault (List (List Char)) :=
  match token with
  | _method :: _command :: _proto_version :: _device_num :: _serial_num ::
      _device_status1 :: _device_status2 :: _num_telegrams :: _num_scans ::
      _time_since_boot_us :: _time_of_transmission_us ::
      _status_digital_input_pins1 :: _status_digital_input_pins2 ::
      _status_digital_output_pins1 :: _status_digital_output_pins2 ::
      _layer_angle :: _scan_freq :: _measurement_freq :: encoder_s :: token =>
    let encoder : Int := strtol encoder_s 16
    let token := if encoder ≠ 0 then token.drop 2 else token
    match token with
    | [] => Except.error Fault.undefined
    | num_16bit_channels_s :: token =>
      if strtol num_16bit_channels_s 16 ≠ 1 then
        Except.error (Fault.runtime_error "num_16bit_channels != 1")
      else Except.ok token
  | _ => Except.error Fault.undefined

/-- The part of `parse_scan_telegram` between the 8-bit channel and the time stamp:
position, `name_exists` (two tokens skipped when it is 1), `comment_exists` and
`time_exists`.  Returns `time_exists` and the tokens after it. -/
def parse_flags (token : List (List Char)) : Except Fault (Int × List (List Char)) :=
  match token with
  | _position :: name_exists_s :: token =>
    let token := if strtol name_exists_s 16 = 1 then token.drop 2 else token
    match token with
    | _comment_exists :: time_exists_s :: token => Except.ok (strtol time_exists_s 16, token)
    | _ => Except.error Fault.undefined
  | _ => Except.error Fault.undefined

/-- The duration `years(y)`, in microseconds. -/
def years (y : Int) : Int := y * 31556952 * 1000000

/-- The duration `months(mo)`, in microseconds. -/
def months (mo : Int) : Int := mo * 2629746 * 1000000

/-- The duration `days(d)`, in microseconds. -/
def days (d : Int) : Int := d * 86400 * 1000000

/-- The time stamp of `parse_scan_telegram`: seven hexadecimal fields, summed as `chrono`
durations in microseconds, converted to the duration of the system clock and added to
its epoch.  Every step multiplies or adds signed 64-bit counts; taken modulo 2^64 step
by step or once at the end, the count of ticks is the same. -/
def parse_stamp (env : Env K) (token : List (List Char)) : Except Fault Int :=
  match token with
  | y :: mo :: d :: h :: mi :: s :: us :: _ =>
    Except.ok (to_int64
      ((years (strtol y 16) + months (strtol mo 16) + days (strtol d 16) +
        strtol h 16 * 3600 * 1000000 + strtol mi 16 * 60 * 1000000 +
        strtol s 16 * 1000000 + strtol us 16) * (env.ticks_per_microsecond : Int)))
  | _ => Except.error Fault.undefined

/-- The member `find` of `std::string`: the position of the first occurrence of `pat`,
`none` for `npos`. -/
def string_find : List Char → List Char → Option Nat
  | [], pat => if pat = [] then some 0 else none
  | c :: s, pat =>
    if pat.isPrefixOf (c :: s) then some 0
    else (string_find s pat).map (fun i => i + 1)

/-- A `memcpy` of `n` floats from `src` into `dst`; reading or writing past the end of
either is undefined behaviour. -/
def memcpy (dst src : List K) (n : Nat) : Except Fault (List K) :=
  if n ≤ dst.length ∧ n ≤ src.length then Except.ok (src.take n ++ dst.drop n)
  else Except.error Fault.undefined

/-- The block of `parse_scan_telegram` that runs when `scan.ranges` is empty ("first time
-> fill nonchanging fields").  `front()` and `back()` of an empty vector are undefined
behaviour, reached after four members have been written.  The trigonometric maps are
computed from the freshly allocated vector `angles`, which the code never writes. -/
def fill_nonchanging (env : Env K) (range_cn : Channel K) (scan : Scan K) :
    Except (Fault × Scan K) (Scan K) :=
  let n_vals := range_cn.values.length
  match range_cn.angles.head?, range_cn.angles.getLast? with
  | some front, some back =>
    Except.ok
      { scan with
        n_vals := n_vals,
        ranges := List.replicate n_vals 0,
        intensities := List.replicate n_vals 0,
        ang_increment := range_cn.ang_incr,
        start_angle := angle_to_lms env.M_PI front,
        end_angle := angle_to_lms env.M_PI back,
        cos_map := (List.range n_vals).map (fun i => env.cos (env.uninit_angles i)),
        sin_map := (List.range n_vals).map (fun i => env.sin (env.uninit_angles i)) }
  | _, _ =>
    Except.error (Fault.undefined,
      { scan with
        n_vals := n_vals,
        ranges := List.replicate n_vals 0,
        intensities := List.replicate n_vals 0,
        ang_increment := range_cn.ang_incr })

/-- The end of `parse_scan_telegram` for `time_exists == 1`: the checks of the two
channels, the first-time block, the two copies and the time stamp.  The scan is a
reference parameter: a fault comes with the scan as it is at that moment. -/
def store_scan (env : Env K) (range_cn intensity_cn : Channel K) (stamp : Int)
    (scan : Scan K) : Except (Fault × Scan K) (Bool × Scan K) :=
  if string_find range_cn.description "DIST".toList = none then
    Except.error (Fault.runtime_error
      ("First 16bit channel was not range but " ++ String.mk range_cn.description), scan)
  else if string_find intensity_cn.description "RSSI".toList = none then
    Except.error (Fault.runtime_error
      ("First 8bit channel was not intensity but " ++ String.mk range_cn.description), scan)
  else if range_cn.values.length ≠ intensity_cn.values.length then
    Except.error (Fault.runtime_error "Ranges and intensities not matched in size.", scan)
  else
    match (if scan.ranges.length = 0 then fill_nonchanging env range_cn scan
           else Except.ok scan) with
    | Except.error e => Except.error e
    | Except.ok scan =>
      match memcpy scan.ranges range_cn.values scan.n_vals with
      | Except.error e => Except.error (e, scan)
      | Except.ok ranges =>
        match memcpy scan.intensities intensity_cn.values scan.n_vals with
        | Except.error e => Except.error (e, { scan with ranges := ranges })
        | Except.ok intensities =>
          Except.ok (true, { scan with ranges := ranges, intensities := intensities,
                                       time := stamp })

/-- The function `parse_scan_telegram` on the tokens of the telegram.  Up to the time
stamp no statement writes to the scan: a fault there comes with the scan as given. -/
def parse_tokens (env : Env K) (token : List (List Char)) (scan : Scan K) :
    Except (Fault × Scan K) (Bool × Scan K) :=
  match parse_header token with
  | Except.error e => Except.error (e, scan)
  | Except.ok token =>
    match parse_channel env token with
    | Except.error e => Except.error (e, scan)
    | Except.ok (range_cn, token) =>
      match token with
      | [] => Except.error (Fault.undefined, scan)
      | num_8bit_channels_s :: token =>
        if strtol num_8bit_channels_s 16 ≠ 1 then
          Except.error (Fault.runtime_error
            ("num_8bit_channels = " ++ toString (strtol num_8bit_channels_s 16)), scan)
        else
          match parse_channel env token with
          | Except.error e => Except.error (e, scan)
          | Except.ok (intensity_cn, token) =>
            match parse_flags token with
            | Except.error e => Except.error (e, scan)
            | Except.ok (time_exists, token) =>
              if time_exists = 1 then
                match parse_stamp env token with
                | Except.error e => Except.error (e, scan)
                | Except.ok stamp => store_scan env range_cn intensity_cn stamp scan
              else Except.ok (false, scan)

/-- The function `parse_scan_telegram`: the bytes `buffer[0 .. last_valid_idx]` are copied,
NUL-terminated and tokenised.  The result is what the function returns and the scan
behind its reference parameter afterwards, or the fault and the scan at that moment. -/
def parse_scan_telegram (env : Env K) (buffer : List Char) (last_valid_idx : Nat)
    (scan : Scan K) : Except (Fault × Scan K) (Bool × Scan K) :=
  parse_tokens env (strtok_all (buffer.take (last_valid_idx + 1))) scan

/-! ## Frame reassembly -/

/-- The class `ScanBatcher`.  The field `calls` is not in the source: it records, oldest
first, the byte sequences `buffer[0 .. last_valid_idx]` that `parse_scan_telegram` has
been invoked on. -/
structure ScanBatcher (K : Type) where
  buffer : List Char
  first_junk_idx : Nat
  s : Scan K
  first_scan : Bool
  calls : List (List Char)
  deriving DecidableEq

/-- The constructor `ScanBatcher()`. -/
def ScanBatcher.new (env : Env K) : ScanBatcher K :=
  { buffer := [], first_junk_idx := 0, s := Scan.new env, first_scan := true, calls := [] }

/-- The bytes waiting for their ETX: `buffer[0 .. first_junk_idx)`. -/
def ScanBatcher.pending (b : ScanBatcher K) : List Char := b.buffer.take b.first_junk_idx

/-- The member `insert` of `std::vector` with a range: `xs` goes in before position `pos`. -/
def vector_insert (v : List Char) (pos : Nat) (xs : List Char) : List Char :=
  v.take pos ++ xs ++ v.drop pos

/-- The function `ScanBatcher::add_data`: the optional scan returned and the batcher
afterwards.  An insert position behind the end of the buffer is undefined behaviour; a
fault of the parser leaves through `add_data`. -/
def add_data (env : Env K) (b : ScanBatcher K) (data : List Char) :
    Except Fault (Option (Scan K) × ScanBatcher K) :=
  if b.buffer.length < b.first_junk_idx then Except.error Fault.undefined
  else if ETX ∈ data then
    let etx_idx := data.indexOf ETX
    let buffer := vector_insert b.buffer b.first_junk_idx (data.take (etx_idx + 1))
    let first_junk_idx := b.first_junk_idx + etx_idx + 1
    let parsed : Except Fault (Bool × Scan K × List (List Char)) :=
      if buffer[0]? = some STX ∧ buffer[first_junk_idx - 1]? = some ETX then
        match parse_scan_telegram env buffer (first_junk_idx - 1) b.s with
        | Except.error e => Except.error e.1
        | Except.ok (got, s) =>
          Except.ok (got, s, b.calls ++ [buffer.take (first_junk_idx - 1 + 1)])
      else Except.ok (false, b.s, b.calls)
    match parsed with
    | Except.error e => Except.error e
    | Except.ok (got_scan, s, calls) =>
      let first_scan := if got_scan then false else b.first_scan
      let b1 : ScanBatcher K :=
        if etx_idx + 1 < data.length then
          { buffer := vector_insert buffer 0 (data.drop (etx_idx + 1)),
            first_junk_idx := data.length - (etx_idx + 1),
            s := s, first_scan := first_scan, calls := calls }
        else
          { buffer := buffer, first_junk_idx := 0,
            s := s, first_scan := first_scan, calls := calls }
      Except.ok (if got_scan then some s else none, b1)
  else
    Except.ok (none,
      { b with
        buffer := vector_insert b.buffer b.first_junk_idx data,
        first_junk_idx := b.first_junk_idx + data.length })

/-- The loop of the receiver thread of `start_scan` on the chunks the socket delivers,
in order: every chunk goes to `add_data`, every scan it returns to the callback.  Returns
the scans handed to the callback and the batcher at the end. -/
def receive (env : Env K) :
    ScanBatcher K → List (List Char) → Except Fault (List (Scan K) × ScanBatcher K)
  | b, [] => Except.ok ([], b)
  | b, data :: chunks =>
    match add_data env b data with
    | Except.error e => Except.error e
    | Except.ok (maybe_s, b1) =>
      match receive env b1 chunks with
      | Except.error e => Except.error e
      | Except.ok (scans, b2) => Except.ok (maybe_s.toList ++ scans, b2)

/-- The frame `add_data` closes when the first ETX of a chunk comes after the bytes `c1`:
the pending bytes, then `c1`, then the ETX. -/
def closed_frame (b : ScanBatcher K) (c1 : List Char) : List Char :=
  b.pending ++ (c1 ++ [ETX])

/-- The function `parse_scan_telegram` applied to complete frames one after the other on
the same `Scan`, as the receiver does; a fault of the parser ends the run. -/
def parse_frames (env : Env K) : Scan K → List (List Char) → Except Fault (Scan K)
  | s, [] => Except.ok s
  | s, F :: Fs =>
    match parse_scan_telegram env F (F.length - 1) s with
    | Except.error e => Except.error e.1
    | Except.ok (_, s1) => parse_frames env s1 Fs

end Model

/-! ## Concrete data -/

/-- The `double` value of `M_PI`, 0x400921FB54442D18, as a rational number. -/
def M_PI_double : ℚ := 884279719003555 / 281474976710656

/-- An environment over the rationals: storage reads as zero, with sin 0 = 0 and cos 0 = 1;
the allocator grants reservations of fewer than 2^32 elements; the clock is that of
libstdc++, which counts nanoseconds. -/
def envQ : Env ℚ :=
  { M_PI := M_PI_double, sin := fun _ => 0, cos := fun _ => 1,
    uninit_angles := fun _ => 0, uninit_member := fun _ => 0,
    reserve := fun n => decide (n < 4294967296),
    ticks_per_microsecond := 1000 }

/-- The scan telegram of scenario S5: one DIST1 channel and one RSSI1 channel of five
values each, scale 3F800000, offset 0, start angle -950000 (FFF18110), angular increment
475 (1DB), time stamp present. -/
def payload_S5 : List Char :=
  ("sSN LMDscandata 1 1 12345 0 0 1 1 1000 2000 0 0 3F 0 0 9C4 168 0 1 " ++
    "DIST1 3F800000 00000000 FFF18110 1DB 5 03E8 07D0 0BB8 0FA0 1388 1 " ++
    "RSSI1 3F800000 00000000 FFF18110 1DB 5 A 14 1E 28 32 " ++
    "0 0 0 1 7E5 3 4 C 1E 2D 3E8").toList

/-- The frame of the telegram of scenario S5. -/
def telegram_S5 : List Char := frame payload_S5

/-- The scan that parsing the telegram of scenario S5 into a new `Scan` produces with
`envQ`.  The stamp of the telegram is 63784879875001000 microseconds; in nanoseconds it
does not fit 64 bits, and the count of ticks stored is what is left modulo 2^64. -/
def scan_S5 : Scan ℚ :=
  { n_vals := 5, ranges := [1, 2, 3, 4, 5],
    intensities := [1 / 100, 2 / 100, 3 / 100, 4 / 100, 5 / 100],
    start_angle := -95, end_angle := -9481 / 100, ang_increment := 5,
    sin_map := [0, 0, 0, 0, 0], cos_map := [1, 1, 1, 1, 1],
    time := 8444647653872345152 }

/-- A scan telegram that announces two 16-bit channels. -/
def telegram_two_channels : List Char :=
  frame ("sSN LMDscandata 1 1 12345 0 0 1 1 1000 2000 0 0 3F 0 0 9C4 168 0 2 " ++
    "DIST1 3F800000 00000000 FFF18110 1DB 2 03E8 07D0 " ++
    "DIST2 3F800000 00000000 FFF18110 1DB 2 03E8 07D0 1 " ++
    "RSSI1 3F800000 00000000 FFF18110 1DB 2 A 14 " ++
    "0 0 0 1 7E5 3 4 C 1E 2D 3E8").toList

/-- The bytes that are hexadecimal digits. -/
def hex_digits : List Char := "0123456789ABCDEFabcdef".toList




/-! ## The part of the parser that does not touch the scan -/

section Fields

variable {K : Type} [Field K]

/-- The statements of `parse_scan_telegram` up to and including the field `time_exists`:
header, 16-bit channel, number of 8-bit channels, 8-bit channel, flags.  Returns the range
channel, the intensity channel, `time_exists` and the tokens after it. -/
def parse_fields (env : Env K) (token : List (List Char)) :
    Except Fault (Channel K × Channel K × Int × List (List Char)) :=
  match parse_header token with
  | Except.error e => Except.error e
  | Except.ok token =>
    match parse_channel env token with
    | Except.error e => Except.error e
    | Except.ok (range_cn, token) =>
      match token with
      | [] => Except.error Fault.undefined
      | num_8bit_channels_s :: token =>
        if strtol num_8bit_channels_s 16 ≠ 1 then
          Except.error (Fault.runtime_error
            ("num_8bit_channels = " ++ toString (strtol num_8bit_channels_s 16)))
        else
          match parse_channel env token with
          | Except.error e => Except.error e
          | Except.ok (intensity_cn, token) =>
            match parse_flags token with
            | Except.error e => Except.error e
            | Except.ok (time_exists, token) =>
              Except.ok (range_cn, intensity_cn, time_exists, token)

end Fields

/-- The telegram of scenario S5 with six values in each channel. -/
def telegram_six_values : List Char :=
  frame ("sSN LMDscandata 1 1 12345 0 0 1 2 1000 2000 0 0 3F 0 0 9C4 168 0 1 " ++
    "DIST1 3F800000 00000000 FFF18110 1DB 6 1770 1B58 1F40 2328 2710 2AF8 1 " ++
    "RSSI1 3F800000 00000000 FFF18110 1DB 6 3C 46 50 5A 64 6E " ++
    "0 0 0 1 7E5 3 4 C 1E 2E 0").toList

/-- A telegram whose 16-bit channel is called ANGL1, with a time stamp. -/
def telegram_ANGL1 : List Char :=
  frame ("sSN LMDscandata 1 1 12345 0 0 1 1 1000 2000 0 0 3F 0 0 9C4 168 0 1 " ++
    "ANGL1 3F800000 00000000 FFF18110 1DB 2 03E8 07D0 1 " ++
    "RSSI1 3F800000 00000000 FFF18110 1DB 2 A 14 " ++
    "0 0 0 1 7E5 3 4 C 1E 2D 3E8").toList

/-- A telegram whose 16-bit channel is called ANGL1, without a time stamp
(`time_exists` is 0). -/
def telegram_ANGL1_no_time : List Char :=
  frame ("sSN LMDscandata 1 1 12345 0 0 1 1 1000 2000 0 0 3F 0 0 9C4 168 0 1 " ++
    "ANGL1 3F800000 00000000 FFF18110 1DB 2 03E8 07D0 1 " ++
    "RSSI1 3F800000 00000000 FFF18110 1DB 2 A 14 " ++
    "0 0 0 0").toList

/-- The channel `parse_channel` returns over the rationals for a description, a start angle
and an angular increment in degrees, and the decoded values: the angles are
`angle_from_lms` of the wire angles and `ang_incr` holds the number of values. -/
def channel_Q (description : String) (start incr : ℚ) (values : List ℚ) : Channel ℚ :=
  { description := description.toList,
    ang_incr := (values.length : ℚ),
    values := values,
    angles := (List.range values.length).map
      (fun (i : Nat) => angle_from_lms M_PI_double (start + (i : ℚ) * incr)) }

/-- The time stamp fields of the telegram of scenario S5: year 7E5, month 3, day 4, hour C,
minute 1E, second 2D, microsecond 3E8 followed by the ETX of the frame. -/
def stamp_tokens_S5 : List (List Char) :=
  ["7E5", "3", "4", "C", "1E", "2D"].map String.toList ++ ["3E8".toList ++ [ETX]]

/-! ## Formatted output -/

/-- The character of a digit value below 16, upper case as `%X` writes it. -/
def digit_char (d : Nat) : Char := Char.ofNat (if d < 10 then 48 + d else 55 + d)

/-- The digits of `n` in the given base, most significant first, by at most `fuel` steps. -/
def utoa_aux (base : Nat) : Nat → Nat → List Char
  | 0, _ => []
  | fuel + 1, n =>
    if n < base then [digit_char n]
    else utoa_aux base fuel (n / base) ++ [digit_char (n % base)]

/-- The digits printf writes for an unsigned number: at least one, no leading zero. -/
def utoa (base n : Nat) : List Char := utoa_aux base (n + 1) n

/-- Padding on the left up to a minimum field width. -/
def pad_left (width : Nat) (c : Char) (s : List Char) : List Char :=
  List.replicate (width - s.length) c ++ s

/-- A piece of a printf format: literal text or a conversion.  `d` is `%d` with the flags
`+` and `0` and a minimum width, `u` is `%u` with a minimum width, `X` is `%X` with the
flag `0` and a minimum width, `s` is `%s`. -/
inductive Directive where
  | lit (text : List Char)
  | d (plus zero : Bool) (width : Nat)
  | u (width : Nat)
  | X (zero : Bool) (width : Nat)
  | s
  deriving DecidableEq

/-- An argument of a variadic call: an integer (`int`, `unsigned int` or a promoted
`uint8_t`) or a C string. -/
inductive Arg where
  | int (i : Int)
  | str (s : List Char)
  deriving DecidableEq

/-- The conversion `%d`: the argument as a 32-bit `int`, a sign (always with the flag `+`),
the decimal digits, padded to the width with zeros after the sign (flag `0`) or with
blanks before it. -/
def fmt_d (plus zero : Bool) (width : Nat) (i : Int) : List Char :=
  let v := to_int32 i
  let sign : List Char := if v < 0 then ['-'] else if plus then ['+'] else []
  let digits := utoa 10 v.natAbs
  if zero then sign ++ pad_left (width - sign.length) '0' digits
  else pad_left width SP (sign ++ digits)

/-- The conversions `%u` and `%X`: the argument as a 32-bit `unsigned int`, its digits,
padded to the width with zeros (flag `0`) or blanks. -/
def fmt_unsigned (base : Nat) (zero : Bool) (width : Nat) (i : Int) : List Char :=
  pad_left width (if zero then '0' else SP) (utoa base (i % 4294967296).toNat)

/-- The function `sprintf` for a format and its arguments: the bytes written.  A
conversion without an argument of its kind is undefined behaviour; arguments left over
are ignored. -/
def sprintf : List Directive → List Arg → Except Fault (List Char)
  | [], _ => Except.ok []
  | Directive.lit text :: fmt, args =>
    match sprintf fmt args with
    | Except.error e => Except.error e
    | Except.ok out => Except.ok (text ++ out)
  | Directive.d plus zero width :: fmt, Arg.int i :: args =>
    match sprintf fmt args with
    | Except.error e => Except.error e
    | Except.ok out => Except.ok (fmt_d plus zero width i ++ out)
  | Directive.u width :: fmt, Arg.int i :: args =>
    match sprintf fmt args with
    | Except.error e => Except.error e
    | Except.ok out => Except.ok (fmt_unsigned 10 false width i ++ out)
  | Directive.X zero width :: fmt, Arg.int i :: args =>
    match sprintf fmt args with
    | Except.error e => Except.error e
    | Except.ok out => Except.ok (fmt_unsigned 16 zero width i ++ out)
  | Directive.s :: fmt, Arg.str s :: args =>
    match sprintf fmt args with
    | Except.error e => Except.error e
    | Except.ok out => Except.ok (cstr s ++ out)
  | _, _ => Except.error Fault.undefined

/-! ## Commands -/

/-- The enumeration `SOPASCommand`. -/
inductive SOPASCommand where
  | SETACCESSMODE
  | TSCROLE
  | TSCTCINTERFACE
  | TSCTCSRVADDR
  | MLMPSETSCANCFG
  | LMDSCANDATACFG
  | FRECHOFILTER
  | LMPOUTPUTRANGE
  | MEEWRITEALL
  | RUN
  | LMDSCANDATA
  | LMCSTOPMEAS
  | LMCSTARTMEAS
  deriving DecidableEq

open Directive in
/-- The map `command_masks_`: the printf format of every command, split into its pieces. -/
def command_masks_ : SOPASCommand → List Directive
  | SOPASCommand.SETACCESSMODE =>
    [lit [STX], lit "sMN SetAccessMode ".toList, d false true 2, lit " ".toList,
      X true 8, lit [ETX]]
  | SOPASCommand.TSCROLE => [lit [STX], lit "sWN TSCRole ".toList, d false true 2, lit [ETX]]
  | SOPASCommand.TSCTCINTERFACE =>
    [lit [STX], lit "sWN TSCTCInterface ".toList, d false true 2, lit [ETX]]
  | SOPASCommand.TSCTCSRVADDR => [lit [STX], lit "sWN TSCTCSrvAddr ".toList, s, lit [ETX]]
  | SOPASCommand.MLMPSETSCANCFG =>
    [lit [STX], lit "sMN mLMPsetscancfg +".toList, u 4, lit " +1 +".toList, u 4,
      lit " ".toList, d true false 0, lit " ".toList, d true false 0, lit [ETX]]
  | SOPASCommand.LMDSCANDATACFG =>
    [lit [STX], lit "sWN LMDscandatacfg 00 00 1 0 0 0 00 0 0 0 1 1".toList, lit [ETX]]
  | SOPASCommand.FRECHOFILTER => [lit [STX], lit "sWN FREchoFilter ".toList, u 0, lit [ETX]]
  | SOPASCommand.LMPOUTPUTRANGE =>
    [lit [STX], lit "sWN LMPoutputRange 1 +".toList, u 4, lit " ".toList, d true false 0,
      lit " ".toList, d true false 0, lit [ETX]]
  | SOPASCommand.MEEWRITEALL => [lit [STX], lit "sMN mEEwriteall".toList, lit [ETX]]
  | SOPASCommand.RUN => [lit [STX], lit "sMN Run".toList, lit [ETX]]
  | SOPASCommand.LMDSCANDATA => [lit [STX], lit "sEN LMDscandata ".toList, u 0, lit [ETX]]
  | SOPASCommand.LMCSTOPMEAS => [lit [STX], lit "sMN LMCstopmeas".toList, lit [ETX]]
  | SOPASCommand.LMCSTARTMEAS => [lit [STX], lit "sMN LMCstartmeas".toList, lit [ETX]]

/-- The function `make_command_msg`: the bytes `sprintf` writes for a command and its
arguments. -/
def make_command_msg (cmd : SOPASCommand) (args : List Arg) : Except Fault (List Char) :=
  sprintf (command_masks_ cmd) args

/-! ## The socket and the request/reply exchange -/

/-- What happens on the socket: a message handed to `send`, or a `recv` with the bytes it
delivered (`none` for a `recv` that returned -1). -/
inductive Event where
  | send (data : List Char)
  | recv (data : Option (List Char))
  deriving DecidableEq

/-- The socket as the driver sees it.  `trace` records the calls made so far, oldest first;
`send_results` says for the coming `send` calls whether they succeed (they do once the
list is used up); `inbox` holds what the coming `recv` calls deliver, `none` for a call that
returns -1, as every `recv` does once the list is used up (time-out). -/
structure Socket where
  trace : List Event
  send_results : List Bool
  inbox : List (Option (List Char))
  deriving DecidableEq

/-- The function `send_sopas_command`: whether `send` succeeded, and the socket after it. -/
def send_sopas_command (sock : Socket) (data : List Char) : Bool × Socket :=
  match sock.send_results with
  | [] => (true, { sock with trace := sock.trace ++ [Event.send data] })
  | ok :: rest =>
    (ok, { sock with trace := sock.trace ++ [Event.send data], send_results := rest })

/-- The function `receive_sopas_reply`: the bytes received, or `none` for -1. -/
def receive_sopas_reply (sock : Socket) : Option (List Char) × Socket :=
  match sock.inbox with
  | [] => (none, { sock with trace := sock.trace ++ [Event.recv none] })
  | reply :: rest =>
    (reply, { sock with trace := sock.trace ++ [Event.recv reply], inbox := rest })

/-- The function `sick_err_t_to_string` of `sick.cpp`: a table of 28 names indexed by the
error kind; an index past its end is undefined behaviour. -/
def sick_err_t_to_string (err : sick_err_t) : Except Fault String :=
  match ["Ok", "Sopas_Error_METHODIN_ACCESSDENIED", "Sopas_Error_METHODIN_UNKNOWNINDEX",
    "Sopas_Error_VARIABLE_UNKNOWNINDEX", "Sopas_Error_LOCALCONDITIONFAILED",
    "Sopas_Error_INVALID_DATA", "Sopas_Error_UNKNOWN_ERROR", "Sopas_Error_BUFFER_OVERFLOW",
    "Sopas_Error_BUFFER_UNDERFLOW", "Sopas_Error_ERROR_UNKNOWN_TYPE",
    "Sopas_Error_VARIABLE_WRITE_ACCESSDENIED", "Sopas_Error_UNKNOWN_CMD_FOR_NAMESERVER",
    "Sopas_Error_UNKNOWN_COLA_COMMAND", "Sopas_Error_METHODIN_SERVER_BUSY",
    "Sopas_Error_FLEX_OUT_OF_BOUNDS", "Sopas_Error_EVENTREG_UNKNOWNINDEX",
    "Sopas_Error_COLA_A_VALUE_OVERFLOW", "Sopas_Error_COLA_A_INVALID_CHARACTER",
    "Sopas_Error_OSAI_NO_MESSAGE", "Sopas_Error_OSAI_NO_ANSWER_MESSAGE",
    "Sopas_Error_INTERNAL", "Sopas_Error_HubAddressCorrupted",
    "Sopas_Error_HubAddressDecoding", "Sopas_Error_HubAddressAddressExceeded",
    "Sopas_Error_HubAddressBlankExpected", "Sopas_Error_AsyncMethodsAreSuppressed",
    "Sopas_Error_ComplexArraysNotSupported", "CustomError"][err]? with
  | some name => Except.ok name
  | none => Except.error Fault.undefined

/-- The function `send_sopas_command_and_check_answer`: the command is sent, one reply is
read and classified, and the name of the status is looked up for the log. -/
def send_sopas_command_and_check_answer (sock : Socket) (data : List Char) :
    Except Fault (sick_err_t × Socket) :=
  let (sent, sock) := send_sopas_command sock data
  if !sent then Except.ok (sick_err_t.CustomError, sock)
  else
    let (reply, sock) := receive_sopas_reply sock
    match reply with
    | none => Except.ok (sick_err_t.CustomError, sock)
    | some recvbuf =>
      match status_from_bytes_ascii recvbuf with
      | Except.error e => Except.error e
      | Except.ok status =>
        match sick_err_t_to_string status with
        | Except.error e => Except.error e
        | Except.ok _ => Except.ok (status, sock)

/-- The function `send_command`. -/
def send_command (sock : Socket) (cmd : SOPASCommand) (args : List Arg) :
    Except Fault (sick_err_t × Socket) :=
  match make_command_msg cmd args with
  | Except.error e => Except.error e
  | Except.ok buffer => send_sopas_command_and_check_answer sock buffer

/-- The function `set_access_mode`; the source gives `mode` the default 3 and `pw_hash`
the default 0xF4724744. -/
def set_access_mode (sock : Socket) (mode : Nat) (pw_hash : Nat) :
    Except Fault (sick_err_t × Socket) :=
  match sprintf (command_masks_ SOPASCommand.SETACCESSMODE)
      [Arg.int (mode % 256 : Nat), Arg.int (pw_hash % 4294967296 : Nat)] with
  | Except.error e => Except.error e
  | Except.ok buffer => send_sopas_command_and_check_answer sock buffer

/-! ## Scan configuration -/

section Config

variable {K : Type} [LinearOrderedField K] [FloorRing K]

/-- The struct `LMSConfigParams`; its four members are `double` values. -/
structure LMSConfigParams (K : Type) where
  frequency : K
  resolution : K
  start_angle : K
  end_angle : K

/-- The integral part of a floating-point value, as a conversion to an integer type takes
it (towards zero). -/
def trunc (x : K) : Int := if 0 ≤ x then ⌊x⌋ else ⌈x⌉

/-- The function `round` of the C library: to the nearest integer, halfway cases away from
zero. -/
def c_round (x : K) : Int := if 0 ≤ x then ⌊x + 1 / 2⌋ else ⌈x - 1 / 2⌉

/-- The conversion `static_cast<unsigned int>` of a floating-point value: its integral
part; undefined behaviour when that is not a value of `unsigned int`. -/
def to_unsigned (x : K) : Except Fault Int :=
  if 0 ≤ trunc x ∧ trunc x < 4294967296 then Except.ok (trunc x)
  else Except.error Fault.undefined

/-- The conversion `static_cast<int>` of a floating-point value: its integral part;
undefined behaviour when that is not a value of `int`. -/
def to_int (x : K) : Except Fault Int :=
  if -2147483648 ≤ trunc x ∧ trunc x < 2147483648 then Except.ok (trunc x)
  else Except.error Fault.undefined

/-- The constant `DEG2RAD` of `sick.cpp` as the `double` the compiler computes for
`180.0 / M_PI`. -/
def DEG2RAD_double (M_PI : ℚ) : ℚ := round_double (180 / M_PI)

/-- The constant `RAD2DEG` of `sick.cpp` as the `double` the compiler computes for
`1 / DEG2RAD`. -/
def RAD2DEG_double (M_PI : ℚ) : ℚ := round_double (1 / DEG2RAD_double M_PI)

/-- The function `angle_to_lms` in `double` arithmetic: the product is rounded, then the
sum. -/
def angle_to_lms_double (M_PI angle_in : ℚ) : ℚ :=
  round_double (round_double (angle_in * RAD2DEG_double M_PI) + 90)

/-- The four values `set_scan_config` computes from its parameters, in the order of the
source: `hz_Lms`, `ang_increment_lms`, `start_angle_lms` and `end_angle_lms`, each a
`double` computation (every product and sum rounded) followed by a conversion to an
integer type.  The end angle goes through `static_cast<unsigned int>` and from there into
an `int`. -/
def scan_config_lms (M_PI : ℚ) (params : LMSConfigParams ℚ) :
    Except Fault (Int × Int × Int × Int) :=
  match to_unsigned (round_double (params.frequency * 100)) with
  | Except.error e => Except.error e
  | Except.ok hz_Lms =>
    match to_unsigned ((c_round (round_double (params.resolution * 10000)) : Int) : ℚ) with
    | Except.error e => Except.error e
    | Except.ok ang_increment_lms =>
      match to_int (round_double (angle_to_lms_double M_PI params.start_angle * 10000)) with
      | Except.error e => Except.error e
      | Except.ok start_angle_lms =>
        match to_unsigned
            (round_double (angle_to_lms_double M_PI params.end_angle * 10000)) with
        | Except.error e => Except.error e
        | Except.ok end_angle_u =>
          Except.ok (hz_Lms, ang_increment_lms, start_angle_lms, to_int32 end_angle_u)

/-- The function `set_scan_config`: five commands; the status of the first three is
checked, the status of LMPoutputRange is overwritten by that of LMCstartmeas. -/
def set_scan_config (M_PI : ℚ) (sock : Socket) (params : LMSConfigParams ℚ) :
    Except Fault (sick_err_t × Socket) :=
  match scan_config_lms M_PI params with
  | Except.error e => Except.error e
  | Except.ok (hz_Lms, ang_increment_lms, start_angle_lms, end_angle_lms) =>
    match send_command sock SOPASCommand.MLMPSETSCANCFG
        [Arg.int hz_Lms, Arg.int ang_increment_lms, Arg.int start_angle_lms,
          Arg.int end_angle_lms] with
    | Except.error e => Except.error e
    | Except.ok (status, sock) =>
      if status ≠ sick_err_t.Ok then Except.ok (status, sock)
      else
        match send_command sock SOPASCommand.LMDSCANDATACFG [] with
        | Except.error e => Except.error e
        | Except.ok (status, sock) =>
          if status ≠ sick_err_t.Ok then Except.ok (status, sock)
          else
            match send_command sock SOPASCommand.FRECHOFILTER [Arg.int 2] with
            | Except.error e => Except.error e
            | Except.ok (status, sock) =>
              if status ≠ sick_err_t.Ok then Except.ok (status, sock)
              else
                match send_command sock SOPASCommand.LMPOUTPUTRANGE
                    [Arg.int ang_increment_lms, Arg.int start_angle_lms,
                      Arg.int end_angle_lms] with
                | Except.error e => Except.error e
                | Except.ok (_, sock) => send_command sock SOPASCommand.LMCSTARTMEAS []

end Config

/-! ## Stopping the stream -/

/-- The loop of `stop`: replies are read until one contains the text LMDscandata; that one
is classified, and when it is Ok the driver logs in again and, when the login is Ok, sends
LMCstopmeas.  A `recv` that returns -1 makes `std::string answer(&buffer[0], -1)` throw
`std::length_error`. -/
def stop_loop (trace : List Event) (send_results : List Bool) :
    List (Option (List Char)) → Except Fault Socket
  | [] => Except.error Fault.length_error
  | none :: _ => Except.error Fault.length_error
  | some answer :: inbox =>
    let sock : Socket :=
      { trace := trace ++ [Event.recv (some answer)], send_results := send_results,
        inbox := inbox }
    if string_find answer "LMDscandata".toList ≠ none then
      match status_from_bytes_ascii answer with
      | Except.error e => Except.error e
      | Except.ok status =>
        if status = sick_err_t.Ok then
          match set_access_mode sock 3 4101130052 with
          | Except.error e => Except.error e
          | Except.ok (login_result, sock) =>
            if login_result = sick_err_t.Ok then
              match send_command sock SOPASCommand.LMCSTOPMEAS [] with
              | Except.error e => Except.error e
              | Except.ok (_, sock) => Except.ok sock
            else Except.ok sock
        else
          match sick_err_t_to_string status with
          | Except.error e => Except.error e
          | Except.ok _ => Except.ok sock
    else stop_loop (trace ++ [Event.recv (some answer)]) send_results inbox

/-- The function `SOPASProtocolASCII::stop`, after the receiver thread has been joined:
LMDscandata 0 is sent (the result of `send` is not looked at), then the loop runs. -/
def stop (sock : Socket) : Except Fault Socket :=
  match make_command_msg SOPASCommand.LMDSCANDATA [Arg.int 0] with
  | Except.error e => Except.error e
  | Except.ok buffer =>
    let (_, sock) := send_sopas_command sock buffer
    stop_loop sock.trace sock.send_results sock.inbox

/-! ## IP addresses -/

/-- The loop of the C library's `inet_pton` for `AF_INET`: `done` holds the octets
completed, `cur` the octet being read, `octets` the number of octets begun.  The result is
the four octets, or `none` when the text is not a dotted quad of decimal numbers up to 255
without leading zeros. -/
def inet_pton4 : List Char → List Nat → Nat → Bool → Nat → Option (List Nat)
  | [], done, cur, _, octets => if octets < 4 then none else some (done ++ [cur])
  | ch :: src, done, cur, saw_digit, octets =>
    if 48 ≤ ch.toNat ∧ ch.toNat ≤ 57 then
      if saw_digit ∧ cur = 0 then none
      else if 255 < cur * 10 + (ch.toNat - 48) then none
      else if saw_digit then inet_pton4 src done (cur * 10 + (ch.toNat - 48)) true octets
      else if 4 < octets + 1 then none
      else inet_pton4 src done (cur * 10 + (ch.toNat - 48)) true (octets + 1)
    else if ch = '.' ∧ saw_digit then
      if octets = 4 then none else inet_pton4 src (done ++ [cur]) 0 false octets
    else none

/-- The function `ip_addr_to_int`: the address as `inet_pton` stores it, read as a
`uint32_t` on a little-endian host (first octet in the low byte).  When `inet_pton` fails
the variable returned is uninitialised. -/
def ip_addr_to_int (ip_str : List Char) : Except Fault Nat :=
  match inet_pton4 (cstr ip_str) [] 0 false 0 with
  | some [a, b, c, d] => Except.ok (a + 256 * b + 65536 * c + 16777216 * d)
  | _ => Except.error Fault.undefined

/-- The function `ntohl` on a little-endian host: the four bytes in reverse order. -/
def ntohl (x : Nat) : Nat :=
  (x % 256) * 16777216 + (x / 256 % 256) * 65536 + (x / 65536 % 256) * 256 +
    x / 16777216 % 256

/-- The function `ip_addr_to_hex_str`. -/
def ip_addr_to_hex_str (ip_str : List Char) : Except Fault (List Char) :=
  match ip_addr_to_int ip_str with
  | Except.error e => Except.error e
  | Except.ok ip_network =>
    let ip_as_int := ntohl ip_network
    sprintf
      [Directive.X true 2, Directive.lit " ".toList, Directive.X true 2,
        Directive.lit " ".toList, Directive.X true 2, Directive.lit " ".toList,
        Directive.X true 2]
      [Arg.int (((ip_as_int &&& 0xFF000000) >>> 24 : Nat) : Int),
        Arg.int (((ip_as_int &&& 0x00FF0000) >>> 16 : Nat) : Int),
        Arg.int (((ip_as_int &&& 0x0000FF00) >>> 8 : Nat) : Int),
        Arg.int (((ip_as_int &&& 0x000000FF) >>> 0 : Nat) : Int)]

/-- The function `configure_ntp_client`: TSCRole 1, TSCTCInterface 0 and TSCTCSrvAddr with
the address in hexadecimal; it stops at the first status that is not Ok. -/
def configure_ntp_client (sock : Socket) (ip : List Char) :
    Except Fault (sick_err_t × Socket) :=
  match send_command sock SOPASCommand.TSCROLE [Arg.int 1] with
  | Except.error e => Except.error e
  | Except.ok (role_res, sock) =>
    if role_res ≠ sick_err_t.Ok then Except.ok (role_res, sock)
    else
      match send_command sock SOPASCommand.TSCTCINTERFACE [Arg.int 0] with
      | Except.error e => Except.error e
      | Except.ok (iface_res, sock) =>
        if iface_res ≠ sick_err_t.Ok then Except.ok (iface_res, sock)
        else
          match ip_addr_to_hex_str (cstr ip) with
          | Except.error e => Except.error e
          | Except.ok hex => send_command sock SOPASCommand.TSCTCSRVADDR [Arg.str hex]

/-- The digits `%X` can write. -/
def upper_hex_digits : List Char := "0123456789ABCDEF".toList

/-- The decimal digits. -/
def decimal_digits : List Char := "0123456789".toList

/-- The state of the loop of `inet_pton4` after a run of decimal digits: the value of the
octet being read and the number of octets begun, or `none` when the loop gives up or meets
a byte that is not a digit. -/
def inet_pton4_digits : List Char → Nat → Bool → Nat → Option (Nat × Bool × Nat)
  | [], cur, saw_digit, octets => some (cur, saw_digit, octets)
  | ch :: src, cur, saw_digit, octets =>
    if 48 ≤ ch.toNat ∧ ch.toNat ≤ 57 then
      if saw_digit ∧ cur = 0 then none
      else if 255 < cur * 10 + (ch.toNat - 48) then none
      else if saw_digit then inet_pton4_digits src (cur * 10 + (ch.toNat - 48)) true octets
      else if 4 < octets + 1 then none
      else inet_pton4_digits src (cur * 10 + (ch.toNat - 48)) true (octets + 1)
    else none

/-! ## Concrete configurations and exchanges -/

/-- The parameters of scenario S4 with the angles in radians: 25 Hz, resolution 0.1667,
from -95 to +95 degrees, as the `double` values of `25`, `0.1667`, `-95 * M_PI / 180`
and `95 * M_PI / 180`. -/
def params_S4 : LMSConfigParams ℚ :=
  { frequency := 25, resolution := round_double (1667 / 10000),
    start_angle := round_double (round_double (-95 * M_PI_double) / 180),
    end_angle := round_double (round_double (95 * M_PI_double) / 180) }

/-- The parameters as the `main` function of `sick.cpp` writes them, with the constant
`DEG2RAD` of that file: the `double` values of `25`, `0.1667`, `-95 * DEG2RAD` and
`95 * DEG2RAD`. -/
def params_main : LMSConfigParams ℚ :=
  { frequency := 25, resolution := round_double (1667 / 10000),
    start_angle := round_double (-95 * DEG2RAD_double M_PI_double),
    end_angle := round_double (95 * DEG2RAD_double M_PI_double) }

/-- A sensor that accepts every command of `set_scan_config` but LMPoutputRange, which it
answers with the error 8 (buffer underflow). -/
def sock_output_range_fails : Socket :=
  { trace := [], send_results := [],
    inbox := [some (frame "sAN mLMPsetscancfg 0 +2500 +1 +1667 -50000 +1850000".toList),
      some (frame "sWA LMDscandatacfg".toList), some (frame "sWA FREchoFilter".toList),
      some (frame "sFA 08".toList), some (frame "sAN LMCstartmeas 0".toList)] }

/-- A sensor whose stream is still running when `stop` is called: one scan telegram is
in flight before the reply to LMDscandata 0; the replies to the login and to LMCstopmeas
follow. -/
def sock_one_scan_in_flight : Socket :=
  { trace := [], send_results := [],
    inbox := [some telegram_S5, some (frame "sEA LMDscandata 0".toList),
      some (frame "sAN SetAccessMode 1".toList), some (frame "sAN LMCstopmeas 0".toList)] }

/-- A sensor that answers LMDscandata 0 at once, with no scan telegram in flight. -/
def sock_no_scan_in_flight : Socket :=
  { trace := [], send_results := [],
    inbox := [some (frame "sEA LMDscandata 0".toList),
      some (frame "sAN SetAccessMode 1".toList), some (frame "sAN LMCstopmeas 0".toList)] }

/-- The sign and the digits `%+d` writes for a value of `int`. -/
def signed_decimal (v : Int) : List Char :=
  (if v < 0 then '-' else '+') :: utoa 10 v.natAbs

/-! ## Further concrete telegrams and replies -/

/-- A scan telegram that announces no 8-bit channel: the count after the DIST1 channel
is 0. -/
def telegram_no_8bit_channel : List Char :=
  frame ("sSN LMDscandata 1 1 12345 0 0 1 1 1000 2000 0 0 3F 0 0 9C4 168 0 1 " ++
    "DIST1 3F800000 00000000 FFF18110 1DB 2 03E8 07D0 0 " ++
    "0 0 0 1 7E5 3 4 C 1E 2D 3E8").toList

/-- The body of the telegram of scenario S5 with `time_exists` 0 and no time fields: the
bytes between STX and ETX. -/
def payload_S5_no_time : List Char :=
  ("sSN LMDscandata 1 1 12345 0 0 1 1 1000 2000 0 0 3F 0 0 9C4 168 0 1 " ++
    "DIST1 3F800000 00000000 FFF18110 1DB 5 03E8 07D0 0BB8 0FA0 1388 1 " ++
    "RSSI1 3F800000 00000000 FFF18110 1DB 5 A 14 1E 28 32 " ++
    "0 0 0 0").toList

/-- The tokens of the DIST1 channel of scenario S5 with the scale token 12345678, which is
neither 3F800000 nor 40000000. -/
def channel_other_scale : List (List Char) :=
  ["DIST1", "12345678", "00000000", "FFF18110", "1DB", "5",
    "03E8", "07D0", "0BB8", "0FA0", "1388"].map String.toList

/-- A reply that holds the method sAN and blanks, but no command name. -/
def reply_method_only : List Char := frame "sAN    ".toList
section Proofs
variable {K : Type} [Field K]

/-! ## Lemmas on frames -/

theorem frame_length (payload : List Char) : (frame payload).length = payload.length + 2 := by
  simp [frame]

theorem frame_payload (payload : List Char) :
    ((frame payload).drop 1).take ((frame payload).length - 2) = payload := by
  simp [frame]

theorem status_ok_iff (C : String) (s : Int) :
    (status_ok C s = true) ↔
      (if C = "mLMPsetscancfg" ∨ C = "LMCstopmeas" ∨ C = "LMCstartmeas" then s = 0
       else if C = "mEEwriteall" ∨ C = "Run" then s = 1
       else if C = "LMDscandata" then True
       else s = 1) := by
  unfold status_ok
  by_cases h1 : C = "mLMPsetscancfg"
  · simp [h1]
  by_cases h2 : C = "mEEwriteall"
  · subst h2; simp
  by_cases h3 : C = "Run"
  · subst h3; simp
  by_cases h4 : C = "LMCstopmeas"
  · simp [h4]
  by_cases h5 : C = "LMCstartmeas"
  · simp [h5]
  by_cases h6 : C = "LMDscandata"
  · simp [h6]
  simp [h1, h2, h3, h4, h5, h6]

theorem validate_frame_iff (payload : List Char) :
    validate_response (frame payload) = true ↔
      (5 ≤ payload.length ∧ STX ∉ payload ∧ ETX ∉ payload) := by
  have h23 : (STX == ETX) = false := by decide
  have h32 : (ETX == STX) = false := by decide
  unfold validate_response
  rw [frame_length]
  by_cases hl : payload.length + 2 ≤ 6
  · simp [hl]; omega
  · simp [hl, frame, List.count_cons, List.count_append, h23, h32, List.count_eq_zero]
    omega

theorem status_invalid (data : List Char)
    (h : ¬ (data.count STX = 1 ∧ data.count ETX = 1)) :
    status_from_bytes_ascii data = Except.ok sick_err_t.CustomError := by
  have hv : validate_response data = false := by
    unfold validate_response
    by_cases hl : data.length ≤ 6
    · simp [hl]
    · simp only [hl, if_false]
      by_contra hc
      simp at hc
      exact h hc
  simp [status_from_bytes_ascii, hv]

theorem status_from_bytes_ascii_tokens (payload : List Char)
    (hv : validate_response (frame payload) = true)
    (hm : method (frame payload) ≠ Except.ok "sFA") :
    status_from_bytes_ascii (frame payload) =
      match strtok_all payload with
      | [] => Except.error Fault.undefined
      | [_] => Except.error Fault.undefined
      | [_, _] => Except.ok sick_err_t.Ok
      | _ :: cmd_name :: token :: _ =>
        if status_ok (String.mk cmd_name) (atoi token) then Except.ok sick_err_t.Ok
        else Except.ok sick_err_t.CustomError := by
  unfold status_from_bytes_ascii
  rw [frame_payload]
  simp only [hv, Bool.not_true, Bool.false_eq_true, if_false]
  cases hmeth : method (frame payload) with
  | error e => 
    exfalso
    unfold method at hmeth
    rw [frame_length] at hmeth
    have : 5 ≤ payload.length := ((validate_frame_iff payload).1 hv).1
    have h5 : ¬ (payload.length + 2 < 5) := by omega
    simp [h5] at hmeth
  | ok am =>
    have : am ≠ "sFA" := by
      intro h; apply hm; rw [hmeth, h]
    simp [this]

theorem method_of_token (m rest : List Char) (hlen : m.length = 3) :
    method (frame (m ++ rest)) = Except.ok (String.mk m) := by
  have h5 : ¬ ((frame (m ++ rest)).length < 5) := by
    rw [frame_length]; simp [hlen]
  have ht : List.take 3 (m ++ (rest ++ [ETX])) = m := by
    rw [← hlen]; exact List.take_left' rfl
  have hd : (frame (m ++ rest)).drop 1 = m ++ (rest ++ [ETX]) := by
    simp [frame]
  unfold method
  rw [if_neg h5, hd, ht]

theorem mem_hex_digits (c : Char) (a : Nat) (h : digit_value 16 c = some a) :
    c ∈ hex_digits := by
  have hc : c = Char.ofNat c.toNat := (Char.ofNat_toNat c).symm
  have hr : (48 ≤ c.toNat ∧ c.toNat ≤ 57) ∨ (65 ≤ c.toNat ∧ c.toNat ≤ 70) ∨
      (97 ≤ c.toNat ∧ c.toNat ≤ 102) := by
    unfold digit_value at h
    simp only at h
    split_ifs at h with h1 h2 h3
    · exact Or.inl h1
    · right; left
      refine ⟨h2.1, ?_⟩
      simp only at h
      split_ifs at h with h4
      omega
    · right; right
      refine ⟨h3.1, ?_⟩
      simp only at h
      split_ifs at h with h4
      omega
  generalize c.toNat = n at hc hr
  subst hc
  rcases hr with ⟨h1, h2⟩ | ⟨h1, h2⟩ | ⟨h1, h2⟩ <;> interval_cases n <;> decide

theorem sFA_all_digits :
    ∀ c1 ∈ hex_digits, ∀ c2 ∈ hex_digits,
      (1 ≤ read_digits 16 [c1, c2] 0 ∧ read_digits 16 [c1, c2] 0 ≤ 26) →
      status_from_bytes_ascii (frame ("sFA ".toList ++ [c1, c2])) =
        Except.ok (read_digits 16 [c1, c2] 0) := by
  decide

theorem status_sFA_digits (c1 c2 : Char) (a b : Nat)
    (h1 : digit_value 16 c1 = some a) (h2 : digit_value 16 c2 = some b)
    (hlo : 1 ≤ 16 * a + b) (hhi : 16 * a + b ≤ 26) :
    status_from_bytes_ascii (frame ("sFA ".toList ++ [c1, c2])) = Except.ok (16 * a + b) := by
  have hv : read_digits 16 [c1, c2] 0 = 16 * a + b := by
    simp [read_digits, h1, h2]; ring
  have := sFA_all_digits c1 (mem_hex_digits c1 a h1) c2 (mem_hex_digits c2 b h2)
  rw [hv] at this
  exact this ⟨hlo, hhi⟩






/-! ## Lemmas on the reassembler -/

theorem vector_insert_take (v xs : List Char) (pos : Nat) (h : pos ≤ v.length) :
    (vector_insert v pos xs).take (pos + xs.length) = v.take pos ++ xs := by
  unfold vector_insert
  have hl : (v.take pos ++ xs).length = pos + xs.length := by
    simp [List.length_take, Nat.min_eq_left h]
  rw [← hl, List.take_left']
  rfl

theorem indexOf_first (c1 c2 : List Char) (h1 : ETX ∉ c1) :
    (c1 ++ ETX :: c2).indexOf ETX = c1.length := by
  rw [List.indexOf_append_of_not_mem h1]
  simp

theorem parse_scan_telegram_take (env : Env K) (buffer : List Char) (idx : Nat) (s : Scan K) :
    parse_scan_telegram env buffer idx s =
      parse_scan_telegram env (buffer.take (idx + 1)) idx s := by
  unfold parse_scan_telegram
  rw [List.take_take, Nat.min_self]

theorem add_data_without_etx (env : Env K) (b : ScanBatcher K) (c : List Char)
    (hb : b.first_junk_idx ≤ b.buffer.length) (hc : ETX ∉ c) :
    add_data env b c = Except.ok (none,
      { b with
        buffer := vector_insert b.buffer b.first_junk_idx c,
        first_junk_idx := b.first_junk_idx + c.length }) := by
  unfold add_data
  simp [Nat.not_lt.mpr hb, hc]

theorem add_data_with_etx (env : Env K) (b : ScanBatcher K) (c1 c2 : List Char)
    (hb : b.first_junk_idx ≤ b.buffer.length) (h1 : ETX ∉ c1) :
    add_data env b (c1 ++ ETX :: c2) =
      match (if (closed_frame b c1).head? = some STX then
              (match parse_scan_telegram env (closed_frame b c1)
                  ((closed_frame b c1).length - 1) b.s with
                | Except.error e => Except.error e.1
                | Except.ok (got, s) =>
                  Except.ok (got, s, b.calls ++ [closed_frame b c1]))
            else Except.ok (false, b.s, b.calls) :
              Except Fault (Bool × Scan K × List (List Char))) with
      | Except.error e => Except.error e
      | Except.ok (got, s, calls) =>
        Except.ok (if got then some s else none,
          { buffer := c2 ++ (closed_frame b c1 ++ b.buffer.drop b.first_junk_idx),
            first_junk_idx := c2.length,
            s := s,
            first_scan := if got then false else b.first_scan,
            calls := calls }) := by
  have hmem : ETX ∈ c1 ++ ETX :: c2 := by simp
  have hidx := indexOf_first c1 c2 h1
  have htake : (c1 ++ ETX :: c2).take (c1.length + 1) = c1 ++ [ETX] := by
    rw [show c1 ++ ETX :: c2 = (c1 ++ [ETX]) ++ c2 by simp]
    rw [show c1.length + 1 = (c1 ++ [ETX]).length by simp]
    exact List.take_left' rfl
  have hdrop : (c1 ++ ETX :: c2).drop (c1.length + 1) = c2 := by
    rw [show c1 ++ ETX :: c2 = (c1 ++ [ETX]) ++ c2 by simp]
    rw [show c1.length + 1 = (c1 ++ [ETX]).length by simp]
    exact List.drop_left' rfl
  have hplen : b.pending.length = b.first_junk_idx := by
    simp [ScanBatcher.pending, List.length_take, Nat.min_eq_left hb]
  have hflen : (closed_frame b c1).length = b.first_junk_idx + c1.length + 1 := by
    simp [closed_frame, hplen]; omega
  have hbuf : vector_insert b.buffer b.first_junk_idx (c1 ++ [ETX]) =
      closed_frame b c1 ++ b.buffer.drop b.first_junk_idx := by
    simp [vector_insert, closed_frame, ScanBatcher.pending]
  have hne : closed_frame b c1 ≠ [] := by simp [closed_frame]
  have h0 : (closed_frame b c1 ++ b.buffer.drop b.first_junk_idx)[0]? =
      (closed_frame b c1).head? := by
    cases hcf : closed_frame b c1 with
    | nil => exact absurd hcf hne
    | cons x xs => simp
  have hlast : (closed_frame b c1 ++ b.buffer.drop b.first_junk_idx)[
      b.first_junk_idx + c1.length + 1 - 1]? = some ETX := by
    rw [List.getElem?_append_left (by rw [hflen]; omega)]
    simp only [closed_frame]
    rw [← List.append_assoc]
    rw [List.getElem?_append_right (by simp [hplen])]
    simp [hplen]
  have htk : (closed_frame b c1 ++ b.buffer.drop b.first_junk_idx).take
      (b.first_junk_idx + c1.length + 1 - 1 + 1) = closed_frame b c1 := by
    rw [show b.first_junk_idx + c1.length + 1 - 1 + 1 = (closed_frame b c1).length by
      rw [hflen]; omega]
    exact List.take_left' rfl
  have hparse : parse_scan_telegram env
      (closed_frame b c1 ++ b.buffer.drop b.first_junk_idx)
      (b.first_junk_idx + c1.length + 1 - 1) b.s =
      parse_scan_telegram env (closed_frame b c1) ((closed_frame b c1).length - 1) b.s := by
    rw [parse_scan_telegram_take, htk, hflen]
  unfold add_data
  simp only [Nat.not_lt.mpr hb, if_false, hmem, if_true, hidx, htake, hdrop, hbuf, h0, hlast,
    and_true, htk, hparse]
  by_cases hstx : (closed_frame b c1).head? = some STX
  · simp only [hstx, if_true]
    cases hp : parse_scan_telegram env (closed_frame b c1)
        ((closed_frame b c1).length - 1) b.s with
    | error e => rfl
    | ok r =>
      obtain ⟨got, s⟩ := r
      simp only []
      by_cases hc2 : c2 = []
      · subst hc2; simp [vector_insert]
      · have hpos : 0 < c2.length := List.length_pos.mpr hc2
        have hsub : c1.length + (c2.length + 1) - (c1.length + 1) = c2.length := by omega
        simp [vector_insert, hpos, hsub]
  · simp only [hstx, if_false]
    by_cases hc2 : c2 = []
    · subst hc2; simp [vector_insert]
    · have hpos : 0 < c2.length := List.length_pos.mpr hc2
      have hsub : c1.length + (c2.length + 1) - (c1.length + 1) = c2.length := by omega
      simp [vector_insert, hpos, hsub]

theorem append_cons_unique {α : Type} (x : α) :
    ∀ (a a' b b' : List α), x ∉ a → x ∉ a' → a ++ x :: b = a' ++ x :: b' → a = a' ∧ b = b' := by
  intro a
  induction a with
  | nil =>
    intro a' b b' _ ha' h
    cases a' with
    | nil => simpa using h
    | cons y ys =>
      simp only [List.nil_append, List.cons_append, List.cons.injEq] at h
      exact absurd (h.1 ▸ List.mem_cons_self _ _) ha'
  | cons z zs ih =>
    intro a' b b' ha ha' h
    cases a' with
    | nil =>
      simp only [List.nil_append, List.cons_append, List.cons.injEq] at h
      exact absurd (h.1 ▸ List.mem_cons_self _ _) ha
    | cons y ys =>
      simp only [List.cons_append, List.cons.injEq] at h
      have := ih ys b b' (fun hm => ha (List.mem_cons_of_mem _ hm))
        (fun hm => ha' (List.mem_cons_of_mem _ hm)) h.2
      exact ⟨by rw [h.1, this.1], this.2⟩

theorem receive_frames_aux (env : Env K) :
    ∀ (chunks : List (List Char)) (b : ScanBatcher K) (bodies : List (List Char))
      (s_final : Scan K),
      b.first_junk_idx ≤ b.buffer.length →
      ETX ∉ b.pending →
      (∀ body ∈ bodies, ETX ∉ body) →
      b.pending ++ chunks.flatten = (bodies.map frame).flatten →
      (∀ c ∈ chunks, c.count ETX ≤ 1) →
      parse_frames env b.s (bodies.map frame) = Except.ok s_final →
      ∃ scans b', receive env b chunks = Except.ok (scans, b') ∧
        b'.calls = b.calls ++ bodies.map frame ∧ b'.pending = [] ∧ b'.s = s_final := by
  intro chunks
  induction chunks with
  | nil =>
    intro b bodies s_final _ hP hbody hsplit _ hparse
    cases bodies with
    | nil =>
      refine ⟨[], b, rfl, by simp, ?_, ?_⟩
      · simpa using hsplit
      · simpa [parse_frames] using hparse
    | cons body rest =>
      exfalso
      apply hP
      simp only [List.flatten_nil, List.append_nil] at hsplit
      rw [hsplit]
      simp [frame]
  | cons c cs ih =>
    intro b bodies s_final hb hP hbody hsplit hone hparse
    by_cases hc : ETX ∈ c
    · obtain ⟨c1, c2, hceq, hc1⟩ := List.eq_append_cons_of_mem hc
      subst hceq
      have hcount := hone (c1 ++ ETX :: c2) (List.mem_cons_self _ _)
      have hc2 : ETX ∉ c2 := by
        intro hm
        have : 0 < c2.count ETX := List.count_pos_iff.mpr hm
        simp [List.count_append, List.count_cons] at hcount
        omega
      cases bodies with
      | nil =>
        exfalso
        have : ETX ∈ b.pending ++ ((c1 ++ ETX :: c2) :: cs).flatten := by simp
        rw [hsplit] at this
        simp at this
      | cons body rest =>
        have hb0 : ETX ∉ body := hbody body (List.mem_cons_self _ _)
        have hse : STX ≠ ETX := by decide
        have hdec := append_cons_unique ETX (b.pending ++ c1) (STX :: body)
          (c2 ++ cs.flatten) ((rest.map frame).flatten)
          (by simp [hP, hc1]) (by simp [hb0, hse.symm])
          (by simpa [frame] using hsplit)
        have hcf : closed_frame b c1 = frame body := by
          simp only [closed_frame, frame]
          rw [← List.append_assoc, hdec.1]
          rfl
        simp only [List.map_cons, parse_frames] at hparse
        cases hp : parse_scan_telegram env (frame body) ((frame body).length - 1) b.s with
        | error e => rw [hp] at hparse; simp at hparse
        | ok r =>
          obtain ⟨got, s1⟩ := r
          rw [hp] at hparse
          simp only [] at hparse
          have hstep := add_data_with_etx env b c1 c2 hb hc1
          rw [hcf] at hstep
          have hhead : (frame body).head? = some STX := rfl
          simp only [hhead, if_true, hp] at hstep
          have hpend1 : ∀ (buf : List Char) (sc : Scan K) (fs : Bool) (cl : List (List Char)),
              ScanBatcher.pending
                ({ buffer := c2 ++ buf, first_junk_idx := c2.length, s := sc,
                   first_scan := fs, calls := cl } : ScanBatcher K) = c2 := by
            intro buf sc fs cl
            simp [ScanBatcher.pending]
          obtain ⟨scans, b', hrec, hcalls, hpend, hs⟩ :=
            ih ({ buffer := c2 ++ (frame body ++ b.buffer.drop b.first_junk_idx),
                  first_junk_idx := c2.length, s := s1,
                  first_scan := if got then false else b.first_scan,
                  calls := b.calls ++ [frame body] } : ScanBatcher K) rest s_final
              (by simp)
              (by rw [hpend1]; exact hc2)
              (fun body hm => hbody body (List.mem_cons_of_mem _ hm))
              (by rw [hpend1]; exact hdec.2)
              (fun c hm => hone c (List.mem_cons_of_mem _ hm))
              hparse
          refine ⟨(if got then some s1 else none).toList ++ scans, b', ?_, ?_, hpend, hs⟩
          · simp only [receive, hstep, hrec]
          · rw [hcalls]; simp
    · have hstep := add_data_without_etx env b c hb hc
      have hpend1 : ScanBatcher.pending
          ({ b with buffer := vector_insert b.buffer b.first_junk_idx c,
                    first_junk_idx := b.first_junk_idx + c.length } : ScanBatcher K) =
          b.pending ++ c := by
        simp only [ScanBatcher.pending]
        exact vector_insert_take _ _ _ hb
      obtain ⟨scans, b', hrec, hcalls, hpend, hs⟩ :=
        ih ({ b with buffer := vector_insert b.buffer b.first_junk_idx c,
                     first_junk_idx := b.first_junk_idx + c.length } : ScanBatcher K)
          bodies s_final
          (by
            simp only [vector_insert, List.length_append, List.length_take, List.length_drop]
            omega)
          (by rw [hpend1]; simp [hP, hc])
          hbody
          (by rw [hpend1]; simpa using hsplit)
          (fun c hm => hone c (List.mem_cons_of_mem _ hm))
          hparse
      refine ⟨(none : Option (Scan K)).toList ++ scans, b', ?_, hcalls, hpend, hs⟩
      simp only [receive, hstep, hrec]



/-! ## Lemmas on the telegram parser -/

theorem parse_S5 :
    parse_scan_telegram envQ telegram_S5 (telegram_S5.length - 1) (Scan.new envQ) =
      Except.ok (true, scan_S5) := by
  decide!

theorem parse_two_channels :
    parse_scan_telegram envQ telegram_two_channels (telegram_two_channels.length - 1)
        (Scan.new envQ) =
      Except.error (Fault.runtime_error "num_16bit_channels != 1", Scan.new envQ) := by
  decide!

theorem read_values_all (offset scale_factor : Int) (rest : List (List Char)) :
    ∀ vals : List (List Char),
      read_values (K := K) offset scale_factor vals.length (vals ++ rest) =
        Except.ok (vals.map (fun r =>
          (offset : K) + ((to_int64 (scale_factor * strtol r 16) : Int) : K) / 1000),
          rest) := by
  intro vals
  induction vals with
  | nil => rfl
  | cons v vs ih =>
    have ih' : read_values (K := K) offset scale_factor vs.length (vs.append rest) = _ := ih
    simp only [List.length_cons, List.cons_append, read_values, ih', List.map_cons]

omit [Field K] in
theorem Channel_new_ok (env : Env K) (desc : List Char) (size : Nat) (ang_incr : K)
    (hmax : size ≤ vector_max_size) (hres : size = 0 ∨ env.reserve size = true) :
    Channel.new env desc size ang_incr =
      Except.ok { description := desc, ang_incr := ang_incr, angles := [], values := [] } := by
  unfold Channel.new
  rw [if_neg (by omega), if_pos hres]

theorem parse_channel_eq (env : Env K) (desc scale off start incr n : List Char)
    (vals rest : List (List Char)) (u size : Nat)
    (hstart : sscanf_X start = some u)
    (hsize : double_to_size_t
      (round_double (round_double ((strtol incr 16 : Int) : ℚ) / 10000)) = Except.ok size)
    (hmax : size ≤ vector_max_size) (hres : size = 0 ∨ env.reserve size = true)
    (hn : strtol n 16 = (vals.length : Int)) :
    parse_channel env (desc :: scale :: off :: start :: incr :: n :: (vals ++ rest)) =
      Except.ok
        ({ ang_incr := ((strtol n 16 : Int) : K),
           angles := (List.range vals.length).map (fun (i : Nat) =>
             angle_from_lms env.M_PI (((to_int32 u : Int) : K) / 10000 +
               (i : K) * (((strtol incr 16 : Int) : K) / 10000))),
           values := vals.map (fun r =>
             ((strtol off 16 : Int) : K) +
               ((to_int64 ((if scale = "3F800000".toList then 1 else 2) * strtol r 16) :
                 Int) : K) / 1000),
           description := desc }, rest) := by
  have hnat : (strtol n 16).toNat = vals.length := by rw [hn]; simp
  have hrv := read_values_all (K := K) (strtol off 16)
    (if scale = "3F800000".toList then 1 else 2) rest vals
  simp only [parse_channel, hstart, hsize, Channel_new_ok env desc size _ hmax hres, hnat, hrv]

theorem read_values_length (offset scale_factor : Int) :
    ∀ (k : Nat) (token : List (List Char)) (vs : List K) (t : List (List Char)),
      read_values (K := K) offset scale_factor k token = Except.ok (vs, t) →
        vs.length = k := by
  intro k
  induction k with
  | zero =>
    intro token vs t h
    simp only [read_values, Except.ok.injEq, Prod.mk.injEq] at h
    rw [← h.1]; rfl
  | succ k ih =>
    intro token vs t h
    cases token with
    | nil => simp [read_values] at h
    | cons t0 ts =>
      simp only [read_values] at h
      cases hr : read_values (K := K) offset scale_factor k ts with
      | error e => rw [hr] at h; simp at h
      | ok r =>
        obtain ⟨vs0, t1⟩ := r
        rw [hr] at h
        simp only [Except.ok.injEq, Prod.mk.injEq] at h
        rw [← h.1, List.length_cons, ih ts vs0 t1 hr]

theorem parse_channel_ok (env : Env K) (desc scale off start incr n : List Char)
    (rest t : List (List Char)) (cn : Channel K)
    (h : parse_channel env (desc :: scale :: off :: start :: incr :: n :: rest) =
      Except.ok (cn, t)) :
    ∃ u, sscanf_X start = some u ∧ cn.description = desc ∧
      cn.ang_incr = ((strtol n 16 : Int) : K) ∧
      cn.values.length = (strtol n 16).toNat ∧
      cn.angles = (List.range (strtol n 16).toNat).map (fun (i : Nat) =>
        angle_from_lms env.M_PI (((to_int32 u : Int) : K) / 10000 +
          (i : K) * (((strtol incr 16 : Int) : K) / 10000))) := by
  simp only [parse_channel] at h
  cases hs : sscanf_X start with
  | none => rw [hs] at h; simp at h
  | some u =>
    rw [hs] at h
    simp only [] at h
    cases hz : double_to_size_t
        (round_double (round_double ((strtol incr 16 : Int) : ℚ) / 10000)) with
    | error e => rw [hz] at h; simp at h
    | ok size =>
      rw [hz] at h
      simp only [] at h
      cases hc : Channel.new env desc size ((strtol n 16 : Int) : K) with
      | error e => rw [hc] at h; simp at h
      | ok cn0 =>
        have hcn0 : cn0 =
            { description := desc, ang_incr := ((strtol n 16 : Int) : K),
              angles := [], values := [] } := by
          unfold Channel.new at hc
          split_ifs at hc
          simp only [Except.ok.injEq] at hc
          exact hc.symm
        rw [hc] at h
        simp only [] at h
        cases hr : read_values (K := K) (strtol off 16)
            (if scale = "3F800000".toList then 1 else 2) (strtol n 16).toNat rest with
        | error e => rw [hr] at h; simp at h
        | ok r =>
          obtain ⟨vs, t1⟩ := r
          rw [hr] at h
          simp only [Except.ok.injEq, Prod.mk.injEq] at h
          subst hcn0
          refine ⟨u, rfl, ?_, ?_, ?_, ?_⟩
          · rw [← h.1]
          · rw [← h.1]
          · rw [← h.1]; exact read_values_length _ _ _ _ _ _ hr
          · rw [← h.1]

theorem angle_to_lms_from_lms [CharZero K] (M_PI : K) (hM : M_PI ≠ 0) (x : K) :
    angle_to_lms M_PI (angle_from_lms M_PI x) = x := by
  have h180 : (180 : K) ≠ 0 := by norm_num
  unfold angle_to_lms angle_from_lms RAD2DEG DEG2RAD
  field_simp

omit [Field K] in
theorem memcpy_all (dst src : List K) (h : dst.length = src.length) :
    memcpy dst src src.length = Except.ok src := by
  simp [memcpy, h]

theorem store_scan_first (env : Env K) (range_cn intensity_cn : Channel K) (stamp : Int)
    (scan scan' : Scan K) (hfirst : scan.ranges = [])
    (h : store_scan env range_cn intensity_cn stamp scan = Except.ok (true, scan')) :
    ∃ front back, range_cn.angles.head? = some front ∧ range_cn.angles.getLast? = some back ∧
      scan'.n_vals = range_cn.values.length ∧
      scan'.ang_increment = range_cn.ang_incr ∧
      scan'.start_angle = angle_to_lms env.M_PI front ∧
      scan'.end_angle = angle_to_lms env.M_PI back ∧
      scan'.ranges = range_cn.values ∧
      scan'.intensities = intensity_cn.values ∧
      scan'.time = stamp := by
  unfold store_scan at h
  have h0 : scan.ranges.length = 0 := by rw [hfirst]; rfl
  rw [if_pos h0] at h
  split_ifs at h with h1 h2 h3
  have hlen : range_cn.values.length = intensity_cn.values.length := by
    by_contra hc; exact h3 hc
  unfold fill_nonchanging at h
  cases hf : range_cn.angles.head? with
  | none => rw [hf] at h; simp at h
  | some front =>
    cases hb : range_cn.angles.getLast? with
    | none => rw [hf, hb] at h; simp at h
    | some back =>
      rw [hf, hb] at h
      simp only [] at h
      rw [show memcpy (List.replicate range_cn.values.length (0 : K)) range_cn.values
            range_cn.values.length = Except.ok range_cn.values from
          memcpy_all _ _ (by simp)] at h
      simp only [] at h
      rw [hlen, show memcpy (List.replicate intensity_cn.values.length (0 : K))
            intensity_cn.values intensity_cn.values.length = Except.ok intensity_cn.values from
          memcpy_all _ _ (by simp)] at h
      simp only [Except.ok.injEq, Prod.mk.injEq, true_and] at h
      refine ⟨front, back, rfl, rfl, ?_, ?_, ?_, ?_, ?_, ?_, ?_⟩ <;> rw [← h]
      exact hlen.symm

theorem map_range_head_last {α : Type} (f : Nat → α) (N : Nat) (front back : α)
    (hf : ((List.range N).map f).head? = some front)
    (hb : ((List.range N).map f).getLast? = some back) :
    1 ≤ N ∧ front = f 0 ∧ back = f (N - 1) := by
  cases N with
  | zero => simp at hf
  | succ k =>
    refine ⟨by omega, ?_, ?_⟩
    · rw [List.range_succ_eq_map] at hf
      simp at hf
      exact hf.symm
    · rw [List.range_succ] at hb
      simp at hb
      exact hb.symm

theorem parse_tokens_true (env : Env K) (token chan : List (List Char)) (scan scan' : Scan K)
    (hhdr : parse_header token = Except.ok chan)
    (hp : parse_tokens env token scan = Except.ok (true, scan')) :
    ∃ range_cn intensity_cn t stamp,
      parse_channel env chan = Except.ok (range_cn, t) ∧
      store_scan env range_cn intensity_cn stamp scan = Except.ok (true, scan') := by
  unfold parse_tokens at hp
  rw [hhdr] at hp
  simp only [] at hp
  cases hc : parse_channel env chan with
  | error e => rw [hc] at hp; simp at hp
  | ok r =>
    obtain ⟨range_cn, t1⟩ := r
    rw [hc] at hp
    simp only [] at hp
    cases t1 with
    | nil => simp at hp
    | cons n8 t2 =>
      simp only [] at hp
      split_ifs at hp with h8
      cases hc2 : parse_channel env t2 with
      | error e => rw [hc2] at hp; simp at hp
      | ok r2 =>
        obtain ⟨intensity_cn, t3⟩ := r2
        rw [hc2] at hp
        simp only [] at hp
        cases hfl : parse_flags t3 with
        | error e => rw [hfl] at hp; simp at hp
        | ok r3 =>
          obtain ⟨time_exists, t4⟩ := r3
          rw [hfl] at hp
          simp only [] at hp
          split_ifs at hp with hte
          · cases hst : parse_stamp env t4 with
            | error e => rw [hst] at hp; simp at hp
            | ok stamp =>
              rw [hst] at hp
              exact ⟨range_cn, intensity_cn, n8 :: t2, stamp, rfl, hp⟩
          · simp at hp

theorem first_parse_fields [CharZero K] (env : Env K) (token : List (List Char))
    (desc scale off start incr n : List Char) (rest : List (List Char))
    (scan scan' : Scan K)
    (hM : env.M_PI ≠ 0)
    (hhdr : parse_header token =
      Except.ok (desc :: scale :: off :: start :: incr :: n :: rest))
    (hfirst : scan.ranges = [])
    (hp : parse_tokens env token scan = Except.ok (true, scan')) :
    ∃ u, sscanf_X start = some u ∧ 1 ≤ (strtol n 16).toNat ∧
      scan'.n_vals = (strtol n 16).toNat ∧
      scan'.ang_increment = ((strtol n 16 : Int) : K) ∧
      scan'.start_angle = ((to_int32 u : Int) : K) / 10000 ∧
      scan'.end_angle = ((to_int32 u : Int) : K) / 10000 +
        (((strtol n 16).toNat - 1 : Nat) : K) * (((strtol incr 16 : Int) : K) / 10000) := by
  obtain ⟨range_cn, intensity_cn, t, stamp, hc, hs⟩ :=
    parse_tokens_true env token _ scan scan' hhdr hp
  obtain ⟨u, hu, _, hinc, hlen, hang⟩ :=
    parse_channel_ok env desc scale off start incr n rest t range_cn hc
  obtain ⟨front, back, hf, hb, hn, hai, hsa, hea, _, _, _⟩ :=
    store_scan_first env range_cn intensity_cn stamp scan scan' hfirst hs
  rw [hang] at hf hb
  obtain ⟨hN, hfront, hback⟩ := map_range_head_last _ _ front back hf hb
  refine ⟨u, hu, hN, by rw [hn, hlen], by rw [hai, hinc], ?_, ?_⟩
  · rw [hsa, hfront, angle_to_lms_from_lms env.M_PI hM]
    simp
  · rw [hea, hback, angle_to_lms_from_lms env.M_PI hM]

theorem to_int64_of_long (v : Int) (h1 : LONG_MIN ≤ v) (h2 : v ≤ LONG_MAX) :
    to_int64 v = v := by
  unfold LONG_MIN at h1
  unfold LONG_MAX at h2
  unfold to_int64
  simp only
  split_ifs <;> omega

theorem strtol_long (s : List Char) (base : Nat) :
    LONG_MIN ≤ strtol s base ∧ strtol s base ≤ LONG_MAX := by
  unfold strtol
  simp only
  refine ⟨le_max_left _ _, max_le (by decide) (min_le_left _ _)⟩

/-! ## Lemmas on the parser and the scan -/

theorem parse_tokens_fields (env : Env K) (token : List (List Char)) (scan : Scan K) :
    parse_tokens env token scan =
      match parse_fields env token with
      | Except.error e => Except.error (e, scan)
      | Except.ok (range_cn, intensity_cn, time_exists, token) =>
        if time_exists = 1 then
          match parse_stamp env token with
          | Except.error e => Except.error (e, scan)
          | Except.ok stamp => store_scan env range_cn intensity_cn stamp scan
        else Except.ok (false, scan) := by
  unfold parse_tokens parse_fields
  cases parse_header token with
  | error e => rfl
  | ok chan =>
    simp only []
    cases parse_channel env chan with
    | error e => rfl
    | ok r =>
      obtain ⟨range_cn, t1⟩ := r
      simp only []
      cases t1 with
      | nil => rfl
      | cons n8 t2 =>
        simp only []
        by_cases h8 : strtol n8 16 ≠ 1
        · rw [if_pos h8, if_pos h8]
        · rw [if_neg h8, if_neg h8]
          cases parse_channel env t2 with
          | error e => rfl
          | ok r2 =>
            obtain ⟨intensity_cn, t3⟩ := r2
            simp only []
            cases parse_flags t3 with
            | error e => rfl
            | ok r3 =>
              obtain ⟨time_exists, t4⟩ := r3
              rfl

theorem store_scan_rejects (env : Env K) (range_cn intensity_cn : Channel K) (stamp : Int)
    (scan : Scan K)
    (hbad : string_find range_cn.description "DIST".toList = none ∨
      string_find intensity_cn.description "RSSI".toList = none ∨
      range_cn.values.length ≠ intensity_cn.values.length) :
    ∃ what, store_scan env range_cn intensity_cn stamp scan =
      Except.error (Fault.runtime_error what, scan) := by
  unfold store_scan
  by_cases h1 : string_find range_cn.description "DIST".toList = none
  · exact ⟨_, by rw [if_pos h1]⟩
  · by_cases h2 : string_find intensity_cn.description "RSSI".toList = none
    · exact ⟨_, by rw [if_neg h1, if_pos h2]⟩
    · have h3 : range_cn.values.length ≠ intensity_cn.values.length := by
        rcases hbad with h | h | h
        · exact absurd h h1
        · exact absurd h h2
        · exact h
      exact ⟨_, by rw [if_neg h1, if_neg h2, if_pos h3]⟩

omit [Field K] in
theorem memcpy_ok (dst src out : List K) (n : Nat) (h : memcpy dst src n = Except.ok out) :
    n ≤ dst.length ∧ n ≤ src.length ∧ out = src.take n ++ dst.drop n := by
  unfold memcpy at h
  split_ifs at h with hc
  simp only [Except.ok.injEq] at h
  exact ⟨hc.1, hc.2, h.symm⟩

omit [Field K] in
theorem memcpy_again (dst src out : List K) (n : Nat) (h : memcpy dst src n = Except.ok out) :
    memcpy out src n = Except.ok out := by
  obtain ⟨h1, h2, h3⟩ := memcpy_ok dst src out n h
  have hl : out.length = dst.length := by
    rw [h3]; simp [List.length_take, List.length_drop]; omega
  have hd : out.drop n = dst.drop n := by
    rw [h3]
    have : (src.take n).length = n := by simp [List.length_take, h2]
    rw [List.drop_append_of_le_length (by omega)]
    simp [List.drop_take]
  unfold memcpy
  rw [if_pos ⟨by omega, h2⟩, hd, ← h3]

omit [Field K] in
theorem memcpy_length (dst src out : List K) (n : Nat) (h : memcpy dst src n = Except.ok out) :
    out.length = dst.length := by
  obtain ⟨h1, h2, h3⟩ := memcpy_ok dst src out n h
  rw [h3]; simp [List.length_take, List.length_drop]; omega

theorem store_scan_copy (env : Env K) (range_cn intensity_cn : Channel K) (stamp : Int)
    (scan : Scan K) (ranges intensities : List K)
    (h1 : string_find range_cn.description "DIST".toList ≠ none)
    (h2 : string_find intensity_cn.description "RSSI".toList ≠ none)
    (h3 : range_cn.values.length = intensity_cn.values.length)
    (h0 : scan.ranges.length ≠ 0)
    (hr : memcpy scan.ranges range_cn.values scan.n_vals = Except.ok ranges)
    (hi : memcpy scan.intensities intensity_cn.values scan.n_vals = Except.ok intensities) :
    store_scan env range_cn intensity_cn stamp scan =
      Except.ok (true, { scan with ranges := ranges, intensities := intensities,
                                   time := stamp }) := by
  unfold store_scan
  rw [if_neg h1, if_neg h2, if_neg (by simpa using h3), if_neg h0]
  simp only [hr, hi]

theorem store_scan_true (env : Env K) (range_cn intensity_cn : Channel K) (stamp : Int)
    (scan scan' : Scan K)
    (h : store_scan env range_cn intensity_cn stamp scan = Except.ok (true, scan')) :
    string_find range_cn.description "DIST".toList ≠ none ∧
    string_find intensity_cn.description "RSSI".toList ≠ none ∧
    range_cn.values.length = intensity_cn.values.length ∧
    ∃ filled : Scan K,
      (if scan.ranges.length = 0 then fill_nonchanging env range_cn scan
       else Except.ok scan) = Except.ok filled ∧
      ∃ ranges intensities,
        memcpy filled.ranges range_cn.values filled.n_vals = Except.ok ranges ∧
        memcpy filled.intensities intensity_cn.values filled.n_vals = Except.ok intensities ∧
        scan' = { filled with ranges := ranges, intensities := intensities, time := stamp } := by
  unfold store_scan at h
  split_ifs at h with h1 h2 h3 h0
  · refine ⟨h1, h2, by simpa using h3, ?_⟩
    rw [if_pos h0]
    cases hf : fill_nonchanging env range_cn scan with
    | error e => rw [hf] at h; simp at h
    | ok filled =>
      rw [hf] at h
      simp only [] at h
      refine ⟨filled, rfl, ?_⟩
      cases hr : memcpy filled.ranges range_cn.values filled.n_vals with
      | error e => rw [hr] at h; simp at h
      | ok ranges =>
        rw [hr] at h
        simp only [] at h
        cases hi : memcpy filled.intensities intensity_cn.values filled.n_vals with
        | error e => rw [hi] at h; simp at h
        | ok intensities =>
          rw [hi] at h
          simp only [Except.ok.injEq, Prod.mk.injEq, true_and] at h
          exact ⟨ranges, intensities, rfl, rfl, h.symm⟩
  · refine ⟨h1, h2, by simpa using h3, ?_⟩
    rw [if_neg h0]
    simp only [] at h
    refine ⟨scan, rfl, ?_⟩
    cases hr : memcpy scan.ranges range_cn.values scan.n_vals with
    | error e => rw [hr] at h; simp at h
    | ok ranges =>
      rw [hr] at h
      simp only [] at h
      cases hi : memcpy scan.intensities intensity_cn.values scan.n_vals with
      | error e => rw [hi] at h; simp at h
      | ok intensities =>
        rw [hi] at h
        simp only [Except.ok.injEq, Prod.mk.injEq, true_and] at h
        exact ⟨ranges, intensities, rfl, rfl, h.symm⟩

theorem store_scan_again (env : Env K) (range_cn intensity_cn : Channel K) (stamp : Int)
    (scan scan' : Scan K)
    (h : store_scan env range_cn intensity_cn stamp scan = Except.ok (true, scan')) :
    store_scan env range_cn intensity_cn stamp scan' = Except.ok (true, scan') := by
  obtain ⟨h1, h2, h3, filled, hfill, ranges, intensities, hr, hi, hs⟩ :=
    store_scan_true env range_cn intensity_cn stamp scan scan' h
  have hr2 := memcpy_again _ _ _ _ hr
  have hi2 := memcpy_again _ _ _ _ hi
  by_cases h0' : scan'.ranges.length = 0
  · -- the first call filled a scan for a channel without values: the second fills it again
    have hlen : filled.ranges.length = 0 := by
      have := memcpy_length _ _ _ _ hr
      rw [hs] at h0'
      simp only [] at h0'
      omega
    by_cases h0 : scan.ranges.length = 0
    · rw [if_pos h0] at hfill
      unfold fill_nonchanging at hfill
      cases hf : range_cn.angles.head? with
      | none => rw [hf] at hfill; simp at hfill
      | some front =>
        cases hb : range_cn.angles.getLast? with
        | none => rw [hf, hb] at hfill; simp at hfill
        | some back =>
          rw [hf, hb] at hfill
          simp only [Except.ok.injEq] at hfill
          subst hfill
          subst hs
          unfold store_scan
          rw [if_neg h1, if_neg h2, if_neg (by simpa using h3), if_pos h0']
          unfold fill_nonchanging
          rw [hf, hb]
          simp only [] at hr hi ⊢
          rw [hr]
          simp only []
          rw [hi]
    · rw [if_neg h0] at hfill
      simp only [Except.ok.injEq] at hfill
      subst hfill
      exact absurd hlen h0
  · subst hs
    have := store_scan_copy env range_cn intensity_cn stamp
      ({ filled with ranges := ranges, intensities := intensities, time := stamp } : Scan K)
      ranges intensities h1 h2 h3 h0' hr2 hi2
    rw [this]

theorem parse_tokens_of_fields (env : Env K) (token : List (List Char)) (scan : Scan K)
    (r : Channel K × Channel K × Int × List (List Char)) (stamp : Int)
    (hf : parse_fields env token = Except.ok r) (hte : r.2.2.1 = 1)
    (hst : parse_stamp env r.2.2.2 = Except.ok stamp) :
    parse_tokens env token scan = store_scan env r.1 r.2.1 stamp scan := by
  obtain ⟨range_cn, intensity_cn, time_exists, t4⟩ := r
  simp only [] at hte hst
  rw [parse_tokens_fields, hf]
  simp only [hte, if_true, hst]

theorem parse_tokens_no_time (env : Env K) (token : List (List Char)) (scan : Scan K)
    (r : Channel K × Channel K × Int × List (List Char))
    (hf : parse_fields env token = Except.ok r) (hte : r.2.2.1 ≠ 1) :
    parse_tokens env token scan = Except.ok (false, scan) := by
  obtain ⟨range_cn, intensity_cn, time_exists, t4⟩ := r
  simp only [] at hte
  rw [parse_tokens_fields, hf]
  simp only [hte, if_false]

theorem parse_tokens_true_fields (env : Env K) (token : List (List Char)) (scan scan' : Scan K)
    (hp : parse_tokens env token scan = Except.ok (true, scan')) :
    ∃ r stamp, parse_fields env token = Except.ok r ∧ r.2.2.1 = 1 ∧
      parse_stamp env r.2.2.2 = Except.ok stamp ∧
      store_scan env r.1 r.2.1 stamp scan = Except.ok (true, scan') := by
  rw [parse_tokens_fields] at hp
  cases hf : parse_fields env token with
  | error e => rw [hf] at hp; simp at hp
  | ok r =>
    obtain ⟨range_cn, intensity_cn, time_exists, t4⟩ := r
    rw [hf] at hp
    simp only [] at hp
    split_ifs at hp with hte
    · cases hst : parse_stamp env t4 with
      | error e => rw [hst] at hp; simp at hp
      | ok stamp =>
        rw [hst] at hp
        exact ⟨_, stamp, rfl, hte, hst, hp⟩
    · simp at hp

theorem parse_tokens_again (env : Env K) (token : List (List Char)) (scan scan' : Scan K)
    (hp : parse_tokens env token scan = Except.ok (true, scan')) :
    parse_tokens env token scan' = Except.ok (true, scan') := by
  obtain ⟨r, stamp, hf, hte, hst, hs⟩ := parse_tokens_true_fields env token scan scan' hp
  rw [parse_tokens_of_fields env token scan' r stamp hf hte hst]
  exact store_scan_again env r.1 r.2.1 stamp scan scan' hs

theorem store_scan_time (env : Env K) (range_cn intensity_cn : Channel K) (stamp : Int)
    (scan scan' : Scan K)
    (h : store_scan env range_cn intensity_cn stamp scan = Except.ok (true, scan')) :
    scan'.time = stamp := by
  obtain ⟨_, _, _, filled, _, ranges, intensities, _, _, hs⟩ :=
    store_scan_true env range_cn intensity_cn stamp scan scan' h
  rw [hs]

theorem parse_channel_valid (env : Env K) (token t : List (List Char)) (cn : Channel K)
    (h : parse_channel env token = Except.ok (cn, t)) :
    cn.angles.length = cn.values.length := by
  match token, h with
  | desc :: scale :: off :: start :: incr :: n :: rest, h =>
    obtain ⟨u, _, _, _, hlen, hang⟩ :=
      parse_channel_ok env desc scale off start incr n rest t cn h
    rw [hang, hlen]; simp
  | [], h => simp [parse_channel] at h
  | [_], h => simp [parse_channel] at h
  | [_, _], h => simp [parse_channel] at h
  | [_, _, _], h => simp [parse_channel] at h
  | [_, _, _, _], h => simp [parse_channel] at h
  | [_, _, _, _, _], h => simp [parse_channel] at h

theorem parse_fields_valid (env : Env K) (token : List (List Char))
    (r : Channel K × Channel K × Int × List (List Char))
    (hf : parse_fields env token = Except.ok r) :
    r.1.angles.length = r.1.values.length := by
  unfold parse_fields at hf
  cases hh : parse_header token with
  | error e => rw [hh] at hf; simp at hf
  | ok chan =>
    rw [hh] at hf
    simp only [] at hf
    cases hc : parse_channel env chan with
    | error e => rw [hc] at hf; simp at hf
    | ok rc =>
      obtain ⟨range_cn, t1⟩ := rc
      rw [hc] at hf
      simp only [] at hf
      cases t1 with
      | nil => simp at hf
      | cons n8 t2 =>
        simp only [] at hf
        split_ifs at hf with h8
        cases hc2 : parse_channel env t2 with
        | error e => rw [hc2] at hf; simp at hf
        | ok r2 =>
          obtain ⟨intensity_cn, t3⟩ := r2
          rw [hc2] at hf
          simp only [] at hf
          cases hfl : parse_flags t3 with
          | error e => rw [hfl] at hf; simp at hf
          | ok r3 =>
            obtain ⟨time_exists, t4⟩ := r3
            rw [hfl] at hf
            simp only [Except.ok.injEq] at hf
            rw [← hf]
            exact parse_channel_valid env chan (n8 :: t2) range_cn hc

theorem store_scan_first_ok (env : Env K) (range_cn intensity_cn : Channel K) (stamp : Int)
    (scan : Scan K)
    (h1 : string_find range_cn.description "DIST".toList ≠ none)
    (h2 : string_find intensity_cn.description "RSSI".toList ≠ none)
    (h3 : range_cn.values.length = intensity_cn.values.length)
    (hv : range_cn.angles.length = range_cn.values.length)
    (hpos : 0 < range_cn.values.length)
    (h0 : scan.ranges = []) :
    ∃ scan', store_scan env range_cn intensity_cn stamp scan = Except.ok (true, scan') ∧
      scan'.n_vals = range_cn.values.length ∧ scan'.ranges = range_cn.values ∧
      scan'.intensities = intensity_cn.values ∧ scan'.time = stamp := by
  have hne : range_cn.angles ≠ [] := by
    intro hc; rw [hc] at hv; simp at hv; omega
  obtain ⟨front, hf⟩ : ∃ front, range_cn.angles.head? = some front := by
    cases ha : range_cn.angles with
    | nil => exact absurd ha hne
    | cons a as => exact ⟨a, rfl⟩
  obtain ⟨back, hb⟩ : ∃ back, range_cn.angles.getLast? = some back :=
    ⟨range_cn.angles.getLast hne, List.getLast?_eq_getLast _ hne⟩
  have hl0 : scan.ranges.length = 0 := by rw [h0]; rfl
  unfold store_scan
  rw [if_neg h1, if_neg h2, if_neg (by simpa using h3), if_pos hl0]
  unfold fill_nonchanging
  rw [hf, hb]
  simp only []
  rw [show memcpy (List.replicate range_cn.values.length (0 : K)) range_cn.values
        range_cn.values.length = Except.ok range_cn.values from memcpy_all _ _ (by simp)]
  simp only []
  rw [h3, show memcpy (List.replicate intensity_cn.values.length (0 : K))
        intensity_cn.values intensity_cn.values.length = Except.ok intensity_cn.values from
      memcpy_all _ _ (by simp)]
  exact ⟨_, rfl, rfl, rfl, rfl, rfl⟩

/-! ## Lemmas on formatted numbers -/

theorem utoa_aux_eq_digits (b : Nat) (hb : 1 < b) :
    ∀ (fuel n : Nat), n < fuel → 0 < n →
      utoa_aux b fuel n = ((Nat.digits b n).reverse).map digit_char := by
  intro fuel
  induction fuel with
  | zero => intro n h; omega
  | succ fuel ih =>
    intro n hn hpos
    unfold utoa_aux
    by_cases hlt : n < b
    · rw [if_pos hlt, Nat.digits_of_lt b n (by omega) hlt]
      rfl
    · rw [if_neg hlt]
      have hdiv : n / b < n := Nat.div_lt_self hpos hb
      have hdpos : 0 < n / b := Nat.div_pos (by omega) (by omega)
      rw [ih (n / b) (by omega) hdpos, Nat.digits_def' hb hpos]
      simp

theorem utoa_eq_digits (b n : Nat) (hb : 1 < b) (hn : 0 < n) :
    utoa b n = ((Nat.digits b n).reverse).map digit_char :=
  utoa_aux_eq_digits b hb (n + 1) n (by omega) hn

theorem utoa_zero (b : Nat) (hb : 0 < b) : utoa b 0 = [digit_char 0] := by
  simp [utoa, utoa_aux, hb]

theorem utoa_length_pos (b n : Nat) (hb : 1 < b) : 0 < (utoa b n).length := by
  rcases Nat.eq_zero_or_pos n with h | h
  · subst h; rw [utoa_zero b (by omega)]; simp
  · rw [utoa_eq_digits b n hb h]
    simp only [List.length_map, List.length_reverse]
    exact List.length_pos.mpr (Nat.digits_ne_nil_iff_ne_zero.mpr (by omega))

theorem utoa_length_le (b n k : Nat) (hb : 1 < b) (hk : 0 < k) (hn : n < b ^ k) :
    (utoa b n).length ≤ k := by
  rcases Nat.eq_zero_or_pos n with h | h
  · subst h; rw [utoa_zero b (by omega)]; simpa using hk
  · rw [utoa_eq_digits b n hb h]
    simp only [List.length_map, List.length_reverse]
    have h1 := Nat.base_pow_length_digits_le b n hb (by omega)
    have h2 : b ^ (Nat.digits b n).length < b ^ (k + 1) := by
      calc b ^ (Nat.digits b n).length ≤ b * n := h1
        _ < b * b ^ k := Nat.mul_lt_mul_of_pos_left hn (by omega)
        _ = b ^ (k + 1) := by rw [pow_succ]; ring
    have := (Nat.pow_lt_pow_iff_right hb).mp h2
    omega

theorem utoa_length_gt (b n k : Nat) (hb : 1 < b) (hn : b ^ k ≤ n) :
    k < (utoa b n).length := by
  have hpos : 0 < n := lt_of_lt_of_le (Nat.pow_pos (by omega)) hn
  rw [utoa_eq_digits b n hb hpos]
  simp only [List.length_map, List.length_reverse]
  have h1 := Nat.lt_base_pow_length_digits (m := n) hb
  have h2 : b ^ k < b ^ (Nat.digits b n).length := lt_of_le_of_lt hn h1
  exact (Nat.pow_lt_pow_iff_right hb).mp h2

theorem utoa_chars (b n : Nat) (hb : 1 < b) :
    ∀ c ∈ utoa b n, ∃ d, d < b ∧ c = digit_char d := by
  intro c hc
  rcases Nat.eq_zero_or_pos n with h | h
  · subst h
    rw [utoa_zero b (by omega)] at hc
    simp only [List.mem_singleton] at hc
    exact ⟨0, by omega, hc⟩
  · rw [utoa_eq_digits b n hb h] at hc
    simp only [List.mem_map, List.mem_reverse] at hc
    obtain ⟨d, hd, rfl⟩ := hc
    exact ⟨d, Nat.digits_lt_base hb hd, rfl⟩

theorem digit_value_digit_char :
    ∀ b ∈ [10, 16], ∀ d < 16, d < b → digit_value b (digit_char d) = some d := by
  decide

theorem read_digits_snoc (b : Nat) (hb : b = 10 ∨ b = 16) :
    ∀ (L : List Nat) (d acc : Nat), (∀ x ∈ L, x < b) → d < b →
      read_digits b ((L.map digit_char) ++ [digit_char d]) acc =
        read_digits b (L.map digit_char) acc * b + d := by
  have hmem : b ∈ [10, 16] := by rcases hb with h | h <;> simp [h]
  have hle : b ≤ 16 := by rcases hb with h | h <;> omega
  intro L
  induction L with
  | nil =>
    intro d acc _ hd
    simp [read_digits, digit_value_digit_char b hmem d (by omega) hd]
  | cons x xs ih =>
    intro d acc hL hd
    have hx : x < b := hL x (List.mem_cons_self _ _)
    simp only [List.map_cons, List.cons_append, read_digits,
      digit_value_digit_char b hmem x (by omega) hx]
    exact ih d (acc * b + x) (fun y hy => hL y (List.mem_cons_of_mem _ hy)) hd

theorem read_digits_ofDigits (b : Nat) (hb : b = 10 ∨ b = 16) :
    ∀ (L : List Nat), (∀ x ∈ L, x < b) →
      read_digits b ((L.reverse).map digit_char) 0 = Nat.ofDigits b L := by
  intro L
  induction L with
  | nil => intro _; rfl
  | cons d ds ih =>
    intro hL
    have hd : d < b := hL d (List.mem_cons_self _ _)
    have hds : ∀ x ∈ ds, x < b := fun y hy => hL y (List.mem_cons_of_mem _ hy)
    rw [List.reverse_cons, List.map_append, List.map_singleton,
      read_digits_snoc b hb ds.reverse d 0 (by simpa using hds) hd, ih hds,
      Nat.ofDigits_cons]
    ring

theorem read_digits_utoa (b n : Nat) (hb : b = 10 ∨ b = 16) :
    read_digits b (utoa b n) 0 = n := by
  have hb1 : 1 < b := by rcases hb with h | h <;> omega
  have hmem : b ∈ [10, 16] := by rcases hb with h | h <;> simp [h]
  rcases Nat.eq_zero_or_pos n with h | h
  · subst h
    rw [utoa_zero b (by omega)]
    simp [read_digits, digit_value_digit_char b hmem 0 (by omega) (by omega)]
  · rw [utoa_eq_digits b n hb1 h,
      read_digits_ofDigits b hb _ (fun x hx => Nat.digits_lt_base hb1 hx),
      Nat.ofDigits_digits]

theorem read_digits_zeros (b : Nat) (hb : b = 10 ∨ b = 16) (s : List Char) :
    ∀ k : Nat, read_digits b (List.replicate k '0' ++ s) 0 = read_digits b s 0 := by
  have h0 : digit_value b '0' = some 0 := by rcases hb with h | h <;> subst h <;> decide
  intro k
  induction k with
  | zero => rfl
  | succ k ih =>
    simp only [List.replicate_succ, List.cons_append, read_digits, h0]
    simpa using ih

/-! ## Lemmas on IP addresses -/

theorem inet_pton4_append (rest : List Char) (done : List Nat) :
    ∀ (s : List Char) (cur : Nat) (saw_digit : Bool) (octets cur' octets' : Nat)
      (saw' : Bool),
      inet_pton4_digits s cur saw_digit octets = some (cur', saw', octets') →
        inet_pton4 (s ++ rest) done cur saw_digit octets =
          inet_pton4 rest done cur' saw' octets' := by
  intro s
  induction s with
  | nil =>
    intro cur saw_digit octets cur' octets' saw' h
    simp only [inet_pton4_digits, Option.some.injEq, Prod.mk.injEq] at h
    obtain ⟨h1, h2, h3⟩ := h
    subst h1 h2 h3
    rfl
  | cons ch src ih =>
    intro cur saw_digit octets cur' octets' saw' h
    simp only [inet_pton4_digits] at h
    simp only [List.cons_append, inet_pton4]
    split_ifs at h ⊢ with h1 h2 h3 h4 h5
    · exact ih _ _ _ _ _ _ h
    · exact ih _ _ _ _ _ _ h

theorem inet_pton4_octet :
    ∀ a < 256, ∀ k < 4, inet_pton4_digits (utoa 10 a) 0 false k = some (a, true, k + 1) := by
  decide!

theorem cstr_of_no_nul (s : List Char) (h : NUL ∉ s) : cstr s = s := by
  unfold cstr
  rw [List.takeWhile_eq_self_iff]
  intro c hc
  simp only [bne_iff_ne, ne_eq]
  intro hcn
  exact h (hcn ▸ hc)

theorem digit_char_facts :
    ∀ d < 16, digit_char d ≠ NUL ∧ digit_char d ≠ SP ∧ digit_char d ∈ upper_hex_digits ∧
      (d < 10 → digit_char d ∈ decimal_digits) := by
  decide

theorem fmt_X02_octet :
    ∀ o < 256, fmt_unsigned 16 true 2 ((o : Nat) : Int) =
      [digit_char (o / 16), digit_char (o % 16)] := by
  decide!

theorem and_shiftLeft_shiftRight (x m k : Nat) :
    (x &&& (m <<< k)) >>> k = (x >>> k) &&& m := by
  apply Nat.eq_of_testBit_eq
  intro j
  simp [Nat.testBit_shiftRight, Nat.testBit_and, Nat.testBit_shiftLeft]

theorem byte_extract (x : Nat) :
    (x &&& 0xFF000000) >>> 24 = x / 16777216 % 256 ∧
    (x &&& 0x00FF0000) >>> 16 = x / 65536 % 256 ∧
    (x &&& 0x0000FF00) >>> 8 = x / 256 % 256 ∧
    (x &&& 0x000000FF) >>> 0 = x % 256 := by
  have h8 : ∀ y : Nat, y &&& 255 = y % 256 := fun y => Nat.and_pow_two_sub_one_eq_mod y 8
  refine ⟨?_, ?_, ?_, ?_⟩
  · rw [show (0xFF000000 : Nat) = 255 <<< 24 by decide, and_shiftLeft_shiftRight, h8,
      Nat.shiftRight_eq_div_pow]
  · rw [show (0x00FF0000 : Nat) = 255 <<< 16 by decide, and_shiftLeft_shiftRight, h8,
      Nat.shiftRight_eq_div_pow]
  · rw [show (0x0000FF00 : Nat) = 255 <<< 8 by decide, and_shiftLeft_shiftRight, h8,
      Nat.shiftRight_eq_div_pow]
  · rw [Nat.shiftRight_zero]
    exact h8 x

theorem utoa_no_nul (n : Nat) : NUL ∉ utoa 10 n := by
  intro h
  obtain ⟨d, hd, hc⟩ := utoa_chars 10 n (by omega) NUL h
  exact (digit_char_facts d (by omega)).1 hc.symm

theorem inet_pton4_dot (rest : List Char) (done : List Nat) (a k : Nat) (hk : k < 4) :
    inet_pton4 ('.' :: rest) done a true k = inet_pton4 rest (done ++ [a]) 0 false k := by
  have h4 : ¬ (k = 4) := by omega
  simp [inet_pton4, h4]

theorem inet_pton4_dotted (a b c d : Nat) (ha : a < 256) (hb : b < 256) (hc : c < 256)
    (hd : d < 256) :
    inet_pton4 (utoa 10 a ++ '.' :: (utoa 10 b ++ '.' :: (utoa 10 c ++ '.' :: utoa 10 d)))
      [] 0 false 0 = some [a, b, c, d] := by
  rw [inet_pton4_append _ _ _ _ _ _ _ _ _ (inet_pton4_octet a ha 0 (by omega)),
    inet_pton4_dot _ _ _ _ (by omega),
    inet_pton4_append _ _ _ _ _ _ _ _ _ (inet_pton4_octet b hb 1 (by omega)),
    inet_pton4_dot _ _ _ _ (by omega),
    inet_pton4_append _ _ _ _ _ _ _ _ _ (inet_pton4_octet c hc 2 (by omega)),
    inet_pton4_dot _ _ _ _ (by omega)]
  have := inet_pton4_append [] ([] ++ [a] ++ [b] ++ [c]) (utoa 10 d) 0 false 3 d 4 true
    (inet_pton4_octet d hd 3 (by omega))
  rw [List.append_nil] at this
  rw [this]
  rfl

theorem ip_addr_to_hex_str_dotted (a b c d : Nat) (ha : a < 256) (hb : b < 256)
    (hc : c < 256) (hd : d < 256) :
    ip_addr_to_hex_str
        (utoa 10 a ++ '.' :: (utoa 10 b ++ '.' :: (utoa 10 c ++ '.' :: utoa 10 d))) =
      Except.ok [digit_char (a / 16), digit_char (a % 16), SP,
        digit_char (b / 16), digit_char (b % 16), SP,
        digit_char (c / 16), digit_char (c % 16), SP,
        digit_char (d / 16), digit_char (d % 16)] := by
  have hnul : NUL ∉
      utoa 10 a ++ '.' :: (utoa 10 b ++ '.' :: (utoa 10 c ++ '.' :: utoa 10 d)) := by
    have hdot : ¬ (NUL = '.') := by decide
    simp [utoa_no_nul, hdot]
  have hint : ip_addr_to_int
      (utoa 10 a ++ '.' :: (utoa 10 b ++ '.' :: (utoa 10 c ++ '.' :: utoa 10 d))) =
      Except.ok (a + 256 * b + 65536 * c + 16777216 * d) := by
    unfold ip_addr_to_int
    rw [cstr_of_no_nul _ hnul, inet_pton4_dotted a b c d ha hb hc hd]
  have hn : ntohl (a + 256 * b + 65536 * c + 16777216 * d) =
      a * 16777216 + b * 65536 + c * 256 + d := by
    have e1 : (a + 256 * b + 65536 * c + 16777216 * d) % 256 = a := by omega
    have e2 : (a + 256 * b + 65536 * c + 16777216 * d) / 256 % 256 = b := by omega
    have e3 : (a + 256 * b + 65536 * c + 16777216 * d) / 65536 % 256 = c := by omega
    have e4 : (a + 256 * b + 65536 * c + 16777216 * d) / 16777216 % 256 = d := by omega
    unfold ntohl
    rw [e1, e2, e3, e4]
  have hx := byte_extract (ntohl (a + 256 * b + 65536 * c + 16777216 * d))
  rw [hn] at hx
  have h1 : (a * 16777216 + b * 65536 + c * 256 + d) / 16777216 % 256 = a := by omega
  have h2 : (a * 16777216 + b * 65536 + c * 256 + d) / 65536 % 256 = b := by omega
  have h3 : (a * 16777216 + b * 65536 + c * 256 + d) / 256 % 256 = c := by omega
  have h4 : (a * 16777216 + b * 65536 + c * 256 + d) % 256 = d := by omega
  unfold ip_addr_to_hex_str
  rw [hint]
  simp only [hn, hx.1, hx.2.1, hx.2.2.1, hx.2.2.2, h1, h2, h3, h4, sprintf,
    fmt_X02_octet a ha, fmt_X02_octet b hb, fmt_X02_octet c hc, fmt_X02_octet d hd]
  rfl

theorem to_int32_of_int (v : Int) (h1 : -2147483648 ≤ v) (h2 : v < 2147483648) :
    to_int32 v = v := by
  unfold to_int32
  simp only
  split_ifs <;> omega

theorem pad_left_of_le (width : Nat) (c : Char) (s : List Char) (h : width ≤ s.length) :
    pad_left width c s = s := by
  unfold pad_left
  rw [Nat.sub_eq_zero_of_le h]
  rfl

theorem pad_left_length (width : Nat) (c : Char) (s : List Char) (h : s.length ≤ width) :
    (pad_left width c s).length = width := by
  unfold pad_left
  simp only [List.length_append, List.length_replicate]
  omega

theorem fmt_d_plus (v : Int) (h1 : -2147483648 ≤ v) (h2 : v < 2147483648) :
    fmt_d true false 0 v = signed_decimal v := by
  unfold fmt_d signed_decimal
  simp only [to_int32_of_int v h1 h2, Bool.false_eq_true, if_false, if_true]
  rw [pad_left_of_le _ _ _ (Nat.zero_le _)]
  split_ifs <;> rfl

theorem fmt_unsigned_of_nat (base : Nat) (zero : Bool) (width n : Nat)
    (h : n < 4294967296) :
    fmt_unsigned base zero width (n : Int) =
      pad_left width (if zero then '0' else SP) (utoa base n) := by
  unfold fmt_unsigned
  have : ((n : Int) % 4294967296).toNat = n := by omega
  rw [this]

theorem utoa_no_sp (n : Nat) : SP ∉ utoa 10 n := by
  intro h
  obtain ⟨d, hd, hc⟩ := utoa_chars 10 n (by omega) SP h
  exact (digit_char_facts d (by omega)).2.1 hc.symm

theorem make_command_msg_setscancfg (freq ang : Nat) (start end_angle : Int)
    (hf : freq < 4294967296) (ha : ang < 4294967296)
    (hs1 : -2147483648 ≤ start) (hs2 : start < 2147483648)
    (he1 : -2147483648 ≤ end_angle) (he2 : end_angle < 2147483648) :
    make_command_msg SOPASCommand.MLMPSETSCANCFG
        [Arg.int freq, Arg.int ang, Arg.int start, Arg.int end_angle] =
      Except.ok (frame ("sMN mLMPsetscancfg +".toList ++ pad_left 4 SP (utoa 10 freq) ++
        " +1 +".toList ++ pad_left 4 SP (utoa 10 ang) ++
        SP :: signed_decimal start ++ SP :: signed_decimal end_angle)) := by
  simp only [make_command_msg, command_masks_, sprintf, fmt_d_plus start hs1 hs2,
    fmt_d_plus end_angle he1 he2, fmt_unsigned_of_nat 10 false 4 freq hf,
    fmt_unsigned_of_nat 10 false 4 ang ha, frame]
  simp [SP]

theorem fmt_d02_byte :
    ∀ m < 256, 2 ≤ (fmt_d false true 2 ((m : Nat) : Int)).length ∧
      (∀ c ∈ fmt_d false true 2 ((m : Nat) : Int), c ∈ decimal_digits) ∧
      read_digits 10 (fmt_d false true 2 ((m : Nat) : Int)) 0 = m := by
  decide!

theorem fmt_X08_word (p : Nat) (hp : p < 4294967296) :
    (fmt_unsigned 16 true 8 (p : Int)).length = 8 ∧
    (∀ c ∈ fmt_unsigned 16 true 8 (p : Int), c ∈ upper_hex_digits) ∧
    read_digits 16 (fmt_unsigned 16 true 8 (p : Int)) 0 = p := by
  rw [fmt_unsigned_of_nat 16 true 8 p hp]
  simp only [if_true]
  refine ⟨pad_left_length 8 '0' _ (utoa_length_le 16 p 8 (by omega) (by omega) hp), ?_, ?_⟩
  · intro c hc
    unfold pad_left at hc
    rcases List.mem_append.mp hc with h | h
    · rw [List.eq_of_mem_replicate h]
      decide
    · obtain ⟨d, hd, hcd⟩ := utoa_chars 16 p (by omega) c h
      rw [hcd]
      exact (digit_char_facts d hd).2.2.1
  · unfold pad_left
    rw [read_digits_zeros 16 (Or.inr rfl), read_digits_utoa 16 p (Or.inr rfl)]

theorem make_command_msg_access_mode (m p : Int) :
    make_command_msg SOPASCommand.SETACCESSMODE [Arg.int m, Arg.int p] =
      Except.ok (frame ("sMN SetAccessMode ".toList ++ fmt_d false true 2 m ++
        SP :: fmt_unsigned 16 true 8 p)) := by
  simp [make_command_msg, command_masks_, sprintf, frame, SP]

theorem hex_octet_facts :
    ∀ o < 256, digit_char (o / 16) ∈ upper_hex_digits ∧
      digit_char (o % 16) ∈ upper_hex_digits ∧
      read_digits 16 [digit_char (o / 16), digit_char (o % 16)] 0 = o := by
  decide!

/-! ## Lemmas on the angle conversions -/

theorem RAD2DEG_eq (M_PI : K) : RAD2DEG M_PI = M_PI / 180 := by
  unfold RAD2DEG DEG2RAD
  rw [one_div_div]

theorem angle_to_lms_eq (M_PI x : K) : angle_to_lms M_PI x = x * (M_PI / 180) + 90 := by
  unfold angle_to_lms
  rw [RAD2DEG_eq]

theorem angle_from_lms_eq (M_PI d : K) : angle_from_lms M_PI d = (d - 90) * (180 / M_PI) := by
  unfold angle_from_lms DEG2RAD
  rfl

theorem angle_from_lms_to_lms [CharZero K] (M_PI x : K) (h : M_PI ≠ 0) :
    angle_from_lms M_PI (angle_to_lms M_PI x) = x := by
  rw [angle_to_lms_eq, angle_from_lms_eq]
  have h180 : (180 : K) ≠ 0 := by norm_num
  field_simp
  ring

/-! ## Lemmas on the channel counts -/

theorem parse_header_count16 (hdr : List (List Char)) (enc : List Char)
    (skip : List (List Char)) (cnt : List Char) (rest : List (List Char))
    (hlen : hdr.length = 18)
    (hskip : skip.length = (if strtol enc 16 ≠ 0 then 2 else 0))
    (hcnt : strtol cnt 16 ≠ 1) :
    parse_header (hdr ++ enc :: (skip ++ cnt :: rest)) =
      Except.error (Fault.runtime_error "num_16bit_channels != 1") := by
  have hdrop : (if strtol enc 16 ≠ 0 then (skip ++ cnt :: rest).drop 2
      else skip ++ cnt :: rest) = cnt :: rest := by
    by_cases he : strtol enc 16 ≠ 0
    · rw [if_pos he] at hskip
      rw [if_pos he, List.drop_append_of_le_length (by omega),
        List.drop_of_length_le (by omega)]
      rfl
    · rw [if_neg he] at hskip
      rw [if_neg he, List.length_eq_zero.mp hskip]
      rfl
  rcases hdr with _ | ⟨a1, _ | ⟨a2, _ | ⟨a3, _ | ⟨a4, _ | ⟨a5, _ | ⟨a6, _ | ⟨a7, _ | ⟨a8,
    _ | ⟨a9, _ | ⟨a10, _ | ⟨a11, _ | ⟨a12, _ | ⟨a13, _ | ⟨a14, _ | ⟨a15, _ | ⟨a16,
    _ | ⟨a17, _ | ⟨a18, _ | ⟨a19, t⟩⟩⟩⟩⟩⟩⟩⟩⟩⟩⟩⟩⟩⟩⟩⟩⟩⟩⟩
  all_goals try (simp at hlen; done)
  · simp only [List.cons_append, List.nil_append, parse_header, hdrop, hcnt, ne_eq,
      not_false_eq_true, if_true]

theorem parse_tokens_count8 (env : Env K) (token t1 : List (List Char)) (cn : Channel K)
    (cnt : List Char) (rest : List (List Char)) (scan : Scan K)
    (hh : parse_header token = Except.ok t1)
    (hc : parse_channel env t1 = Except.ok (cn, cnt :: rest))
    (hcnt : strtol cnt 16 ≠ 1) :
    parse_tokens env token scan =
      Except.error (Fault.runtime_error
        ("num_8bit_channels = " ++ toString (strtol cnt 16)), scan) := by
  unfold parse_tokens
  rw [hh]
  simp only [hc, hcnt, ne_eq, not_false_eq_true, if_true]

theorem parse_tokens_header_error (env : Env K) (token : List (List Char)) (scan : Scan K)
    (e : Fault) (hh : parse_header token = Except.error e) :
    parse_tokens env token scan = Except.error (e, scan) := by
  unfold parse_tokens
  rw [hh]

/-! ## Lemmas on the sFA branch -/

theorem status_sFA_value (data : List Char) (hv : validate_response data = true)
    (hm : method data = Except.ok "sFA") :
    status_from_bytes_ascii data = Except.ok (sscanf_sFA data % 256) := by
  unfold status_from_bytes_ascii
  simp [hv, hm]

theorem sick_err_t_to_string_in_bounds (v : Nat) (h : v < 28) :
    ∃ name, sick_err_t_to_string v = Except.ok name := by
  have hall : ∀ v < 28, (sick_err_t_to_string v).toOption.isSome = true := by decide
  have h1 := hall v h
  cases hs : sick_err_t_to_string v with
  | ok n => exact ⟨n, rfl⟩
  | error e => rw [hs] at h1; simp [Except.toOption] at h1

theorem sick_err_t_to_string_out_of_bounds (v : Nat) (h : 28 ≤ v) :
    sick_err_t_to_string v = Except.error Fault.undefined := by
  unfold sick_err_t_to_string
  rw [List.getElem?_eq_none (by simpa using h)]

theorem sFA_any_digits :
    ∀ c1 ∈ hex_digits, ∀ c2 ∈ hex_digits,
      status_from_bytes_ascii (frame ("sFA ".toList ++ [c1, c2])) =
        Except.ok (read_digits 16 [c1, c2] 0) := by
  decide

theorem status_sFA_two_digits (c1 c2 : Char) (a b : Nat)
    (h1 : digit_value 16 c1 = some a) (h2 : digit_value 16 c2 = some b) :
    status_from_bytes_ascii (frame ("sFA ".toList ++ [c1, c2])) = Except.ok (16 * a + b) := by
  have hv : read_digits 16 [c1, c2] 0 = 16 * a + b := by
    simp [read_digits, h1, h2]; ring
  have := sFA_any_digits c1 (mem_hex_digits c1 a h1) c2 (mem_hex_digits c2 b h2)
  rw [hv] at this
  exact this

/-! ## Lemmas on telegrams without a time stamp -/

theorem add_data_no_time (env : Env K) (b : ScanBatcher K) (c1 c2 : List Char)
    (hb : b.first_junk_idx ≤ b.buffer.length) (h1 : ETX ∉ c1)
    (hp : parse_scan_telegram env (closed_frame b c1) ((closed_frame b c1).length - 1) b.s =
      Except.ok (false, b.s)) :
    add_data env b (c1 ++ ETX :: c2) =
      Except.ok (none,
        { buffer := c2 ++ (closed_frame b c1 ++ b.buffer.drop b.first_junk_idx),
          first_junk_idx := c2.length,
          s := b.s,
          first_scan := b.first_scan,
          calls := if (closed_frame b c1).head? = some STX then b.calls ++ [closed_frame b c1]
            else b.calls }) := by
  rw [add_data_with_etx env b c1 c2 hb h1]
  by_cases hs : (closed_frame b c1).head? = some STX
  · rw [if_pos hs, if_pos hs, hp]
    rfl
  · rw [if_neg hs, if_neg hs]
    rfl

/-! ## Lemmas on replies with missing tokens -/

theorem status_from_bytes_ascii_other (data : List Char)
    (hv : validate_response data = true) (hm : method data ≠ Except.ok "sFA") :
    status_from_bytes_ascii data =
      match strtok_all ((data.drop 1).take (data.length - 2)) with
      | [] => Except.error Fault.undefined
      | [_] => Except.error Fault.undefined
      | [_, _] => Except.ok sick_err_t.Ok
      | _ :: cmd_name :: token :: _ =>
        if status_ok (String.mk cmd_name) (atoi token) then Except.ok sick_err_t.Ok
        else Except.ok sick_err_t.CustomError := by
  have hlen : ¬ (data.length < 5) := by
    intro h
    unfold validate_response at hv
    rw [if_pos (by omega)] at hv
    exact Bool.false_ne_true hv
  unfold status_from_bytes_ascii
  simp only [hv, Bool.not_true, Bool.false_eq_true, if_false]
  cases hmeth : method data with
  | error e =>
    exfalso
    unfold method at hmeth
    rw [if_neg hlen] at hmeth
    exact Except.noConfusion hmeth
  | ok am =>
    have : am ≠ "sFA" := by
      intro h; apply hm; rw [hmeth, h]
    simp [this]

/-! ## Rounding in the scan configuration -/

theorem scan_config_lms_rounding :
    scan_config_lms M_PI_double
        { frequency := 25, resolution := round_double (1667 / 10000),
          start_angle := round_double (-87 * DEG2RAD_double M_PI_double),
          end_angle := round_double (95 * DEG2RAD_double M_PI_double) } =
      Except.ok (2500, 1667, 29999, 1850000) := by
  decide!
end Proofs

/-! ## Properties of the specification -/

section Claims

variable {K : Type} [Field K]

/-- C1, amended.  For every byte stream that is the concatenation of complete frames
(STX, a body holding neither STX nor ETX, ETX) on which `parse_scan_telegram`, applied to
one frame after the other, returns, and for every split of the stream into consecutive
chunks that hold at most one ETX each, feeding the chunks in order to `add_data` on a new
batcher invokes the parser exactly once per frame, on the frames in their order; no byte
stays pending and the scan of the batcher is the one the sequential parses produce. -/
theorem receive_parses_each_frame (env : Env K) (bodies chunks : List (List Char))
    (s_final : Scan K)
    (hbody : ∀ body ∈ bodies, STX ∉ body ∧ ETX ∉ body)
    (hsplit : chunks.flatten = (bodies.map frame).flatten)
    (hone : ∀ c ∈ chunks, c.count ETX ≤ 1)
    (hparse : parse_frames env (Scan.new env) (bodies.map frame) = Except.ok s_final) :
    ∃ scans b', receive env (ScanBatcher.new env) chunks = Except.ok (scans, b') ∧
      b'.calls = bodies.map frame ∧ b'.pending = [] ∧ b'.s = s_final := by
  have h := receive_frames_aux env chunks (ScanBatcher.new env) bodies s_final
    (by simp [ScanBatcher.new]) (by simp [ScanBatcher.new, ScanBatcher.pending])
    (fun body hm => (hbody body hm).2)
    (by simpa [ScanBatcher.new, ScanBatcher.pending] using hsplit) hone hparse
  simpa [ScanBatcher.new] using h

/-- Witness for C1: the telegram of scenario S5 sent twice and received in three chunks,
the second of which holds the end of the first frame and the start of the second. -/
theorem receive_parses_each_frame_witness :
    ∃ scans b',
      receive envQ (ScanBatcher.new envQ)
        [telegram_S5.take 10, telegram_S5.drop 10 ++ telegram_S5.take 30,
          telegram_S5.drop 30] = Except.ok (scans, b') ∧
      b'.calls = [payload_S5, payload_S5].map frame ∧ b'.pending = [] ∧ b'.s = scan_S5 :=
  receive_parses_each_frame envQ [payload_S5, payload_S5]
    [telegram_S5.take 10, telegram_S5.drop 10 ++ telegram_S5.take 30, telegram_S5.drop 30]
    scan_S5 (by decide!) (by decide!) (by decide!) (by decide!)

/-- C1 as stated fails.  Two S5 frames received as one chunk: the parser is invoked once,
on the first frame, and the second frame stays pending.  A frame with two 16-bit channels
followed by an S5 frame: the parser throws on the first frame and the receiver never
reaches the second. -/
theorem receive_two_frames_one_chunk :
    (receive envQ (ScanBatcher.new envQ) [telegram_S5 ++ telegram_S5]).map
        (fun r => (r.2.calls, r.2.pending)) = Except.ok ([telegram_S5], telegram_S5) ∧
    receive envQ (ScanBatcher.new envQ) [telegram_two_channels, telegram_S5] =
      Except.error (Fault.runtime_error "num_16bit_channels != 1") := by
  constructor <;> decide!

/-- C2, amended.  Let the batcher hold the pending bytes P.  A chunk without ETX is
appended: no scan, pending P ++ c, no parser call.  For a chunk whose first ETX follows
the bytes c1, the frame closed is P ++ c1 ++ [ETX]: when it does not start with STX it is
dropped; when it starts with STX the parser is invoked on exactly this frame, and when the
parser returns, `add_data` returns the scan (if the parser said true) and the pending
bytes are exactly the bytes c2 after the ETX; when the parser throws or runs into
undefined behaviour, so does `add_data`. -/
theorem add_data_closes_frame (env : Env K) (b : ScanBatcher K)
    (hb : b.first_junk_idx ≤ b.buffer.length) :
    (∀ c, ETX ∉ c →
      ∃ b', add_data env b c = Except.ok (none, b') ∧ b'.pending = b.pending ++ c ∧
        b'.calls = b.calls ∧ b'.s = b.s ∧ b'.first_junk_idx ≤ b'.buffer.length) ∧
    (∀ c1 c2, ETX ∉ c1 →
      ((closed_frame b c1).head? ≠ some STX →
        ∃ b', add_data env b (c1 ++ ETX :: c2) = Except.ok (none, b') ∧ b'.pending = c2 ∧
          b'.calls = b.calls ∧ b'.s = b.s ∧ b'.first_junk_idx ≤ b'.buffer.length) ∧
      ((closed_frame b c1).head? = some STX →
        (∀ got s,
          parse_scan_telegram env (closed_frame b c1) ((closed_frame b c1).length - 1) b.s =
            Except.ok (got, s) →
          ∃ b', add_data env b (c1 ++ ETX :: c2) =
              Except.ok (if got then some s else none, b') ∧ b'.pending = c2 ∧
            b'.calls = b.calls ++ [closed_frame b c1] ∧ b'.s = s ∧
            b'.first_junk_idx ≤ b'.buffer.length) ∧
        (∀ e,
          parse_scan_telegram env (closed_frame b c1) ((closed_frame b c1).length - 1) b.s =
            Except.error e →
          add_data env b (c1 ++ ETX :: c2) = Except.error e.1))) := by
  refine ⟨?_, ?_⟩
  · intro c hc
    refine ⟨_, add_data_without_etx env b c hb hc, ?_, rfl, rfl, ?_⟩
    · simp only [ScanBatcher.pending]
      exact vector_insert_take _ _ _ hb
    · simp only [vector_insert, List.length_append, List.length_take, List.length_drop]
      omega
  · intro c1 c2 h1
    have hstep := add_data_with_etx env b c1 c2 hb h1
    refine ⟨?_, ?_⟩
    · intro hstx
      simp only [hstx, if_false] at hstep
      exact ⟨_, hstep, by simp [ScanBatcher.pending], rfl, rfl, by simp⟩
    · intro hstx
      refine ⟨?_, ?_⟩
      · intro got s hp
        simp only [hstx, if_true, hp] at hstep
        exact ⟨_, hstep, by simp [ScanBatcher.pending], rfl, rfl, by simp⟩
      · intro e hp
        simp only [hstx, if_true, hp] at hstep
        exact hstep

/-- Witness for C2: a new batcher receives the telegram of scenario S5 followed by the
first bytes of the next frame; the parser returns true on the frame, `add_data` returns
the scan and the bytes after the ETX are pending. -/
theorem add_data_closes_frame_witness :
    ∃ b', add_data envQ (ScanBatcher.new envQ)
        ((STX :: payload_S5) ++ ETX :: [STX, 's', 'S', 'N']) =
          Except.ok (if true then some scan_S5 else none, b') ∧
      b'.pending = [STX, 's', 'S', 'N'] ∧
      b'.calls = (ScanBatcher.new envQ).calls ++
        [closed_frame (ScanBatcher.new envQ) (STX :: payload_S5)] ∧
      b'.s = scan_S5 ∧ b'.first_junk_idx ≤ b'.buffer.length :=
  ((((add_data_closes_frame envQ (ScanBatcher.new envQ) (by decide)).2
    (STX :: payload_S5) [STX, 's', 'S', 'N'] (by decide!)).2 (by decide!)).1
      true scan_S5 (by decide!))

/-- C2 as stated fails.  A new batcher receives a frame that announces two 16-bit
channels, followed by three more bytes: the first ETX closes the frame, the parser throws
on it, and `add_data` raises instead of returning with the three bytes pending. -/
theorem add_data_parser_throws :
    add_data envQ (ScanBatcher.new envQ) (telegram_two_channels ++ [STX, 's', 'S']) =
      Except.error (Fault.runtime_error "num_16bit_channels != 1") := by
  decide!

/-- C3.  For every command name C and every status code s, `status_ok C s` is s = 0 for
mLMPsetscancfg, LMCstopmeas and LMCstartmeas, s = 1 for mEEwriteall and Run, true for
LMDscandata, and s = 1 for every other name. -/
theorem status_ok_table (C : String) (s : Int) :
    (status_ok C s = true) ↔
      (if C = "mLMPsetscancfg" ∨ C = "LMCstopmeas" ∨ C = "LMCstartmeas" then s = 0
       else if C = "mEEwriteall" ∨ C = "Run" then s = 1
       else if C = "LMDscandata" then True
       else s = 1) :=
  status_ok_iff C s

/-- C4.  For every reply frame STX payload ETX that passes `validate_response` and whose
method (the three bytes `method` reads) is not sFA: when the payload has the tokens
method, command name, status and possibly more, `status_from_bytes_ascii` returns Ok if
`status_ok` holds of the command name and the status read by `atoi`, and CustomError
otherwise; when the payload has just the tokens method and command name it returns Ok.
The reply "sAN SetAccessMode 1" gives Ok and the reply "sAN SetAccessMode 0" gives
CustomError. -/
theorem status_from_bytes_ascii_reply (payload m cmd st : List Char)
    (rest : List (List Char))
    (hv : validate_response (frame payload) = true)
    (hm : method (frame payload) ≠ Except.ok "sFA") :
    (strtok_all payload = m :: cmd :: st :: rest →
        status_from_bytes_ascii (frame payload) =
          Except.ok (if status_ok (String.mk cmd) (atoi st) then sick_err_t.Ok
                     else sick_err_t.CustomError)) ∧
    (strtok_all payload = [m, cmd] →
        status_from_bytes_ascii (frame payload) = Except.ok sick_err_t.Ok) ∧
    status_from_bytes_ascii (frame "sAN SetAccessMode 1".toList) = Except.ok sick_err_t.Ok ∧
    status_from_bytes_ascii (frame "sAN SetAccessMode 0".toList) =
      Except.ok sick_err_t.CustomError := by
  refine ⟨?_, ?_, by decide, by decide⟩
  · intro ht
    rw [status_from_bytes_ascii_tokens payload hv hm, ht]
    simp only []
    split <;> rfl
  · intro ht
    rw [status_from_bytes_ascii_tokens payload hv hm, ht]

/-- Witness for C4: the reply "sWA TSCRole 1 0", with a token after the status. -/
theorem status_from_bytes_ascii_reply_witness :
    status_from_bytes_ascii (frame "sWA TSCRole 1 0".toList) =
      Except.ok (if status_ok (String.mk "TSCRole".toList) (atoi "1".toList)
                 then sick_err_t.Ok else sick_err_t.CustomError) :=
  (status_from_bytes_ascii_reply "sWA TSCRole 1 0".toList "sWA".toList "TSCRole".toList
    "1".toList ["0".toList] (by decide) (by decide)).1 (by decide)

/-- C5.  For every two hexadecimal digits c1 c2 whose value 16 a + b lies in 1..26,
`status_from_bytes_ascii` applied to the frame STX "sFA c1c2" ETX returns the error kind
with index 16 a + b. -/
theorem status_from_bytes_ascii_sFA (c1 c2 : Char) (a b : Nat)
    (h1 : digit_value 16 c1 = some a) (h2 : digit_value 16 c2 = some b)
    (hlo : 1 ≤ 16 * a + b) (hhi : 16 * a + b ≤ 26) :
    status_from_bytes_ascii (frame ("sFA ".toList ++ [c1, c2])) = Except.ok (16 * a + b) :=
  status_sFA_digits c1 c2 a b h1 h2 hlo hhi

/-- Witness for C5: the reply "sFA 08" gives the kind at index 8. -/
theorem status_from_bytes_ascii_sFA_witness :
    status_from_bytes_ascii (frame ("sFA ".toList ++ ['0', '8'])) =
      Except.ok (16 * 0 + 8) ∧
    (16 * 0 + 8 : sick_err_t) = sick_err_t.Sopas_Error_BUFFER_UNDERFLOW :=
  ⟨status_from_bytes_ascii_sFA '0' '8' 0 8 (by decide) (by decide) (by decide) (by decide),
    by decide⟩

/-- C6, amended.  For every byte string STX payload ETX, `validate_response` returns true
if and only if the payload has at least five bytes and contains neither STX nor ETX. -/
theorem validate_response_frame (payload : List Char) :
    validate_response (frame payload) = true ↔
      (5 ≤ payload.length ∧ STX ∉ payload ∧ ETX ∉ payload) :=
  validate_frame_iff payload

/-- C6 as stated fails for short payloads: the payload "sAN" contains neither STX nor ETX
and the frame is rejected. -/
theorem validate_response_short_frame :
    validate_response (frame "sAN".toList) = false ∧
      STX ∉ "sAN".toList ∧ ETX ∉ "sAN".toList := by
  decide

/-- C7, amended.  For every reply that does not contain exactly one STX and exactly one
ETX, `status_from_bytes_ascii` returns CustomError. -/
theorem status_from_bytes_ascii_invalid (data : List Char)
    (h : ¬ (data.count STX = 1 ∧ data.count ETX = 1)) :
    status_from_bytes_ascii data = Except.ok sick_err_t.CustomError :=
  status_invalid data h

/-- Witness for C7: a reply cut off before its ETX. -/
theorem status_from_bytes_ascii_invalid_witness :
    status_from_bytes_ascii (STX :: "sAN SetAccessMode".toList) =
      Except.ok sick_err_t.CustomError :=
  status_from_bytes_ascii_invalid (STX :: "sAN SetAccessMode".toList) (by decide)

/-- C7 as stated fails.  Two replies read at once hold two STX and two ETX; the result is
CustomError (index 27), not the InvalidDatagram kind (index 28 in `types.hpp`). -/
theorem status_from_bytes_ascii_two_replies :
    status_from_bytes_ascii (frame "sAN Run 1".toList ++ frame "sAN Run 1".toList) =
      Except.ok sick_err_t.CustomError ∧
    sick_err_t.CustomError ≠ sick_err_t.CustomErrorInvalidDatagram := by
  decide

/-- C8 as stated fails for channels with very large fields.  With the angular increment
7FFFFFFFFFFFFFFF the constructor of the channel is asked to reserve 922337203685477
elements, and where the allocator refuses, `parse_channel` ends in `std::bad_alloc`.  With
the raw value 7FFFFFFFFFFFFFFF and scale 2 the product of the two `long` values wraps to
-2 and the value stored is -2/1000. -/
theorem parse_channel_large_fields :
    parse_channel envQ
        (["DIST1", "3F800000", "00000000", "FFF18110", "7FFFFFFFFFFFFFFF", "1",
          "03E8"].map String.toList) = Except.error Fault.bad_alloc ∧
    (parse_channel envQ
        (["DIST1", "40000000", "00000000", "FFF18110", "1DB", "1",
          "7FFFFFFFFFFFFFFF"].map String.toList)).map (fun r => r.1.values) =
      Except.ok [-2 / 1000] := by
  constructor <;> decide!

/-- C9, evaluated at the telegram of scenario S5 (angular increment field 1DB = 475, five
values): the parse succeeds and stores 5, the number of values, as `ang_increment`; the
angular step 475/10000 degrees in radians is a different number. -/
theorem S5_ang_increment :
    (parse_scan_telegram envQ telegram_S5 (telegram_S5.length - 1) (Scan.new envQ)).map
        (fun r => (r.1, r.2.n_vals, r.2.ang_increment)) = Except.ok (true, 5, 5) ∧
    (475 : ℚ) / 10000 * (M_PI_double / 180) ≠ 5 := by
  constructor <;> decide!

/-- C10, evaluated at the telegram of scenario S5 (start angle -95 degrees, increment
0.0475 degrees, five values): the parse succeeds and stores -95 and -94.81, the wire
angles in degrees, as `start_angle` and `end_angle`; `angle_from_lms` of the wire angles
are other numbers, and `end_angle` is not `start_angle + (n_vals - 1) * ang_increment`. -/
theorem S5_start_end_angle :
    (parse_scan_telegram envQ telegram_S5 (telegram_S5.length - 1) (Scan.new envQ)).map
        (fun r => (r.1, r.2.start_angle, r.2.end_angle, r.2.n_vals, r.2.ang_increment)) =
      Except.ok (true, -95, -9481 / 100, 5, 5) ∧
    angle_from_lms M_PI_double (-95) ≠ -95 ∧
    angle_from_lms M_PI_double (-95 + (5 - 1) * (475 / 10000)) ≠ -9481 / 100 ∧
    (-9481 / 100 : ℚ) ≠ -95 + (5 - 1) * 5 := by
  refine ⟨by decide!, by decide!, by decide!, by decide!⟩

/-- What the first successful parse stores, for every telegram: when the `Scan` has
no ranges yet, the tokens after the header start with the range channel (description,
scale, offset, start angle, angular increment, count n) and `parse_scan_telegram` returns
true, then the start-angle token converts to some u, n is at least 1, and the scan holds
`n_vals = n`, `ang_increment = n`, `start_angle` = the wire start angle int32(u)/10000 in
degrees, and `end_angle` = the wire start angle plus (n - 1) times the wire increment, in
degrees.  `M_PI` only has to be different from 0. -/
theorem first_parse_stores [CharZero K] (env : Env K) (buffer : List Char)
    (last_valid_idx : Nat) (desc scale off start incr n : List Char)
    (rest : List (List Char)) (scan scan' : Scan K)
    (hM : env.M_PI ≠ 0)
    (hhdr : parse_header (strtok_all (buffer.take (last_valid_idx + 1))) =
      Except.ok (desc :: scale :: off :: start :: incr :: n :: rest))
    (hfirst : scan.ranges = [])
    (hp : parse_scan_telegram env buffer last_valid_idx scan = Except.ok (true, scan')) :
    ∃ u, sscanf_X start = some u ∧ 1 ≤ (strtol n 16).toNat ∧
      scan'.n_vals = (strtol n 16).toNat ∧
      scan'.ang_increment = ((strtol n 16 : Int) : K) ∧
      scan'.start_angle = ((to_int32 u : Int) : K) / 10000 ∧
      scan'.end_angle = ((to_int32 u : Int) : K) / 10000 +
        (((strtol n 16).toNat - 1 : Nat) : K) * (((strtol incr 16 : Int) : K) / 10000) :=
  first_parse_fields env _ desc scale off start incr n rest scan scan' hM hhdr hfirst hp

/-- The telegram of scenario S5, parsed into a new `Scan`, as an instance of
`first_parse_stores`. -/
theorem first_parse_stores_witness :
    ∃ u, sscanf_X "FFF18110".toList = some u ∧ 1 ≤ (strtol "5".toList 16).toNat ∧
      scan_S5.n_vals = (strtol "5".toList 16).toNat ∧
      scan_S5.ang_increment = ((strtol "5".toList 16 : Int) : ℚ) ∧
      scan_S5.start_angle = ((to_int32 u : Int) : ℚ) / 10000 ∧
      scan_S5.end_angle = ((to_int32 u : Int) : ℚ) / 10000 +
        (((strtol "5".toList 16).toNat - 1 : Nat) : ℚ) *
          (((strtol "1DB".toList 16 : Int) : ℚ) / 10000) :=
  first_parse_stores envQ telegram_S5 (telegram_S5.length - 1) "DIST1".toList
    "3F800000".toList "00000000".toList "FFF18110".toList "1DB".toList "5".toList
    (["03E8", "07D0", "0BB8", "0FA0", "1388", "1", "RSSI1", "3F800000", "00000000",
      "FFF18110", "1DB", "5", "A", "14", "1E", "28", "32", "0", "0", "0", "1", "7E5", "3",
      "4", "C", "1E", "2D"].map String.toList ++ ["3E8".toList ++ [ETX]])
    (Scan.new envQ) scan_S5 (by decide!) (by decide!) (by decide!) (by decide!)

/-- C11, amended.  Let the telegram parse up to the field `time_exists`, and let the
description of its 16-bit channel not contain DIST, or the description of its 8-bit channel
not contain RSSI, or the two channels hold different numbers of values.  When
`time_exists` is 1 and the seven time fields are present, `parse_scan_telegram` throws a
`std::runtime_error` and the scan is, at the throw, exactly the scan it was given.  When
`time_exists` is not 1 it signals nothing: it returns false and the scan it was given. -/
theorem parse_scan_telegram_rejects (env : Env K) (buffer : List Char) (last_valid_idx : Nat)
    (r : Channel K × Channel K × Int × List (List Char)) (scan : Scan K)
    (hf : parse_fields env (strtok_all (buffer.take (last_valid_idx + 1))) = Except.ok r)
    (hbad : string_find r.1.description "DIST".toList = none ∨
      string_find r.2.1.description "RSSI".toList = none ∨
      r.1.values.length ≠ r.2.1.values.length) :
    (r.2.2.1 = 1 → ∀ stamp, parse_stamp env r.2.2.2 = Except.ok stamp →
      ∃ what, parse_scan_telegram env buffer last_valid_idx scan =
        Except.error (Fault.runtime_error what, scan)) ∧
    (r.2.2.1 ≠ 1 →
      parse_scan_telegram env buffer last_valid_idx scan = Except.ok (false, scan)) := by
  unfold parse_scan_telegram
  refine ⟨?_, ?_⟩
  · intro hte stamp hst
    rw [parse_tokens_of_fields env _ scan r stamp hf hte hst]
    exact store_scan_rejects env r.1 r.2.1 stamp scan hbad
  · intro hte
    exact parse_tokens_no_time env _ scan r hf hte

/-- Witness for C11: the telegram with the 16-bit channel ANGL1 and a time stamp, parsed
into the scan of scenario S5, which stays as it is. -/
theorem parse_scan_telegram_rejects_witness :
    ∃ what, parse_scan_telegram envQ telegram_ANGL1 (telegram_ANGL1.length - 1)
      scan_S5 = Except.error (Fault.runtime_error what, scan_S5) :=
  (parse_scan_telegram_rejects envQ telegram_ANGL1 (telegram_ANGL1.length - 1)
    (channel_Q "ANGL1" (-95) (475 / 10000) [1, 2],
      channel_Q "RSSI1" (-95) (475 / 10000) [1 / 100, 2 / 100], 1, stamp_tokens_S5)
    scan_S5 (by decide!) (by decide!)).1 (by decide) 8444647653872345152 (by decide!)

/-- C11 as stated fails.  The telegram with the 16-bit channel ANGL1 and `time_exists` 0:
no error, the parser returns false.  The same telegram with a time stamp: the parser
throws `std::runtime_error` with a message; the code has no InvalidDatagram kind. -/
theorem parse_scan_telegram_ANGL1 :
    parse_scan_telegram envQ telegram_ANGL1_no_time (telegram_ANGL1_no_time.length - 1)
      (Scan.new envQ) = Except.ok (false, Scan.new envQ) ∧
    parse_scan_telegram envQ telegram_ANGL1 (telegram_ANGL1.length - 1) (Scan.new envQ) =
      Except.error
        (Fault.runtime_error "First 16bit channel was not range but ANGL1", Scan.new envQ) := by
  constructor <;> decide!

/-- C12, amended.  Let a scan be populated with n values (`n_vals` = n > 0, `ranges` and
`intensities` of length n), and let a telegram be valid (DIST and RSSI channels with the
same number n' of values, `time_exists` 1, time fields present) with n' > n.  Then
`parse_scan_telegram` signals no error: it returns true, `ranges` and `intensities` become
the first n values of the new channels, `time` the new stamp, and `n_vals` and the two
lengths stay n. -/
theorem parse_scan_telegram_more_values (env : Env K) (buffer : List Char)
    (last_valid_idx : Nat) (r : Channel K × Channel K × Int × List (List Char))
    (stamp : Int) (scan : Scan K)
    (hf : parse_fields env (strtok_all (buffer.take (last_valid_idx + 1))) = Except.ok r)
    (hte : r.2.2.1 = 1) (hst : parse_stamp env r.2.2.2 = Except.ok stamp)
    (hD : string_find r.1.description "DIST".toList ≠ none)
    (hR : string_find r.2.1.description "RSSI".toList ≠ none)
    (hlen : r.1.values.length = r.2.1.values.length)
    (hn : 0 < scan.n_vals) (hpr : scan.ranges.length = scan.n_vals)
    (hpi : scan.intensities.length = scan.n_vals)
    (hmore : scan.n_vals < r.1.values.length) :
    ∃ scan', parse_scan_telegram env buffer last_valid_idx scan = Except.ok (true, scan') ∧
      scan' = { scan with ranges := r.1.values.take scan.n_vals,
                          intensities := r.2.1.values.take scan.n_vals,
                          time := stamp } ∧
      scan'.n_vals = scan.n_vals ∧ scan'.ranges.length = scan.n_vals ∧
      scan'.intensities.length = scan.n_vals := by
  have h0 : scan.ranges.length ≠ 0 := by omega
  have hmr : memcpy scan.ranges r.1.values scan.n_vals =
      Except.ok (r.1.values.take scan.n_vals) := by
    unfold memcpy
    rw [if_pos ⟨by omega, by omega⟩, List.drop_of_length_le (by omega)]
    simp
  have hmi : memcpy scan.intensities r.2.1.values scan.n_vals =
      Except.ok (r.2.1.values.take scan.n_vals) := by
    unfold memcpy
    rw [if_pos ⟨by omega, by omega⟩, List.drop_of_length_le (by omega)]
    simp
  refine ⟨_, ?_, rfl, rfl, ?_, ?_⟩
  · unfold parse_scan_telegram
    rw [parse_tokens_of_fields env _ scan r stamp hf hte hst]
    exact store_scan_copy env r.1 r.2.1 stamp scan _ _ hD hR hlen h0 hmr hmi
  · simp only [List.length_take]; omega
  · simp only [List.length_take]; omega

/-- Witness for C12: the scan of scenario S5 (five values) receives the telegram with six
values. -/
theorem parse_scan_telegram_more_values_witness :
    ∃ scan', parse_scan_telegram envQ telegram_six_values (telegram_six_values.length - 1)
        scan_S5 = Except.ok (true, scan') ∧
      scan' = { scan_S5 with
        ranges := ([6, 7, 8, 9, 10, 11] : List ℚ).take scan_S5.n_vals,
        intensities := ([6 / 100, 7 / 100, 8 / 100, 9 / 100, 10 / 100, 11 / 100] :
          List ℚ).take scan_S5.n_vals,
        time := 8444647654871345152 } ∧
      scan'.n_vals = scan_S5.n_vals ∧ scan'.ranges.length = scan_S5.n_vals ∧
      scan'.intensities.length = scan_S5.n_vals :=
  parse_scan_telegram_more_values envQ telegram_six_values (telegram_six_values.length - 1)
    (channel_Q "DIST1" (-95) (475 / 10000) [6, 7, 8, 9, 10, 11],
      channel_Q "RSSI1" (-95) (475 / 10000)
        [6 / 100, 7 / 100, 8 / 100, 9 / 100, 10 / 100, 11 / 100],
      1, ["7E5", "3", "4", "C", "1E", "2E"].map String.toList ++ ["0".toList ++ [ETX]])
    8444647654871345152 scan_S5
    (by decide!) (by decide) (by decide!) (by decide!) (by decide!) (by decide!)
    (by decide!) (by decide!) (by decide!) (by decide!)

/-- C12 as stated fails.  The scan of scenario S5, populated with five values, receives a
valid telegram with six values: the parser signals no error and returns true; the first
five new values are stored. -/
theorem parse_six_values_into_S5 :
    (parse_scan_telegram envQ telegram_six_values (telegram_six_values.length - 1)
        scan_S5).map (fun p => (p.1, p.2.n_vals, p.2.ranges)) =
      Except.ok (true, 5, [6, 7, 8, 9, 10]) := by
  decide!

/-- C13.  Let a telegram be valid with at least one value (DIST and RSSI channels with the
same positive number of values, `time_exists` 1, time fields present) and let a scan have
no ranges yet.  Then the first `parse_scan_telegram` returns true with a scan that holds
the values of the two channels and the stamp, and a second parse of the same telegram into
that scan returns true with exactly the same scan: `ranges`, `intensities` and `time` are
identical, and `n_vals`, `start_angle`, `end_angle`, `ang_increment`, `sin_map` and
`cos_map` are as the first call set them. -/
theorem parse_scan_telegram_twice (env : Env K) (buffer : List Char) (last_valid_idx : Nat)
    (r : Channel K × Channel K × Int × List (List Char)) (stamp : Int) (scan : Scan K)
    (hf : parse_fields env (strtok_all (buffer.take (last_valid_idx + 1))) = Except.ok r)
    (hte : r.2.2.1 = 1) (hst : parse_stamp env r.2.2.2 = Except.ok stamp)
    (hD : string_find r.1.description "DIST".toList ≠ none)
    (hR : string_find r.2.1.description "RSSI".toList ≠ none)
    (hlen : r.1.values.length = r.2.1.values.length)
    (hpos : 0 < r.1.values.length)
    (h0 : scan.ranges = []) :
    ∃ scan1, parse_scan_telegram env buffer last_valid_idx scan = Except.ok (true, scan1) ∧
      parse_scan_telegram env buffer last_valid_idx scan1 = Except.ok (true, scan1) ∧
      scan1.ranges = r.1.values ∧ scan1.intensities = r.2.1.values ∧ scan1.time = stamp := by
  obtain ⟨scan1, hs, _, hr, hi, ht⟩ :=
    store_scan_first_ok env r.1 r.2.1 stamp scan hD hR hlen
      (parse_fields_valid env _ r hf) hpos h0
  have h1 : parse_scan_telegram env buffer last_valid_idx scan = Except.ok (true, scan1) := by
    unfold parse_scan_telegram
    rw [parse_tokens_of_fields env _ scan r stamp hf hte hst]
    exact hs
  refine ⟨scan1, h1, ?_, hr, hi, ht⟩
  unfold parse_scan_telegram at h1 ⊢
  exact parse_tokens_again env _ scan scan1 h1

/-- Witness for C13: the telegram of scenario S5 parsed twice, starting from a new scan. -/
theorem parse_scan_telegram_twice_witness :
    ∃ scan1, parse_scan_telegram envQ telegram_S5 (telegram_S5.length - 1) (Scan.new envQ) =
        Except.ok (true, scan1) ∧
      parse_scan_telegram envQ telegram_S5 (telegram_S5.length - 1) scan1 =
        Except.ok (true, scan1) ∧
      scan1.ranges = (channel_Q "DIST1" (-95) (475 / 10000) [1, 2, 3, 4, 5]).values ∧
      scan1.intensities = (channel_Q "RSSI1" (-95) (475 / 10000)
        [1 / 100, 2 / 100, 3 / 100, 4 / 100, 5 / 100]).values ∧
      scan1.time = 8444647653872345152 :=
  parse_scan_telegram_twice envQ telegram_S5 (telegram_S5.length - 1)
    (channel_Q "DIST1" (-95) (475 / 10000) [1, 2, 3, 4, 5],
      channel_Q "RSSI1" (-95) (475 / 10000) [1 / 100, 2 / 100, 3 / 100, 4 / 100, 5 / 100],
      1, stamp_tokens_S5)
    8444647653872345152 (Scan.new envQ)
    (by decide!) (by decide) (by decide!) (by decide!) (by decide!) (by decide!)
    (by decide!) (by decide!)

/-- C14.  For every telegram that `parse_scan_telegram` parses with success, with the time
fields y, mo, d, h, mi, s, us after `time_exists`, each read as hexadecimal by `strtol`:
`time_exists` is 1, and with T = (y * 31556952 + mo * 2629746 + d * 86400 + h * 3600 +
mi * 60 + s) * 1000000 + us the time of the scan is the count of clock ticks
T * `ticks_per_microsecond`, taken modulo 2^64 as a signed 64-bit number.  Only when that
product fits 64 bits is the time the epoch of the clock plus T microseconds. -/
theorem parse_scan_telegram_time (env : Env K) (buffer : List Char) (last_valid_idx : Nat)
    (r : Channel K × Channel K × Int × List (List Char))
    (y mo d h mi s us : List Char) (rest : List (List Char)) (scan scan' : Scan K)
    (hf : parse_fields env (strtok_all (buffer.take (last_valid_idx + 1))) = Except.ok r)
    (ht : r.2.2.2 = y :: mo :: d :: h :: mi :: s :: us :: rest)
    (hp : parse_scan_telegram env buffer last_valid_idx scan = Except.ok (true, scan')) :
    r.2.2.1 = 1 ∧
    scan'.time =
      to_int64
        (((strtol y 16 * 31556952 + strtol mo 16 * 2629746 + strtol d 16 * 86400 +
          strtol h 16 * 3600 + strtol mi 16 * 60 + strtol s 16) * 1000000 + strtol us 16) *
          (env.ticks_per_microsecond : Int)) ∧
    (LONG_MIN ≤
        ((strtol y 16 * 31556952 + strtol mo 16 * 2629746 + strtol d 16 * 86400 +
          strtol h 16 * 3600 + strtol mi 16 * 60 + strtol s 16) * 1000000 + strtol us 16) *
          (env.ticks_per_microsecond : Int) →
      ((strtol y 16 * 31556952 + strtol mo 16 * 2629746 + strtol d 16 * 86400 +
          strtol h 16 * 3600 + strtol mi 16 * 60 + strtol s 16) * 1000000 + strtol us 16) *
          (env.ticks_per_microsecond : Int) ≤ LONG_MAX →
      scan'.time =
        ((strtol y 16 * 31556952 + strtol mo 16 * 2629746 + strtol d 16 * 86400 +
          strtol h 16 * 3600 + strtol mi 16 * 60 + strtol s 16) * 1000000 + strtol us 16) *
          (env.ticks_per_microsecond : Int)) := by
  unfold parse_scan_telegram at hp
  obtain ⟨r', stamp, hf', hte, hst, hs⟩ := parse_tokens_true_fields env _ scan scan' hp
  rw [hf] at hf'
  simp only [Except.ok.injEq] at hf'
  subst hf'
  have htime : scan'.time =
      to_int64
        (((strtol y 16 * 31556952 + strtol mo 16 * 2629746 + strtol d 16 * 86400 +
          strtol h 16 * 3600 + strtol mi 16 * 60 + strtol s 16) * 1000000 + strtol us 16) *
          (env.ticks_per_microsecond : Int)) := by
    rw [store_scan_time env r.1 r.2.1 stamp scan scan' hs]
    rw [ht] at hst
    simp only [parse_stamp, Except.ok.injEq] at hst
    rw [← hst]
    simp only [years, months, days]
    congr 1
    ring
  refine ⟨hte, htime, ?_⟩
  intro h1 h2
  rw [htime, to_int64_of_long _ h1 h2]

/-- Witness for C14: the telegram of scenario S5, stamped year 7E5 (2021), month 3, day 4,
12:30:45 and 1000 microseconds, with the clock of libstdc++. -/
theorem parse_scan_telegram_time_witness :
    scan_S5.time =
      to_int64
        (((strtol "7E5".toList 16 * 31556952 + strtol "3".toList 16 * 2629746 +
          strtol "4".toList 16 * 86400 + strtol "C".toList 16 * 3600 +
          strtol "1E".toList 16 * 60 + strtol "2D".toList 16) * 1000000 +
          strtol ("3E8".toList ++ [ETX]) 16) * (envQ.ticks_per_microsecond : Int)) :=
  (parse_scan_telegram_time envQ telegram_S5 (telegram_S5.length - 1)
    (channel_Q "DIST1" (-95) (475 / 10000) [1, 2, 3, 4, 5],
      channel_Q "RSSI1" (-95) (475 / 10000) [1 / 100, 2 / 100, 3 / 100, 4 / 100, 5 / 100],
      1, stamp_tokens_S5)
    "7E5".toList "3".toList "4".toList "C".toList "1E".toList "2D".toList
    ("3E8".toList ++ [ETX]) [] (Scan.new envQ) scan_S5 (by decide!) (by decide)
    (by decide!)).2.1

/-- C14 as stated fails with the clock of libstdc++, which counts nanoseconds in 64 bits.
The stamp of the telegram of scenario S5 is 63784879875001000 microseconds after the
epoch; the scan holds 8444647653872345152 ticks, which is not 63784879875001000000.  With
a clock that counts microseconds the scan holds 63784879875001000 ticks.  The first year
field for which the count of nanoseconds leaves 64 bits is 293. -/
theorem parse_scan_telegram_time_S5 :
    (parse_scan_telegram envQ telegram_S5 (telegram_S5.length - 1) (Scan.new envQ)).map
        (fun p => (p.1, p.2.time)) = Except.ok (true, 8444647653872345152) ∧
    (63784879875001000 : Int) * 1000 ≠ 8444647653872345152 ∧
    (parse_scan_telegram { envQ with ticks_per_microsecond := 1 } telegram_S5
        (telegram_S5.length - 1) (Scan.new envQ)).map (fun p => (p.1, p.2.time)) =
      Except.ok (true, 63784879875001000) ∧
    (292 : Int) * 31556952 * 1000000 * 1000 ≤ LONG_MAX ∧
    LONG_MAX < (293 : Int) * 31556952 * 1000000 * 1000 := by
  refine ⟨by decide!, by decide, by decide!, by decide, by decide⟩

/-- C15.  The four values `set_scan_config` computes for 25 Hz, resolution 0.1667 and the
angles -95 and +95 degrees given in radians are 2500, 1667, 899710 and 900289, and the
command it sends carries them: the start and end fields are not -50000 and +1850000.
Those come out only when the angles are multiplied by the constant `DEG2RAD` of
`sick.cpp`, which is 180/pi, as the `main` function does. -/
theorem set_scan_config_S4_fields :
    scan_config_lms M_PI_double params_S4 = Except.ok (2500, 1667, 899710, 900289) ∧
    make_command_msg SOPASCommand.MLMPSETSCANCFG
        [Arg.int 2500, Arg.int 1667, Arg.int 899710, Arg.int 900289] =
      Except.ok (frame "sMN mLMPsetscancfg +2500 +1 +1667 +899710 +900289".toList) ∧
    (set_scan_config M_PI_double sock_output_range_fails params_S4).toOption.bind
        (fun r => r.2.trace.head?) =
      some (Event.send (frame "sMN mLMPsetscancfg +2500 +1 +1667 +899710 +900289".toList)) ∧
    scan_config_lms M_PI_double params_main = Except.ok (2500, 1667, -50000, 1850000) := by
  decide!

/-- C16.  For every frequency and angular increment that fit an `unsigned int` and every
start and end angle that fit an `int`, the encoded mLMPsetscancfg command is STX,
'sMN mLMPsetscancfg +', the frequency in a field of at least four characters padded on
the left with blanks, ' +1 +', the angular increment in such a field, a blank, the start
angle and a blank and the end angle, each as a sign character ('-' when negative, '+'
otherwise) and the decimal digits of the magnitude, then ETX.  When frequency and
increment are 1000 or more, the payload is seven tokens without blanks joined by single
blanks. -/
theorem make_command_msg_mLMPsetscancfg (freq ang : Nat) (start end_angle : Int)
    (hf : freq < 4294967296) (ha : ang < 4294967296)
    (hs1 : -2147483648 ≤ start) (hs2 : start < 2147483648)
    (he1 : -2147483648 ≤ end_angle) (he2 : end_angle < 2147483648) :
    make_command_msg SOPASCommand.MLMPSETSCANCFG
        [Arg.int freq, Arg.int ang, Arg.int start, Arg.int end_angle] =
      Except.ok (frame ("sMN mLMPsetscancfg +".toList ++ pad_left 4 SP (utoa 10 freq) ++
        " +1 +".toList ++ pad_left 4 SP (utoa 10 ang) ++
        SP :: signed_decimal start ++ SP :: signed_decimal end_angle)) ∧
    (1000 ≤ freq → 1000 ≤ ang →
      make_command_msg SOPASCommand.MLMPSETSCANCFG
          [Arg.int freq, Arg.int ang, Arg.int start, Arg.int end_angle] =
        Except.ok (frame (List.intercalate [SP]
          ["sMN".toList, "mLMPsetscancfg".toList, '+' :: utoa 10 freq, "+1".toList,
            '+' :: utoa 10 ang, signed_decimal start, signed_decimal end_angle]))) ∧
    SP ∉ '+' :: utoa 10 freq ∧ SP ∉ '+' :: utoa 10 ang ∧
    SP ∉ signed_decimal start ∧ SP ∉ signed_decimal end_angle ∧
    (signed_decimal start).head? = some (if start < 0 then '-' else '+') ∧
    (signed_decimal end_angle).head? = some (if end_angle < 0 then '-' else '+') ∧
    read_digits 10 (signed_decimal start).tail 0 = start.natAbs ∧
    read_digits 10 (signed_decimal end_angle).tail 0 = end_angle.natAbs := by
  have hmsg := make_command_msg_setscancfg freq ang start end_angle hf ha hs1 hs2 he1 he2
  have hplus : ¬ (SP = '+') := by decide
  have hminus : ¬ (SP = '-') := by decide
  have hsd : ∀ v : Int, SP ∉ signed_decimal v := by
    intro v
    unfold signed_decimal
    split_ifs <;> simp [utoa_no_sp, hplus, hminus]
  refine ⟨hmsg, ?_, ?_, ?_, hsd start, hsd end_angle, rfl, rfl, ?_, ?_⟩
  · intro h1 h2
    rw [hmsg, pad_left_of_le 4 SP (utoa 10 freq)
        (utoa_length_gt 10 freq 3 (by omega) (by omega)),
      pad_left_of_le 4 SP (utoa 10 ang) (utoa_length_gt 10 ang 3 (by omega) (by omega))]
    simp [List.intercalate, List.intersperse, SP]
  · simp [utoa_no_sp, hplus]
  · simp [utoa_no_sp, hplus]
  · exact read_digits_utoa 10 _ (Or.inl rfl)
  · exact read_digits_utoa 10 _ (Or.inl rfl)

/-- Witness for C16: 25 Hz, resolution 0.1667, start -5 and end +185 degrees in sensor
units. -/
theorem make_command_msg_mLMPsetscancfg_witness :
    make_command_msg SOPASCommand.MLMPSETSCANCFG
        [Arg.int 2500, Arg.int 1667, Arg.int (-50000), Arg.int 1850000] =
      Except.ok (frame "sMN mLMPsetscancfg +2500 +1 +1667 -50000 +1850000".toList) :=
  (make_command_msg_mLMPsetscancfg 2500 1667 (-50000) 1850000 (by decide) (by decide)
    (by decide) (by decide) (by decide) (by decide)).1

/-- Counterexample for C16: the angular increment 833 (resolution 0.0833) is written
'+ 833', with a blank between the sign and the digits, so the payload does not have the
form '+<ang_incr>' and splits into eight tokens at single blanks. -/
theorem make_command_msg_increment_833 :
    make_command_msg SOPASCommand.MLMPSETSCANCFG
        [Arg.int 2500, Arg.int 833, Arg.int (-50000), Arg.int 1850000] =
      Except.ok (frame "sMN mLMPsetscancfg +2500 +1 + 833 -50000 +1850000".toList) ∧
    make_command_msg SOPASCommand.MLMPSETSCANCFG
        [Arg.int 2500, Arg.int 833, Arg.int (-50000), Arg.int 1850000] ≠
      Except.ok (frame "sMN mLMPsetscancfg +2500 +1 +833 -50000 +1850000".toList) := by
  decide

/-- C17.  For every access mode m in 0..255 and every 32-bit password hash p, the
SetAccessMode request that `set_access_mode` sends is STX, 'sMN SetAccessMode ', m as a
decimal of at least two digits padded with zeros, one blank, p as exactly eight upper
case hexadecimal digits, ETX; for m = 3 and p = 0xF4724744 the payload is
'sMN SetAccessMode 03 F4724744'. -/
theorem set_access_mode_request (sock : Socket) (m p : Nat) (hm : m < 256)
    (hp : p < 4294967296) :
    set_access_mode sock m p =
      send_sopas_command_and_check_answer sock
        (frame ("sMN SetAccessMode ".toList ++ fmt_d false true 2 (m : Int) ++
          SP :: fmt_unsigned 16 true 8 (p : Int))) ∧
    make_command_msg SOPASCommand.SETACCESSMODE [Arg.int m, Arg.int p] =
      Except.ok (frame ("sMN SetAccessMode ".toList ++ fmt_d false true 2 (m : Int) ++
        SP :: fmt_unsigned 16 true 8 (p : Int))) ∧
    2 ≤ (fmt_d false true 2 (m : Int)).length ∧
    (∀ c ∈ fmt_d false true 2 (m : Int), c ∈ decimal_digits) ∧
    read_digits 10 (fmt_d false true 2 (m : Int)) 0 = m ∧
    (fmt_unsigned 16 true 8 (p : Int)).length = 8 ∧
    (∀ c ∈ fmt_unsigned 16 true 8 (p : Int), c ∈ upper_hex_digits) ∧
    read_digits 16 (fmt_unsigned 16 true 8 (p : Int)) 0 = p ∧
    make_command_msg SOPASCommand.SETACCESSMODE [Arg.int 3, Arg.int 0xF4724744] =
      Except.ok (frame "sMN SetAccessMode 03 F4724744".toList) := by
  have hD := fmt_d02_byte m hm
  have hH := fmt_X08_word p hp
  have hmsg := make_command_msg_access_mode (m : Int) (p : Int)
  refine ⟨?_, hmsg, hD.1, hD.2.1, hD.2.2, hH.1, hH.2.1, hH.2.2, by decide⟩
  unfold set_access_mode
  rw [Nat.mod_eq_of_lt hm, Nat.mod_eq_of_lt hp]
  unfold make_command_msg at hmsg
  rw [hmsg]

/-- Witness for C17: the default arguments of `set_access_mode`, mode 3 and hash
0xF4724744, on a sensor that answers the login. -/
theorem set_access_mode_request_witness :
    set_access_mode sock_no_scan_in_flight 3 0xF4724744 =
      send_sopas_command_and_check_answer sock_no_scan_in_flight
        (frame "sMN SetAccessMode 03 F4724744".toList) :=
  (set_access_mode_request sock_no_scan_in_flight 3 0xF4724744 (by decide) (by decide)).1

/-- C18.  On a sensor that answers LMPoutputRange with the error 8 and every other
command with success, `set_scan_config` does not stop at LMPoutputRange: it goes on to
send LMCstartmeas and returns Ok, the status of that last command.  The same error in
reply to FREchoFilter, one command earlier, is returned at once. -/
theorem set_scan_config_output_range_ignored :
    status_from_bytes_ascii (frame "sFA 08".toList) =
      Except.ok sick_err_t.Sopas_Error_BUFFER_UNDERFLOW ∧
    (set_scan_config M_PI_double sock_output_range_fails params_main).toOption.map
        (fun r => (r.1, r.2.trace, r.2.inbox)) =
      some (sick_err_t.Ok,
        [Event.send (frame "sMN mLMPsetscancfg +2500 +1 +1667 -50000 +1850000".toList),
          Event.recv (some
            (frame "sAN mLMPsetscancfg 0 +2500 +1 +1667 -50000 +1850000".toList)),
          Event.send (frame "sWN LMDscandatacfg 00 00 1 0 0 0 00 0 0 0 1 1".toList),
          Event.recv (some (frame "sWA LMDscandatacfg".toList)),
          Event.send (frame "sWN FREchoFilter 2".toList),
          Event.recv (some (frame "sWA FREchoFilter".toList)),
          Event.send (frame "sWN LMPoutputRange 1 +1667 -50000 +1850000".toList),
          Event.recv (some (frame "sFA 08".toList)),
          Event.send (frame "sMN LMCstartmeas".toList),
          Event.recv (some (frame "sAN LMCstartmeas 0".toList))], []) ∧
    (set_scan_config M_PI_double
        { sock_output_range_fails with
          inbox := [some (frame "sAN mLMPsetscancfg 0 +2500 +1 +1667 -50000 +1850000".toList),
            some (frame "sWA LMDscandatacfg".toList), some (frame "sFA 08".toList)] }
        params_main).toOption.map (fun r => (r.1, r.2.trace.length)) =
      some (sick_err_t.Sopas_Error_BUFFER_UNDERFLOW, 6) := by
  decide!

/-- C19.  With one scan telegram in flight before the reply to LMDscandata 0, the loop of
`stop` does not discard the telegram: its payload 'sSN LMDscandata ...' contains the text
the loop looks for, so the telegram is taken as the acknowledgement.  SetAccessMode is
sent before the reply to LMDscandata 0 has been read, that reply is read as the answer
to the login, LMCstopmeas is sent, and the answer to the login is read as the answer to
LMCstopmeas; the answer to LMCstopmeas stays unread.  With no telegram in flight the
exchange is in order. -/
theorem stop_takes_scan_telegram_as_reply :
    string_find telegram_S5 "LMDscandata".toList ≠ none ∧
    stop sock_one_scan_in_flight =
      Except.ok
        { trace :=
            [Event.send (frame "sEN LMDscandata 0".toList),
              Event.recv (some telegram_S5),
              Event.send (frame "sMN SetAccessMode 03 F4724744".toList),
              Event.recv (some (frame "sEA LMDscandata 0".toList)),
              Event.send (frame "sMN LMCstopmeas".toList),
              Event.recv (some (frame "sAN SetAccessMode 1".toList))],
          send_results := [],
          inbox := [some (frame "sAN LMCstopmeas 0".toList)] } ∧
    stop sock_no_scan_in_flight =
      Except.ok
        { trace :=
            [Event.send (frame "sEN LMDscandata 0".toList),
              Event.recv (some (frame "sEA LMDscandata 0".toList)),
              Event.send (frame "sMN SetAccessMode 03 F4724744".toList),
              Event.recv (some (frame "sAN SetAccessMode 1".toList)),
              Event.send (frame "sMN LMCstopmeas".toList),
              Event.recv (some (frame "sAN LMCstopmeas 0".toList))],
          send_results := [],
          inbox := [] } := by
  decide!

/-- C20.  For every dotted address a.b.c.d with the octets a, b, c, d in 0..255 written
in decimal, `ip_addr_to_hex_str` returns eleven characters: the octets a, b, c, d in
that order, each as exactly two upper case hexadecimal digits, separated by single
blanks; for 192.168.95.44 the result is 'C0 A8 5F 2C'. -/
theorem ip_addr_to_hex_str_octets (a b c d : Nat) (ha : a < 256) (hb : b < 256)
    (hc : c < 256) (hd : d < 256) :
    ip_addr_to_hex_str
        (utoa 10 a ++ '.' :: (utoa 10 b ++ '.' :: (utoa 10 c ++ '.' :: utoa 10 d))) =
      Except.ok [digit_char (a / 16), digit_char (a % 16), SP,
        digit_char (b / 16), digit_char (b % 16), SP,
        digit_char (c / 16), digit_char (c % 16), SP,
        digit_char (d / 16), digit_char (d % 16)] ∧
    (∀ o ∈ [a, b, c, d], digit_char (o / 16) ∈ upper_hex_digits ∧
      digit_char (o % 16) ∈ upper_hex_digits ∧
      read_digits 16 [digit_char (o / 16), digit_char (o % 16)] 0 = o) ∧
    ip_addr_to_hex_str "192.168.95.44".toList = Except.ok "C0 A8 5F 2C".toList := by
  refine ⟨ip_addr_to_hex_str_dotted a b c d ha hb hc hd, ?_, by decide!⟩
  intro o ho
  have ho256 : o < 256 := by
    simp only [List.mem_cons, List.mem_singleton, List.not_mem_nil, or_false] at ho
    rcases ho with h | h | h | h <;> omega
  exact hex_octet_facts o ho256

/-- Witness for C20: the address 10.0.0.255. -/
theorem ip_addr_to_hex_str_octets_witness :
    ip_addr_to_hex_str "10.0.0.255".toList = Except.ok "0A 00 00 FF".toList :=
  (ip_addr_to_hex_str_octets 10 0 0 255 (by decide) (by decide) (by decide) (by decide)).1

/-- C21.  With the constants of `sick.cpp` (`DEG2RAD` = 180/pi, `RAD2DEG` = 1/`DEG2RAD`),
for every real x, `angle_to_lms` x = x * (pi/180) + 90, and for every real d,
`angle_from_lms` d = (d - 90) * (180/pi): the two factors are the reverse of what the
names say.  `angle_to_lms` 0 is 90, but `angle_to_lms` (pi/2) is pi * pi / 360 + 90, which
is below 91 and so is not 180; with the `double` value of `M_PI` the result is also below
91. -/
theorem angle_to_lms_swapped_factors :
    (∀ x : ℝ, angle_to_lms Real.pi x = x * (Real.pi / 180) + 90) ∧
    (∀ d : ℝ, angle_from_lms Real.pi d = (d - 90) * (180 / Real.pi)) ∧
    angle_to_lms Real.pi 0 = 90 ∧
    angle_to_lms Real.pi (Real.pi / 2) = Real.pi * Real.pi / 360 + 90 ∧
    angle_to_lms Real.pi (Real.pi / 2) < 91 ∧
    angle_to_lms M_PI_double (M_PI_double / 2) < 91 ∧
    angle_from_lms M_PI_double 180 > 5156 := by
  refine ⟨fun x => angle_to_lms_eq Real.pi x, fun d => angle_from_lms_eq Real.pi d, ?_, ?_, ?_,
    by decide!, by decide!⟩
  · rw [angle_to_lms_eq]; ring
  · rw [angle_to_lms_eq]; ring
  · rw [angle_to_lms_eq]
    have h1 := Real.pi_le_four
    have h0 := Real.pi_pos
    nlinarith

/-- C22.  Over the reals, for every x (in particular for x between -pi and pi),
`angle_from_lms` (`angle_to_lms` x) is exactly x, so the distance between the two is below
1e-9; the same holds in exact arithmetic with the `double` value of `M_PI`. -/
theorem angle_round_trip :
    (∀ x : ℝ, angle_from_lms Real.pi (angle_to_lms Real.pi x) = x) ∧
    (∀ x : ℝ, |angle_from_lms Real.pi (angle_to_lms Real.pi x) - x| < 1 / 1000000000) ∧
    (∀ x : ℚ, angle_from_lms M_PI_double (angle_to_lms M_PI_double x) = x) := by
  refine ⟨fun x => angle_from_lms_to_lms Real.pi x Real.pi_ne_zero, ?_,
    fun x => angle_from_lms_to_lms M_PI_double x (by decide!)⟩
  intro x
  rw [angle_from_lms_to_lms Real.pi x Real.pi_ne_zero, sub_self, abs_zero]
  norm_num

/-- C23.  For every channel whose start-angle token converts, whose declared count is the
number of raw value tokens that follow and for which the reservation that the constructor
of the channel makes succeeds, `parse_channel` signals no error whatever the scale token
is: it returns the channel and the tokens after it, with scale 1 when the scale token is
3F800000 and with scale 2 for every other scale token, be it 40000000 or not (the raw
value times the scale taken as a `long`). -/
theorem parse_channel_scale_factor (env : Env K) (desc scale off start incr n : List Char)
    (vals rest : List (List Char)) (u size : Nat)
    (hstart : sscanf_X start = some u)
    (hsize : double_to_size_t
      (round_double (round_double ((strtol incr 16 : Int) : ℚ) / 10000)) = Except.ok size)
    (hmax : size ≤ vector_max_size) (hres : size = 0 ∨ env.reserve size = true)
    (hn : strtol n 16 = (vals.length : Int)) :
    ∃ cn : Channel K,
      parse_channel env (desc :: scale :: off :: start :: incr :: n :: (vals ++ rest)) =
        Except.ok (cn, rest) ∧
      (scale = "3F800000".toList →
        cn.values = vals.map (fun r =>
          ((strtol off 16 : Int) : K) + ((strtol r 16 : Int) : K) / 1000)) ∧
      (scale ≠ "3F800000".toList →
        cn.values = vals.map (fun r =>
          ((strtol off 16 : Int) : K) + ((to_int64 (2 * strtol r 16) : Int) : K) / 1000)) := by
  refine ⟨_, parse_channel_eq env desc scale off start incr n vals rest u size hstart hsize
    hmax hres hn, ?_, ?_⟩
  · intro h
    apply List.map_congr_left
    intro r _
    rw [if_pos h, one_mul, to_int64_of_long _ (strtol_long r 16).1 (strtol_long r 16).2]
  · intro h
    apply List.map_congr_left
    intro r _
    rw [if_neg h]

/-- Witness for C23: the DIST1 channel of scenario S5 with the scale token 12345678, which
is neither 3F800000 nor 40000000: no error, and the values are those of scale 2. -/
theorem parse_channel_scale_factor_witness :
    ∃ cn : Channel ℚ,
      parse_channel envQ
        ("DIST1".toList :: "12345678".toList :: "00000000".toList :: "FFF18110".toList ::
          "1DB".toList :: "5".toList ::
          (["03E8", "07D0", "0BB8", "0FA0", "1388"].map String.toList ++ ["1".toList])) =
        Except.ok (cn, ["1".toList]) ∧
      cn.values = [2, 4, 6, 8, 10] := by
  obtain ⟨cn, h1, _, h3⟩ :=
    parse_channel_scale_factor envQ "DIST1".toList "12345678".toList "00000000".toList
      "FFF18110".toList "1DB".toList "5".toList
      (["03E8", "07D0", "0BB8", "0FA0", "1388"].map String.toList) ["1".toList] 4294017296 0
      (by decide) (by decide!) (by decide) (Or.inl rfl) (by decide)
  refine ⟨cn, h1, ?_⟩
  rw [h3 (by decide)]
  decide!

/-- C23 as stated fails.  The DIST1 channel of scenario S5 with the scale token 12345678:
`parse_channel` signals no error and returns the values with scale 2, as it does for the
scale token 40000000. -/
theorem parse_channel_other_scale :
    (parse_channel envQ channel_other_scale).map (fun r => (r.1.values, r.2)) =
      Except.ok ([2, 4, 6, 8, 10], []) ∧
    (parse_channel envQ
        (["DIST1", "40000000", "00000000", "FFF18110", "1DB", "5",
          "03E8", "07D0", "0BB8", "0FA0", "1388"].map String.toList)).map
        (fun r => (r.1.values, r.2)) =
      Except.ok ([2, 4, 6, 8, 10], []) := by
  constructor <;> decide!

/-- C24.  Let a telegram hold the eighteen header fields, the encoder field, the two
tokens the parser skips when the encoder field is not 0, and a 16-bit channel count that,
read as hexadecimal, is not 1; or let its header and its 16-bit channel parse and the
token after the channel, the 8-bit channel count, read as hexadecimal, not be 1.  Then
`parse_scan_telegram` throws `std::runtime_error` for every scan it is given, and at the
throw the scan is exactly the scan it was given. -/
theorem parse_scan_telegram_channel_count (env : Env K) (buffer : List Char)
    (last_valid_idx : Nat) (scan : Scan K)
    (h : (∃ hdr enc skip cnt rest,
          strtok_all (buffer.take (last_valid_idx + 1)) = hdr ++ enc :: (skip ++ cnt :: rest) ∧
          hdr.length = 18 ∧ skip.length = (if strtol enc 16 ≠ 0 then 2 else 0) ∧
          strtol cnt 16 ≠ 1) ∨
        (∃ t1 cn cnt rest,
          parse_header (strtok_all (buffer.take (last_valid_idx + 1))) = Except.ok t1 ∧
          parse_channel env t1 = Except.ok (cn, cnt :: rest) ∧
          strtol cnt 16 ≠ 1)) :
    ∃ what, parse_scan_telegram env buffer last_valid_idx scan =
      Except.error (Fault.runtime_error what, scan) := by
  unfold parse_scan_telegram
  rcases h with ⟨hdr, enc, skip, cnt, rest, htok, hlen, hskip, hcnt⟩ |
    ⟨t1, cn, cnt, rest, hh, hc, hcnt⟩
  · refine ⟨"num_16bit_channels != 1", parse_tokens_header_error env _ scan _ ?_⟩
    rw [htok]
    exact parse_header_count16 hdr enc skip cnt rest hlen hskip hcnt
  · exact ⟨_, parse_tokens_count8 env _ t1 cn cnt rest scan hh hc hcnt⟩

/-- Witness for C24: the telegram that announces two 16-bit channels and the telegram that
announces no 8-bit channel, each parsed into the scan of scenario S5. -/
theorem parse_scan_telegram_channel_count_witness :
    (∃ what, parse_scan_telegram envQ telegram_two_channels
      (telegram_two_channels.length - 1) scan_S5 =
        Except.error (Fault.runtime_error what, scan_S5)) ∧
    (∃ what, parse_scan_telegram envQ telegram_no_8bit_channel
      (telegram_no_8bit_channel.length - 1) scan_S5 =
        Except.error (Fault.runtime_error what, scan_S5)) :=
  ⟨parse_scan_telegram_channel_count envQ telegram_two_channels
      (telegram_two_channels.length - 1) scan_S5
      (Or.inl ⟨(strtok_all telegram_two_channels).take 18, "0".toList, [], "2".toList,
        (strtok_all telegram_two_channels).drop 20, by decide!, by decide!, by decide!,
        by decide!⟩),
    parse_scan_telegram_channel_count envQ telegram_no_8bit_channel
      (telegram_no_8bit_channel.length - 1) scan_S5
      (Or.inr ⟨(strtok_all telegram_no_8bit_channel).drop 20,
        channel_Q "DIST1" (-95) (475 / 10000) [1, 2], "0".toList,
        (strtok_all telegram_no_8bit_channel).drop 29, by decide!, by decide!, by decide!⟩)⟩

/-- C25.  For every reply that passes `validate_response` and whose method is sFA,
`status_from_bytes_ascii` returns the value of the enumeration with the index N that the
conversion `%2X` of `sscanf` stores (0 when nothing converts), taken modulo 256; for the
reply 'sFA XY' with two hexadecimal digits, N is the value of XY.  Nothing keeps N within
1..26: N = 0 is Ok, N = 27 is CustomError, and for N from 28 to 255 the value is outside
the enumeration and the lookup of `sick_err_t_to_string` is out of bounds. -/
theorem status_from_bytes_ascii_sFA_kind (data : List Char)
    (hv : validate_response data = true) (hm : method data = Except.ok "sFA") :
    status_from_bytes_ascii data = Except.ok (sscanf_sFA data % 256) ∧
    sscanf_sFA data % 256 < 256 ∧
    (sscanf_sFA data % 256 ≤ 27 →
      ∃ name, sick_err_t_to_string (sscanf_sFA data % 256) = Except.ok name) ∧
    (28 ≤ sscanf_sFA data % 256 →
      sick_err_t_to_string (sscanf_sFA data % 256) = Except.error Fault.undefined) ∧
    (sscanf_sFA data % 256 = 0 →
      status_from_bytes_ascii data = Except.ok sick_err_t.Ok) ∧
    (sscanf_sFA data % 256 = 27 →
      status_from_bytes_ascii data = Except.ok sick_err_t.CustomError) ∧
    (∀ (c1 c2 : Char) (a b : Nat), digit_value 16 c1 = some a → digit_value 16 c2 = some b →
      status_from_bytes_ascii (frame ("sFA ".toList ++ [c1, c2])) =
        Except.ok (16 * a + b)) := by
  have hs := status_sFA_value data hv hm
  refine ⟨hs, Nat.mod_lt _ (by decide), ?_, ?_, ?_, ?_, ?_⟩
  · intro h
    exact sick_err_t_to_string_in_bounds _ (by omega)
  · intro h
    exact sick_err_t_to_string_out_of_bounds _ h
  · intro h
    rw [hs, h]
    rfl
  · intro h
    rw [hs, h]
    rfl
  · intro c1 c2 a b h1 h2
    exact status_sFA_two_digits c1 c2 a b h1 h2

/-- Witness for C25: the reply 'sFA FF' passes validation, has the method sFA, and is
classified with the index 255, for which the lookup is out of bounds. -/
theorem status_from_bytes_ascii_sFA_kind_witness :
    status_from_bytes_ascii (frame "sFA FF".toList) =
      Except.ok (sscanf_sFA (frame "sFA FF".toList) % 256) ∧
    sscanf_sFA (frame "sFA FF".toList) % 256 = 255 ∧
    sick_err_t_to_string (sscanf_sFA (frame "sFA FF".toList) % 256) =
      Except.error Fault.undefined :=
  ⟨(status_from_bytes_ascii_sFA_kind (frame "sFA FF".toList) (by decide) (by decide)).1,
    by decide,
    (status_from_bytes_ascii_sFA_kind (frame "sFA FF".toList) (by decide)
      (by decide)).2.2.2.1 (by decide)⟩

/-- C25 as stated fails.  The replies 'sFA 00' and 'sFA zz' pass validation, have the
method sFA and are classified Ok; 'sFA 1B' is classified CustomError, which is not one of
the 26 SOPAS error kinds; 'sFA FF' gives the index 255, outside the enumeration, for
which the lookup of `sick_err_t_to_string` is out of bounds, and
`send_sopas_command_and_check_answer` does that lookup on every reply. -/
theorem status_from_bytes_ascii_sFA_zero :
    validate_response (frame "sFA 00".toList) = true ∧
    method (frame "sFA 00".toList) = Except.ok "sFA" ∧
    status_from_bytes_ascii (frame "sFA 00".toList) = Except.ok sick_err_t.Ok ∧
    status_from_bytes_ascii (frame "sFA zz".toList) = Except.ok sick_err_t.Ok ∧
    status_from_bytes_ascii (frame "sFA 1B".toList) = Except.ok sick_err_t.CustomError ∧
    status_from_bytes_ascii (frame "sFA FF".toList) = Except.ok 255 ∧
    sick_err_t_to_string 255 = Except.error Fault.undefined ∧
    send_sopas_command_and_check_answer
        { trace := [], send_results := [], inbox := [some (frame "sFA FF".toList)] }
        (frame "sMN Run".toList) = Except.error Fault.undefined := by
  decide

/-- C26.  Let the bytes pending in a batcher, a chunk up to its first ETX and that ETX
form a telegram that parses up to the field `time_exists` (header, one 16-bit and one
8-bit channel, flags), whatever the two channels hold, and let `time_exists` not be 1.
Then `parse_scan_telegram` returns false and the scan it was given, for every scan, and
`add_data` returns no scan for the chunk and keeps the scan of the batcher. -/
theorem parse_scan_telegram_no_time (env : Env K) (b : ScanBatcher K) (c1 c2 : List Char)
    (r : Channel K × Channel K × Int × List (List Char))
    (hb : b.first_junk_idx ≤ b.buffer.length) (h1 : ETX ∉ c1)
    (hf : parse_fields env
      (strtok_all ((closed_frame b c1).take ((closed_frame b c1).length - 1 + 1))) =
        Except.ok r)
    (hte : r.2.2.1 ≠ 1) :
    (∀ scan : Scan K,
      parse_scan_telegram env (closed_frame b c1) ((closed_frame b c1).length - 1) scan =
        Except.ok (false, scan)) ∧
    ∃ b1, add_data env b (c1 ++ ETX :: c2) = Except.ok (none, b1) ∧ b1.s = b.s ∧
      b1.first_scan = b.first_scan ∧ b1.pending = c2 := by
  have hp : ∀ scan : Scan K,
      parse_scan_telegram env (closed_frame b c1) ((closed_frame b c1).length - 1) scan =
        Except.ok (false, scan) := by
    intro scan
    unfold parse_scan_telegram
    exact parse_tokens_no_time env _ scan r hf hte
  refine ⟨hp, _, add_data_no_time env b c1 c2 hb h1 (hp b.s), rfl, rfl, ?_⟩
  simp [ScanBatcher.pending]

/-- Witness for C26: a new batcher receives the telegram of scenario S5 with `time_exists`
0 in one chunk; the channels DIST1 and RSSI1 are valid. -/
theorem parse_scan_telegram_no_time_witness :
    (∀ scan : Scan ℚ,
      parse_scan_telegram envQ
        (closed_frame (ScanBatcher.new envQ) (STX :: payload_S5_no_time))
        ((closed_frame (ScanBatcher.new envQ) (STX :: payload_S5_no_time)).length - 1) scan =
          Except.ok (false, scan)) ∧
    ∃ b1, add_data envQ (ScanBatcher.new envQ) ((STX :: payload_S5_no_time) ++ ETX :: []) =
        Except.ok (none, b1) ∧ b1.s = (ScanBatcher.new envQ).s ∧
      b1.first_scan = (ScanBatcher.new envQ).first_scan ∧ b1.pending = [] :=
  parse_scan_telegram_no_time envQ (ScanBatcher.new envQ) (STX :: payload_S5_no_time) []
    (channel_Q "DIST1" (-95) (475 / 10000) [1, 2, 3, 4, 5],
      channel_Q "RSSI1" (-95) (475 / 10000) [1 / 100, 2 / 100, 3 / 100, 4 / 100, 5 / 100],
      0, [])
    (by decide) (by decide!) (by decide!) (by decide)

/-- C27.  For every byte string that passes `validate_response` and whose method is not
sFA: when the bytes between the first and the last hold fewer than two tokens (no token,
or a method token and no command name), `status_from_bytes_ascii` constructs a
`std::string` from the NULL that `strtok` returned, which is undefined behaviour; only
with two tokens or more does it return Ok or CustomError. -/
theorem status_from_bytes_ascii_missing_token (data : List Char)
    (hv : validate_response data = true) (hm : method data ≠ Except.ok "sFA") :
    ((strtok_all ((data.drop 1).take (data.length - 2))).length < 2 →
      status_from_bytes_ascii data = Except.error Fault.undefined) ∧
    (2 ≤ (strtok_all ((data.drop 1).take (data.length - 2))).length →
      status_from_bytes_ascii data = Except.ok sick_err_t.Ok ∨
      status_from_bytes_ascii data = Except.ok sick_err_t.CustomError) := by
  rw [status_from_bytes_ascii_other data hv hm]
  rcases strtok_all ((data.drop 1).take (data.length - 2)) with
    _ | ⟨t0, _ | ⟨t1, _ | ⟨t2, ts⟩⟩⟩
  · exact ⟨fun _ => rfl, fun h => absurd h (by simp)⟩
  · exact ⟨fun _ => rfl, fun h => absurd h (by simp)⟩
  · exact ⟨fun h => absurd h (by simp), fun _ => Or.inl rfl⟩
  · refine ⟨fun h => absurd h (by simp), fun _ => ?_⟩
    simp only
    split_ifs
    · exact Or.inl rfl
    · exact Or.inr rfl

/-- Witness for C27: the reply that holds the method sAN followed by four blanks; it
passes `validate_response`, its method is sAN, and the classification ends in undefined
behaviour. -/
theorem status_from_bytes_ascii_missing_token_witness :
    validate_response reply_method_only = true ∧
    method reply_method_only = Except.ok "sAN" ∧
    status_from_bytes_ascii reply_method_only = Except.error Fault.undefined :=
  ⟨by decide, by decide,
    (status_from_bytes_ascii_missing_token reply_method_only (by decide) (by decide)).1
      (by decide)⟩

end Claims

end SickLMS
